import Mathlib

/-!
# upscaledb Erlang NIF layer (`c_src/ups_nifs.cc`)

A shallow embedding of the NIF layer: Erlang terms, the `erl_nif` calls the
layer uses, the status translator, the parameter marshaller, the handle
wrappers with their `is_closed` flag, every NIF of `ups_nif_funcs` and the five
resource cleanup callbacks.  The storage engine and the host allocator are
external; they appear as an oracle (`Host`) and every call made to the engine
is appended to a trace, so that "no native call" is "the trace is unchanged".
-/

namespace UpsNifs

/-! ## Erlang terms and the `erl_nif` accessors -/

/-- Erlang terms as seen through `erl_nif`.  A binary carries the address
`data` at which the VM stores its bytes; a resource term names a wrapper
object by its index in the resource heap. -/
inductive Term where
  | atom (name : String)
  | int (n : Int)
  | binary (data : Nat) (bytes : List Nat)
  | nil
  | cons (hd tl : Term)
  | tuple (elems : List Term)
  | resource (id : Nat)
  | other (tag : Nat)

/-- The Erlang list with elements `xs` and tail `tl` (`tl = Term.nil` for a
proper list). -/
def mkList (xs : List Term) (tl : Term) : Term := xs.foldr Term.cons tl

/-- An Erlang string: the proper list of the character codes. -/
def mkString (bytes : List Nat) : Term :=
  mkList (bytes.map (fun (b : Nat) => Term.int (Int.ofNat b))) Term.nil

def MAX_PARAMETERS : Nat := 64
def MAX_STRING : Nat := 2048

/-- `enif_is_list`: true for the empty list and for a cons cell. -/
def enif_is_list : Term → Bool
  | .nil => true
  | .cons _ _ => true
  | _ => false

/-- `enif_get_list_cell`: head and tail of a cons cell. -/
def enif_get_list_cell : Term → Option (Term × Term)
  | .cons hd tl => some (hd, tl)
  | _ => none

/-- `enif_get_tuple`: the elements of a tuple (the arity is their number). -/
def enif_get_tuple : Term → Option (List Term)
  | .tuple elems => some elems
  | _ => none

/-- `enif_get_atom(env, term, buf, size, ERL_NIF_LATIN1)`: the name of the atom
when it is Latin-1 and fits the buffer with its terminating NUL; `none` stands
for a return value `<= 0`. -/
def enif_get_atom (t : Term) (size : Nat) : Option String :=
  match t with
  | .atom name =>
    if name.length + 1 ≤ size ∧ name.toList.all (fun c => c.toNat < 256) then some name
    else none
  | _ => none

/-- The C string a NUL-terminated buffer holds after the characters of `s`
have been written to it: the characters before the first NUL. -/
def c_str (s : String) : String :=
  String.mk (s.toList.takeWhile (fun c => decide (c ≠ Char.ofNat 0)))

/-- The comparison loop of `strcmp` on two C strings: `0` when they are equal,
otherwise `-1` or `1` as the first difference is smaller or greater (C fixes
the sign only). -/
def strcmp_loop : List Char → List Char → Int
  | [], [] => 0
  | [], _ :: _ => -1
  | _ :: _, [] => 1
  | a :: as, b :: bs => if a = b then strcmp_loop as bs else if a < b then -1 else 1

/-- `strcmp(a, b)` on the buffers holding the characters of `a` and of `b`,
each followed by a NUL: only the characters before the first NUL of each are
compared. -/
def strcmp (a b : String) : Int := strcmp_loop (c_str a).toList (c_str b).toList

/-- `enif_get_uint64`: an integer term in `[0, 2^64)`. -/
def enif_get_uint64 : Term → Option Nat
  | .int n => if 0 ≤ n ∧ n < 2 ^ 64 then some n.toNat else none
  | _ => none

/-- `enif_get_uint`: an integer term in `[0, 2^32)`. -/
def enif_get_uint : Term → Option Nat
  | .int n => if 0 ≤ n ∧ n < 2 ^ 32 then some n.toNat else none
  | _ => none

/-- `enif_get_int`: an integer term in `[-2^31, 2^31)`. -/
def enif_get_int : Term → Option Int
  | .int n => if -(2 ^ 31) ≤ n ∧ n < 2 ^ 31 then some n else none
  | _ => none

/-- The copying loop of `enif_get_string`: `n` bytes are already in `buf`.
Returns the C return value and the buffer as left behind. -/
def enif_get_string_loop (len : Nat) : Term → Nat → List Nat → Int × List Nat
  | .nil, n, buf => ((n : Int) + 1, buf.set n 0)
  | .cons (.int c) tl, n, buf =>
    if 0 ≤ c ∧ c < 256 then
      if n + 1 ≥ len then (-(len : Int), buf.set n 0)
      else enif_get_string_loop len tl (n + 1) (buf.set n c.toNat)
    else (0, buf.set n 0)
  | _, n, buf => (0, buf.set n 0)

/-- `enif_get_string(env, list, buf, len, ERL_NIF_LATIN1)`: copies the string
with a terminating NUL; returns the number of bytes written (NUL included),
`0` when the term is not a Latin-1 string, `-len` when it was truncated. -/
def enif_get_string (t : Term) (buf : List Nat) (len : Nat) : Int × List Nat :=
  if len < 1 then (0, buf) else enif_get_string_loop len t 0 buf

/-- The C string held in a buffer: the bytes before the first NUL. -/
def cstr (buf : List Nat) : List Nat := buf.takeWhile (fun b => b != 0)

/-- `ErlNifBinary`: `bytes` is the content of the `size` bytes at `data`. -/
structure ErlNifBinary where
  size : Nat
  data : Nat
  bytes : List Nat
deriving DecidableEq, Repr

/-- `enif_inspect_binary`: fails on a non-binary and when the VM yields no
data pointer, so a successful call always leaves `data` non-null. -/
def enif_inspect_binary : Term → Option ErlNifBinary
  | .binary data bytes => if data = 0 then none else some ⟨bytes.length, data, bytes⟩
  | _ => none

/-- `enif_make_binary`: the binary term owning the buffer. -/
def enif_make_binary (bin : ErlNifBinary) : Term := .binary bin.data bin.bytes

/-- The value of `(int)v` for a 32-bit unsigned `v`. -/
def to_int (v : Nat) : Int :=
  if v % 2 ^ 32 < 2 ^ 31 then ((v % 2 ^ 32 : Nat) : Int) else ((v % 2 ^ 32 : Nat) : Int) - 2 ^ 32

/-- `enif_make_int` and `enif_make_int64`. -/
def enif_make_int (n : Int) : Term := .int n

/-! ## Constants of the engine headers -/

/-- The constants of `ups/upscaledb.h` used by the layer: the parameter names
`UPS_PARAM_*` and the status codes.  The header is not part of this
repository, so the values are a parameter of the model. -/
structure Header where
  UPS_PARAM_JOURNAL_COMPRESSION : Nat
  UPS_PARAM_RECORD_COMPRESSION : Nat
  UPS_PARAM_KEY_COMPRESSION : Nat
  UPS_PARAM_CACHE_SIZE : Nat
  UPS_PARAM_PAGE_SIZE : Nat
  UPS_PARAM_FILE_SIZE_LIMIT : Nat
  UPS_PARAM_KEY_SIZE : Nat
  UPS_PARAM_RECORD_SIZE : Nat
  UPS_PARAM_MAX_DATABASES : Nat
  UPS_PARAM_KEY_TYPE : Nat
  UPS_PARAM_RECORD_TYPE : Nat
  UPS_PARAM_LOG_DIRECTORY : Nat
  UPS_PARAM_ENCRYPTION_KEY : Nat
  UPS_PARAM_NETWORK_TIMEOUT_SEC : Nat
  UPS_PARAM_FLAGS : Nat
  UPS_PARAM_FILEMODE : Nat
  UPS_PARAM_FILENAME : Nat
  UPS_PARAM_DATABASE_NAME : Nat
  UPS_PARAM_MAX_KEYS_PER_PAGE : Nat
  UPS_SUCCESS : Int
  UPS_INV_RECORD_SIZE : Int
  UPS_INV_KEY_SIZE : Int
  UPS_INV_PAGE_SIZE : Int
  UPS_OUT_OF_MEMORY : Int
  UPS_INV_PARAMETER : Int
  UPS_INV_FILE_HEADER : Int
  UPS_INV_FILE_VERSION : Int
  UPS_KEY_NOT_FOUND : Int
  UPS_DUPLICATE_KEY : Int
  UPS_INTEGRITY_VIOLATED : Int
  UPS_INTERNAL_ERROR : Int
  UPS_WRITE_PROTECTED : Int
  UPS_BLOB_NOT_FOUND : Int
  UPS_IO_ERROR : Int
  UPS_NOT_IMPLEMENTED : Int
  UPS_FILE_NOT_FOUND : Int
  UPS_WOULD_BLOCK : Int
  UPS_NOT_READY : Int
  UPS_LIMITS_REACHED : Int
  UPS_ALREADY_INITIALIZED : Int
  UPS_NEED_RECOVERY : Int
  UPS_CURSOR_STILL_OPEN : Int
  UPS_FILTER_NOT_FOUND : Int
  UPS_TXN_CONFLICT : Int
  UPS_KEY_ERASED_IN_TXN : Int
  UPS_TXN_STILL_OPEN : Int
  UPS_CURSOR_IS_NIL : Int
  UPS_DATABASE_NOT_FOUND : Int
  UPS_DATABASE_ALREADY_EXISTS : Int
  UPS_DATABASE_ALREADY_OPEN : Int
  UPS_ENVIRONMENT_ALREADY_OPEN : Int
  UPS_LOG_INV_FILE_HEADER : Int
  UPS_NETWORK_ERROR : Int

/-- A header instance on which the model is evaluated (values in the style of
the engine's public header; the theorems do not depend on them). -/
def upscaledb_h : Header where
  UPS_PARAM_JOURNAL_COMPRESSION := 0x1000
  UPS_PARAM_RECORD_COMPRESSION := 0x1001
  UPS_PARAM_KEY_COMPRESSION := 0x1002
  UPS_PARAM_CACHE_SIZE := 0x100
  UPS_PARAM_PAGE_SIZE := 0x101
  UPS_PARAM_FILE_SIZE_LIMIT := 0x109
  UPS_PARAM_KEY_SIZE := 0x102
  UPS_PARAM_RECORD_SIZE := 0x108
  UPS_PARAM_MAX_DATABASES := 0x103
  UPS_PARAM_KEY_TYPE := 0x104
  UPS_PARAM_RECORD_TYPE := 0x112
  UPS_PARAM_LOG_DIRECTORY := 0x105
  UPS_PARAM_ENCRYPTION_KEY := 0x106
  UPS_PARAM_NETWORK_TIMEOUT_SEC := 0x107
  UPS_PARAM_FLAGS := 0x200
  UPS_PARAM_FILEMODE := 0x201
  UPS_PARAM_FILENAME := 0x202
  UPS_PARAM_DATABASE_NAME := 0x203
  UPS_PARAM_MAX_KEYS_PER_PAGE := 0x204
  UPS_SUCCESS := 0
  UPS_INV_RECORD_SIZE := -2
  UPS_INV_KEY_SIZE := -3
  UPS_INV_PAGE_SIZE := -4
  UPS_OUT_OF_MEMORY := -6
  UPS_INV_PARAMETER := -8
  UPS_INV_FILE_HEADER := -9
  UPS_INV_FILE_VERSION := -10
  UPS_KEY_NOT_FOUND := -11
  UPS_DUPLICATE_KEY := -12
  UPS_INTEGRITY_VIOLATED := -13
  UPS_INTERNAL_ERROR := -14
  UPS_WRITE_PROTECTED := -15
  UPS_BLOB_NOT_FOUND := -16
  UPS_IO_ERROR := -18
  UPS_NOT_IMPLEMENTED := -20
  UPS_FILE_NOT_FOUND := -21
  UPS_WOULD_BLOCK := -22
  UPS_NOT_READY := -23
  UPS_LIMITS_REACHED := -24
  UPS_ALREADY_INITIALIZED := -27
  UPS_NEED_RECOVERY := -28
  UPS_CURSOR_STILL_OPEN := -29
  UPS_FILTER_NOT_FOUND := -30
  UPS_TXN_CONFLICT := -31
  UPS_KEY_ERASED_IN_TXN := -32
  UPS_TXN_STILL_OPEN := -33
  UPS_CURSOR_IS_NIL := -100
  UPS_DATABASE_NOT_FOUND := -200
  UPS_DATABASE_ALREADY_EXISTS := -201
  UPS_DATABASE_ALREADY_OPEN := -202
  UPS_ENVIRONMENT_ALREADY_OPEN := -203
  UPS_LOG_INV_FILE_HEADER := -300
  UPS_NETWORK_ERROR := -400

/-! ## Status translator -/

def g_atom_ok : Term := .atom "ok"
def g_atom_error : Term := .atom "error"
def g_atom_key_not_found : Term := .atom "key_not_found"
def g_atom_duplicate_key : Term := .atom "duplicate_key"

/-- `enif_make_atom`. -/
def enif_make_atom (name : String) : Term := .atom name

/-- `status_to_atom`: the `switch` over the status, its cases tried in the
order of the source (C requires the case labels to be distinct, so the order
does not matter for a real header). -/
def status_to_atom (K : Header) (st : Int) : Term :=
  if st = K.UPS_SUCCESS then g_atom_ok
  else if st = K.UPS_INV_RECORD_SIZE then enif_make_atom "inv_record_size"
  else if st = K.UPS_INV_KEY_SIZE then enif_make_atom "inv_key_size"
  else if st = K.UPS_INV_PAGE_SIZE then enif_make_atom "inv_page_size"
  else if st = K.UPS_OUT_OF_MEMORY then enif_make_atom "out_of_memory"
  else if st = K.UPS_INV_PARAMETER then enif_make_atom "inv_parameter"
  else if st = K.UPS_INV_FILE_HEADER then enif_make_atom "inv_file_header"
  else if st = K.UPS_INV_FILE_VERSION then enif_make_atom "inv_file_version"
  else if st = K.UPS_KEY_NOT_FOUND then g_atom_key_not_found
  else if st = K.UPS_DUPLICATE_KEY then g_atom_duplicate_key
  else if st = K.UPS_INTEGRITY_VIOLATED then enif_make_atom "integrity_violated"
  else if st = K.UPS_INTERNAL_ERROR then enif_make_atom "internal_error"
  else if st = K.UPS_WRITE_PROTECTED then enif_make_atom "write_protected"
  else if st = K.UPS_BLOB_NOT_FOUND then enif_make_atom "blob_not_found"
  else if st = K.UPS_IO_ERROR then enif_make_atom "io_error"
  else if st = K.UPS_NOT_IMPLEMENTED then enif_make_atom "not_implemented"
  else if st = K.UPS_FILE_NOT_FOUND then enif_make_atom "file_not_found"
  else if st = K.UPS_WOULD_BLOCK then enif_make_atom "would_block"
  else if st = K.UPS_NOT_READY then enif_make_atom "not_ready"
  else if st = K.UPS_LIMITS_REACHED then enif_make_atom "limits_reached"
  else if st = K.UPS_ALREADY_INITIALIZED then enif_make_atom "already_initialized"
  else if st = K.UPS_NEED_RECOVERY then enif_make_atom "need_recovery"
  else if st = K.UPS_CURSOR_STILL_OPEN then enif_make_atom "cursor_still_open"
  else if st = K.UPS_FILTER_NOT_FOUND then enif_make_atom "filter_not_found"
  else if st = K.UPS_TXN_CONFLICT then enif_make_atom "txn_conflict"
  else if st = K.UPS_KEY_ERASED_IN_TXN then enif_make_atom "key_erased_in_txn"
  else if st = K.UPS_TXN_STILL_OPEN then enif_make_atom "txn_still_open"
  else if st = K.UPS_CURSOR_IS_NIL then enif_make_atom "cursor_is_nil"
  else if st = K.UPS_DATABASE_NOT_FOUND then enif_make_atom "database_not_found"
  else if st = K.UPS_DATABASE_ALREADY_EXISTS then enif_make_atom "database_already_exists"
  else if st = K.UPS_DATABASE_ALREADY_OPEN then enif_make_atom "database_already_open"
  else if st = K.UPS_ENVIRONMENT_ALREADY_OPEN then enif_make_atom "environment_already_open"
  else if st = K.UPS_LOG_INV_FILE_HEADER then enif_make_atom "log_inv_file_header"
  else if st = K.UPS_NETWORK_ERROR then enif_make_atom "network_error"
  else g_atom_error

/-! ## Parameter marshaller -/

/-- `ups_parameter_t`: a 32-bit name and a 64-bit value. -/
structure ups_parameter_t where
  name : Nat
  value : Nat
deriving DecidableEq, Repr

inductive ParamField where
  | name
  | value
deriving DecidableEq, Repr

/-- The memory reached through the `parameters` pointer of `get_parameters`:
`cells` are the entries of the caller's array, and `oob` logs, in program
order, every store to an index at or past the end of that array (index,
field, stored value).  Such a store is undefined behaviour of the program (it
lands in other objects of the calling function); the log records that it
happened and what was stored, and nothing that is computed after a logged
store describes the program. -/
structure ParamArray where
  cells : List ups_parameter_t
  oob : List (Nat × ParamField × Nat)
deriving DecidableEq, Repr

/-- The store `parameters[i].name = v`. -/
def ParamArray.set_name (p : ParamArray) (i v : Nat) : ParamArray :=
  match p.cells[i]? with
  | some c => { p with cells := p.cells.set i { c with name := v } }
  | none => { p with oob := p.oob ++ [(i, ParamField.name, v)] }

/-- The store `parameters[i].value = v`. -/
def ParamArray.set_value (p : ParamArray) (i v : Nat) : ParamArray :=
  match p.cells[i]? with
  | some c => { p with cells := p.cells.set i { c with value := v } }
  | none => { p with oob := p.oob ++ [(i, ParamField.value, v)] }

/-- The caller's array `ups_parameter_t params[MAX_PARAMETERS] = {{0, 0}}`. -/
def params_init : ParamArray := ⟨List.replicate MAX_PARAMETERS ⟨0, 0⟩, []⟩

/-- The memory `get_parameters` works on: the output array and the two string
buffers of the caller. -/
structure ParamState where
  parameters : ParamArray
  logdir_buf : List Nat
  aeskey_buf : List Nat
deriving DecidableEq, Repr

/-- The load `*(uint64_t *)buf`: the first eight bytes of the buffer as a
64-bit integer (little-endian). -/
def load_uint64 (buf : List Nat) : Nat :=
  ((List.range 8).map (fun k => (buf.getD k 0 % 256) * 256 ^ k)).sum

/-- The body shared by the numeric tags: store the name, parse the value with
`enif_get_uint64` straight into the entry; `false` is `return (0)`, `true` is
`i++; continue`. -/
def numeric_parameter (name : Nat) (v : Term) (i : Nat) (s : ParamState) : Bool × ParamState :=
  let s1 := { s with parameters := s.parameters.set_name i name }
  match enif_get_uint64 v with
  | none => (false, s1)
  | some x => (true, { s1 with parameters := s1.parameters.set_value i x })

/-- The body shared by the read-only tags: store the name only. -/
def readonly_parameter (name : Nat) (i : Nat) (s : ParamState) : Bool × ParamState :=
  (true, { s with parameters := s.parameters.set_name i name })

/-- One round of the `while` loop of `get_parameters` on the list cell `cell`
with the counter at `i`: `false` is `return (0)`, `true` is `i++; continue`.
The name of the atom is written to `char atom[128]` by `enif_get_atom` and
compared with `strcmp`, that is up to its first NUL. -/
def get_parameters_cell (K : Header) (cell : Term) (i : Nat) (s : ParamState) :
    Bool × ParamState :=
  match enif_get_tuple cell with
  | some [a0, a1] =>
    match enif_get_atom a0 128 with
    | none => (false, s)
    | some atom =>
      if strcmp atom "journal_compression" = 0 then
        numeric_parameter K.UPS_PARAM_JOURNAL_COMPRESSION a1 i s
      else if strcmp atom "record_compression" = 0 then
        numeric_parameter K.UPS_PARAM_RECORD_COMPRESSION a1 i s
      else if strcmp atom "key_compression" = 0 then
        numeric_parameter K.UPS_PARAM_KEY_COMPRESSION a1 i s
      else if strcmp atom "cache_size" = 0 then
        numeric_parameter K.UPS_PARAM_CACHE_SIZE a1 i s
      else if strcmp atom "page_size" = 0 then
        numeric_parameter K.UPS_PARAM_PAGE_SIZE a1 i s
      else if strcmp atom "file_size_limit" = 0 then
        numeric_parameter K.UPS_PARAM_FILE_SIZE_LIMIT a1 i s
      else if strcmp atom "key_size" = 0 then
        numeric_parameter K.UPS_PARAM_KEY_SIZE a1 i s
      else if strcmp atom "record_size" = 0 then
        numeric_parameter K.UPS_PARAM_RECORD_SIZE a1 i s
      else if strcmp atom "max_databases" = 0 then
        numeric_parameter K.UPS_PARAM_MAX_DATABASES a1 i s
      else if strcmp atom "key_type" = 0 then
        numeric_parameter K.UPS_PARAM_KEY_TYPE a1 i s
      else if strcmp atom "record_type" = 0 then
        numeric_parameter K.UPS_PARAM_RECORD_TYPE a1 i s
      else if strcmp atom "log_directory" = 0 then
        let s1 := { s with parameters := s.parameters.set_name i K.UPS_PARAM_LOG_DIRECTORY }
        let r := enif_get_string a1 s1.logdir_buf MAX_STRING
        if r.1 ≤ 0 then (false, { s1 with logdir_buf := r.2 })
        else (true, { s1 with logdir_buf := r.2,
                              parameters := s1.parameters.set_value i (load_uint64 r.2) })
      else if strcmp atom "encryption_key" = 0 then
        let s1 := { s with parameters := s.parameters.set_name i K.UPS_PARAM_ENCRYPTION_KEY }
        let r := enif_get_string a1 s1.aeskey_buf MAX_STRING
        if r.1 ≤ 0 then (false, { s1 with aeskey_buf := r.2 })
        else (true, { s1 with aeskey_buf := r.2,
                              parameters := s1.parameters.set_value i (load_uint64 r.2) })
      else if strcmp atom "network_timeout_sec" = 0 then
        numeric_parameter K.UPS_PARAM_NETWORK_TIMEOUT_SEC a1 i s
      else if strcmp atom "flags" = 0 then
        readonly_parameter K.UPS_PARAM_FLAGS i s
      else if strcmp atom "filemode" = 0 then
        readonly_parameter K.UPS_PARAM_FILEMODE i s
      else if strcmp atom "filename" = 0 then
        readonly_parameter K.UPS_PARAM_FILENAME i s
      else if strcmp atom "database_name" = 0 then
        readonly_parameter K.UPS_PARAM_DATABASE_NAME i s
      else if strcmp atom "max_keys_per_page" = 0 then
        readonly_parameter K.UPS_PARAM_MAX_KEYS_PER_PAGE i s
      else (false, s)
  | _ => (false, s)

/-- The `while (enif_get_list_cell(env, term, &cell, &term))` loop of
`get_parameters`, entered with the counter at `i`.  The loop ends with
`return (1)` as soon as `term` is not a cons cell. -/
def get_parameters_loop (K : Header) : Term → Nat → ParamState → Nat × ParamState
  | .cons cell term, i, s =>
    match get_parameters_cell K cell i s with
    | (false, s1) => (0, s1)
    | (true, s1) => get_parameters_loop K term (i + 1) s1
  | _, _, s => (1, s)

/-- `get_parameters`: the return value (`0` failure, `1` success) and the
memory as left behind. -/
def get_parameters (K : Header) (term : Term) (s : ParamState) : Nat × ParamState :=
  if !enif_is_list term then (0, s) else get_parameters_loop K term 0 s

/-! ## Handles, the engine and the host -/

/-- The five resource types registered in `on_load`. -/
inductive ResourceType where
  | env
  | db
  | txn
  | cursor
  | result
deriving DecidableEq, Repr

def g_ups_env_resource : ResourceType := .env
def g_ups_db_resource : ResourceType := .db
def g_ups_txn_resource : ResourceType := .txn
def g_ups_cursor_resource : ResourceType := .cursor
def g_ups_result_resource : ResourceType := .result

/-- The wrapper structs `env_wrapper`, `db_wrapper`, `txn_wrapper`,
`cursor_wrapper` and `result_wrapper`: the native pointer and the `is_closed`
flag, together with the resource type the object was allocated with. -/
structure Wrapper where
  rtype : ResourceType
  native : Nat
  is_closed : Bool
deriving DecidableEq, Repr

/-- `ups_key_t`: `bytes` is the content of the memory at `data`. -/
structure ups_key_t where
  size : Nat
  data : Nat
  bytes : List Nat
deriving DecidableEq, Repr

/-- `ups_record_t`: `bytes` is the content of the memory at `data`. -/
structure ups_record_t where
  size : Nat
  data : Nat
  bytes : List Nat
deriving DecidableEq, Repr

/-- `memcpy(dst, src, n)`: the `n` bytes read from the source memory. -/
def memcpy (src : List Nat) (n : Nat) : List Nat :=
  (List.range n).map (fun k => src.getD k 0)

/-- The calls into the engine, with the arguments handed over. -/
inductive NativeCall where
  | ups_env_create (filename : List Nat) (flags mode : Nat) (params : ParamArray)
  | ups_env_open (filename : List Nat) (flags : Nat) (params : ParamArray)
  | ups_env_create_db (env dbname flags : Nat) (params : ParamArray)
  | ups_env_open_db (env dbname flags : Nat) (params : ParamArray)
  | ups_env_erase_db (env dbname flags : Nat)
  | ups_env_rename_db (env oldname newname flags : Nat)
  | uqi_select_range (env : Nat) (query : List Nat) (cursor1 cursor2 : Nat)
  | uqi_result_get_row_count (result : Nat)
  | uqi_result_get_key_type (result : Nat)
  | uqi_result_get_record_type (result : Nat)
  | uqi_result_get_key (result : Nat) (row : Int)
  | uqi_result_get_record (result : Nat) (row : Int)
  | uqi_result_close (result : Nat)
  | ups_db_insert (db txn : Nat) (key : ups_key_t) (record : ups_record_t) (flags : Nat)
  | ups_db_erase (db txn : Nat) (key : ups_key_t) (flags : Nat)
  | ups_db_find (db txn : Nat) (key : ups_key_t) (flags : Nat)
  | ups_txn_begin (env flags : Nat)
  | ups_txn_abort (txn flags : Nat)
  | ups_txn_commit (txn flags : Nat)
  | ups_db_close (db flags : Nat)
  | ups_env_close (env flags : Nat)
  | ups_cursor_create (db txn flags : Nat)
  | ups_cursor_clone (cursor : Nat)
  | ups_cursor_move (cursor flags : Nat)
  | ups_cursor_overwrite (cursor : Nat) (record : ups_record_t) (flags : Nat)
  | ups_cursor_find (cursor : Nat) (key : ups_key_t) (flags : Nat)
  | ups_cursor_insert (cursor : Nat) (key : ups_key_t) (record : ups_record_t) (flags : Nat)
  | ups_cursor_erase (cursor flags : Nat)
  | ups_cursor_get_duplicate_count (cursor flags : Nat)
  | ups_cursor_get_record_size (cursor : Nat)
  | ups_cursor_close (cursor : Nat)
deriving DecidableEq, Repr

/-- What an engine call leaves behind: the status, the new native object
written through an out-pointer, the key and record descriptors, and a 32-bit
out-value.  A call uses the fields its C signature has. -/
structure Reply where
  st : Int
  handle : Nat
  key : ups_key_t
  record : ups_record_t
  value : Nat

/-- Everything outside the layer: the header constants the layer was compiled
against, the engine (its answer may depend on all earlier calls), the message
table of `ups_strerror`, the VM allocator behind `enif_alloc_binary` (`none`
is an allocation failure) and the content of uninitialised stack memory. -/
structure Host where
  K : Header
  engine : List NativeCall → NativeCall → Reply
  ups_strerror : Int → List Nat
  alloc_binary : Nat → Nat → Option Nat
  garbage : Nat → Nat

/-- The state the layer works on: the wrapper objects (a resource term names
one by its index), the engine calls made so far, and the number of
`enif_alloc_binary` calls made so far. -/
structure World where
  heap : List Wrapper
  trace : List NativeCall
  allocs : Nat

/-- What a NIF hands back: the `badarg` exception of `enif_make_badarg`, or a
term. -/
inductive NifResult where
  | badarg
  | term (t : Term)

def NifResult.isBadarg : NifResult → Bool
  | .badarg => true
  | .term _ => false

/-- An uninitialised `char buf[n]` on the stack. -/
def Host.uninit (H : Host) (n : Nat) : List Nat := (List.range n).map H.garbage

/-- Make the engine call `c`: the reply, and the world with the call logged. -/
def World.call (H : Host) (w : World) (c : NativeCall) : Reply × World :=
  (H.engine w.trace c, { w with trace := w.trace ++ [c] })

/-- `enif_alloc_resource` followed by filling the wrapper (`is_closed = false`),
`enif_make_resource` and `enif_release_resource`: the new resource term. -/
def World.alloc_resource (w : World) (T : ResourceType) (native : Nat) : Term × World :=
  (.resource w.heap.length, { w with heap := w.heap ++ [⟨T, native, false⟩] })

/-- The store `wrapper->is_closed = true` on the wrapper object `id`. -/
def World.set_closed (w : World) (id : Nat) : World :=
  match w.heap[id]? with
  | some x => { w with heap := w.heap.set id { x with is_closed := true } }
  | none => w

/-- `enif_get_resource(env, term, type, &wrapper)`: the wrapper object (its
index and content) when the term is a resource of that type. -/
def enif_get_resource (w : World) (t : Term) (T : ResourceType) : Option (Nat × Wrapper) :=
  match t with
  | .resource id =>
    match w.heap[id]? with
    | some x => if x.rtype = T then some (id, x) else none
    | none => none
  | _ => none

/-- The guard `!enif_get_resource(...) || wrapper->is_closed` that opens the
NIFs: `none` when the guard fires. -/
def get_open_resource (w : World) (t : Term) (T : ResourceType) : Option (Nat × Wrapper) :=
  match enif_get_resource w t T with
  | some (id, x) => if x.is_closed then none else some (id, x)
  | none => none

/-- The test `twrapper != 0 && twrapper->is_closed`. -/
def opt_is_closed : Option (Nat × Wrapper) → Bool
  | some (_, x) => x.is_closed
  | none => false

/-- The expression `wrapper ? wrapper->native : 0`. -/
def opt_native : Option (Nat × Wrapper) → Nat
  | some (_, x) => x.native
  | none => 0

/-- `enif_alloc_binary(size, &bin)`: on success a fresh buffer of `size`
bytes with unspecified content. -/
def enif_alloc_binary (H : Host) (w : World) (size : Nat) : Option ErlNifBinary × World :=
  (match H.alloc_binary w.allocs size with
   | some addr => some ⟨size, addr, H.uninit size⟩
   | none => none,
   { w with allocs := w.allocs + 1 })

/-- The result `{error, status_to_atom(st)}`. -/
def error_result (H : Host) (st : Int) : NifResult :=
  .term (.tuple [g_atom_error, status_to_atom H.K st])

/-- The result `{ok, Term}`. -/
def ok_result (t : Term) : NifResult := .term (.tuple [g_atom_ok, t])

/-- The memory `get_parameters` is called on by the create/open NIFs: the
zero-initialised `params` and the two uninitialised string buffers. -/
def Host.param_state (H : Host) : ParamState :=
  ⟨params_init, H.uninit MAX_STRING, H.uninit MAX_STRING⟩

/-! ## The NIFs -/

def ups_nifs_strerror (H : Host) (w : World) (argv : List Term) : NifResult × World :=
  match argv with
  | [a0] =>
    match enif_get_int a0 with
    | none => (.badarg, w)
    | some st => (.term (mkString (H.ups_strerror st)), w)
  | _ => (.badarg, w)

/-- Wrap a fresh native object of type `T` and answer `{ok, Resource}`. -/
def make_handle (w : World) (T : ResourceType) (native : Nat) : NifResult × World :=
  (ok_result (w.alloc_resource T native).1, (w.alloc_resource T native).2)

def ups_nifs_env_create (H : Host) (w : World) (argv : List Term) : NifResult × World :=
  match argv with
  | [a0, a1, a2, a3] =>
    if (enif_get_string a0 (H.uninit MAX_STRING) MAX_STRING).1 ≤ 0 then (.badarg, w) else
    match enif_get_uint a1 with
    | none => (.badarg, w)
    | some flags =>
    match enif_get_uint a2 with
    | none => (.badarg, w)
    | some mode =>
    if (get_parameters H.K a3 H.param_state).1 = 0 then (.badarg, w) else
    let r := w.call H (.ups_env_create
      (cstr (enif_get_string a0 (H.uninit MAX_STRING) MAX_STRING).2) flags mode
      (get_parameters H.K a3 H.param_state).2.parameters)
    if r.1.st ≠ 0 then (error_result H r.1.st, r.2)
    else make_handle r.2 g_ups_env_resource r.1.handle
  | _ => (.badarg, w)

def ups_nifs_env_open (H : Host) (w : World) (argv : List Term) : NifResult × World :=
  match argv with
  | [a0, a1, a2] =>
    if (enif_get_string a0 (H.uninit MAX_STRING) MAX_STRING).1 ≤ 0 then (.badarg, w) else
    match enif_get_uint a1 with
    | none => (.badarg, w)
    | some flags =>
    if (get_parameters H.K a2 H.param_state).1 = 0 then (.badarg, w) else
    let r := w.call H (.ups_env_open
      (cstr (enif_get_string a0 (H.uninit MAX_STRING) MAX_STRING).2) flags
      (get_parameters H.K a2 H.param_state).2.parameters)
    if r.1.st ≠ 0 then (error_result H r.1.st, r.2)
    else make_handle r.2 g_ups_env_resource r.1.handle
  | _ => (.badarg, w)

def ups_nifs_env_create_db (H : Host) (w : World) (argv : List Term) : NifResult × World :=
  match argv with
  | [a0, a1, a2, a3] =>
    match get_open_resource w a0 g_ups_env_resource with
    | none => (.badarg, w)
    | some (_, ewrapper) =>
    match enif_get_uint a1 with
    | none => (.badarg, w)
    | some dbname =>
    match enif_get_uint a2 with
    | none => (.badarg, w)
    | some flags =>
    if (get_parameters H.K a3 H.param_state).1 = 0 then (.badarg, w) else
    let r := w.call H (.ups_env_create_db ewrapper.native dbname flags
      (get_parameters H.K a3 H.param_state).2.parameters)
    if r.1.st ≠ 0 then (error_result H r.1.st, r.2)
    else make_handle r.2 g_ups_db_resource r.1.handle
  | _ => (.badarg, w)

def ups_nifs_env_open_db (H : Host) (w : World) (argv : List Term) : NifResult × World :=
  match argv with
  | [a0, a1, a2, a3] =>
    match get_open_resource w a0 g_ups_env_resource with
    | none => (.badarg, w)
    | some (_, ewrapper) =>
    match enif_get_uint a1 with
    | none => (.badarg, w)
    | some dbname =>
    match enif_get_uint a2 with
    | none => (.badarg, w)
    | some flags =>
    if (get_parameters H.K a3 H.param_state).1 = 0 then (.badarg, w) else
    let r := w.call H (.ups_env_open_db ewrapper.native dbname flags
      (get_parameters H.K a3 H.param_state).2.parameters)
    if r.1.st ≠ 0 then (error_result H r.1.st, r.2)
    else make_handle r.2 g_ups_db_resource r.1.handle
  | _ => (.badarg, w)

def ups_nifs_env_erase_db (H : Host) (w : World) (argv : List Term) : NifResult × World :=
  match argv with
  | [a0, a1] =>
    match get_open_resource w a0 g_ups_env_resource with
    | none => (.badarg, w)
    | some (_, ewrapper) =>
    match enif_get_uint a1 with
    | none => (.badarg, w)
    | some dbname =>
    let r := w.call H (.ups_env_erase_db ewrapper.native dbname 0)
    if r.1.st ≠ 0 then (error_result H r.1.st, r.2) else (.term g_atom_ok, r.2)
  | _ => (.badarg, w)

def ups_nifs_uqi_select_range (H : Host) (w : World) (argv : List Term) : NifResult × World :=
  match argv with
  | [a0, a1, a2, a3] =>
    match get_open_resource w a0 g_ups_env_resource with
    | none => (.badarg, w)
    | some (_, ewrapper) =>
    if (enif_get_string a1 (H.uninit 1024) 1024).1 ≤ 0 then (.badarg, w) else
    let cwrapper1 := get_open_resource w a2 g_ups_cursor_resource
    let cwrapper2 := get_open_resource w a3 g_ups_cursor_resource
    let r := w.call H (.uqi_select_range ewrapper.native
      (cstr (enif_get_string a1 (H.uninit 1024) 1024).2)
      (opt_native cwrapper1) (opt_native cwrapper2))
    if r.1.st ≠ 0 then (error_result H r.1.st, r.2)
    else make_handle r.2 g_ups_result_resource r.1.handle
  | _ => (.badarg, w)

def ups_nifs_uqi_result_get_row_count (H : Host) (w : World) (argv : List Term) :
    NifResult × World :=
  match argv with
  | [a0] =>
    match get_open_resource w a0 g_ups_result_resource with
    | none => (.badarg, w)
    | some (_, rwrapper) =>
    let r := w.call H (.uqi_result_get_row_count rwrapper.native)
    (ok_result (enif_make_int (to_int r.1.value)), r.2)
  | _ => (.badarg, w)

def ups_nifs_uqi_result_get_key_type (H : Host) (w : World) (argv : List Term) :
    NifResult × World :=
  match argv with
  | [a0] =>
    match get_open_resource w a0 g_ups_result_resource with
    | none => (.badarg, w)
    | some (_, rwrapper) =>
    let r := w.call H (.uqi_result_get_key_type rwrapper.native)
    (ok_result (enif_make_int (to_int r.1.value)), r.2)
  | _ => (.badarg, w)

def ups_nifs_uqi_result_get_record_type (H : Host) (w : World) (argv : List Term) :
    NifResult × World :=
  match argv with
  | [a0] =>
    match get_open_resource w a0 g_ups_result_resource with
    | none => (.badarg, w)
    | some (_, rwrapper) =>
    let r := w.call H (.uqi_result_get_record_type rwrapper.native)
    (ok_result (enif_make_int (to_int r.1.value)), r.2)
  | _ => (.badarg, w)

/-- The tail shared by the NIFs that answer one byte buffer: allocate a binary
of `size` bytes, `memcpy` the descriptor into it, answer `{ok, Binary}`; a
failed allocation answers `{error, status_to_atom(UPS_OUT_OF_MEMORY)}`. -/
def return_binary (H : Host) (w : World) (size : Nat) (bytes : List Nat) : NifResult × World :=
  match (enif_alloc_binary H w size).1 with
  | none => (error_result H H.K.UPS_OUT_OF_MEMORY, (enif_alloc_binary H w size).2)
  | some bin =>
    (ok_result (enif_make_binary { bin with bytes := memcpy bytes size, size := size }),
     (enif_alloc_binary H w size).2)

def ups_nifs_uqi_result_get_key (H : Host) (w : World) (argv : List Term) : NifResult × World :=
  match argv with
  | [a0, a1] =>
    match get_open_resource w a0 g_ups_result_resource with
    | none => (.badarg, w)
    | some (_, rwrapper) =>
    match enif_get_int a1 with
    | none => (.badarg, w)
    | some row =>
    let r := w.call H (.uqi_result_get_key rwrapper.native row)
    return_binary H r.2 r.1.key.size r.1.key.bytes
  | _ => (.badarg, w)

def ups_nifs_uqi_result_get_record (H : Host) (w : World) (argv : List Term) :
    NifResult × World :=
  match argv with
  | [a0, a1] =>
    match get_open_resource w a0 g_ups_result_resource with
    | none => (.badarg, w)
    | some (_, rwrapper) =>
    match enif_get_int a1 with
    | none => (.badarg, w)
    | some row =>
    let r := w.call H (.uqi_result_get_record rwrapper.native row)
    return_binary H r.2 r.1.record.size r.1.record.bytes
  | _ => (.badarg, w)

def ups_nifs_uqi_result_close (H : Host) (w : World) (argv : List Term) : NifResult × World :=
  match argv with
  | [a0] =>
    match get_open_resource w a0 g_ups_result_resource with
    | none => (.badarg, w)
    | some (id, rwrapper) =>
    let r := w.call H (.uqi_result_close rwrapper.native)
    (.term g_atom_ok, r.2.set_closed id)
  | _ => (.badarg, w)

def ups_nifs_env_rename_db (H : Host) (w : World) (argv : List Term) : NifResult × World :=
  match argv with
  | [a0, a1, a2] =>
    match get_open_resource w a0 g_ups_env_resource with
    | none => (.badarg, w)
    | some (_, ewrapper) =>
    match enif_get_uint a1 with
    | none => (.badarg, w)
    | some oldname =>
    match enif_get_uint a2 with
    | none => (.badarg, w)
    | some newname =>
    let r := w.call H (.ups_env_rename_db ewrapper.native oldname newname 0)
    if r.1.st ≠ 0 then (error_result H r.1.st, r.2) else (.term g_atom_ok, r.2)
  | _ => (.badarg, w)

def ups_nifs_db_insert (H : Host) (w : World) (argv : List Term) : NifResult × World :=
  match argv with
  | [a0, a1, a2, a3, a4] =>
    match get_open_resource w a0 g_ups_db_resource with
    | none => (.badarg, w)
    | some (_, dwrapper) =>
    let twrapper := enif_get_resource w a1 g_ups_txn_resource
    if opt_is_closed twrapper then (.badarg, w) else
    match enif_inspect_binary a2 with
    | none => (.badarg, w)
    | some binkey =>
    match enif_inspect_binary a3 with
    | none => (.badarg, w)
    | some binrec =>
    match enif_get_uint a4 with
    | none => (.badarg, w)
    | some flags =>
    let key : ups_key_t :=
      ⟨binkey.size, if binkey.size ≠ 0 then binkey.data else 0, binkey.bytes⟩
    let record : ups_record_t :=
      ⟨binrec.size, if binrec.size ≠ 0 then binrec.data else 0, binrec.bytes⟩
    let r := w.call H (.ups_db_insert dwrapper.native (opt_native twrapper) key record flags)
    if r.1.st ≠ 0 then (error_result H r.1.st, r.2) else (.term g_atom_ok, r.2)
  | _ => (.badarg, w)

def ups_nifs_db_erase (H : Host) (w : World) (argv : List Term) : NifResult × World :=
  match argv with
  | [a0, a1, a2] =>
    match get_open_resource w a0 g_ups_db_resource with
    | none => (.badarg, w)
    | some (_, dwrapper) =>
    let twrapper := enif_get_resource w a1 g_ups_txn_resource
    if opt_is_closed twrapper then (.badarg, w) else
    match enif_inspect_binary a2 with
    | none => (.badarg, w)
    | some binkey =>
    let key : ups_key_t := ⟨binkey.size, binkey.data, binkey.bytes⟩
    let r := w.call H (.ups_db_erase dwrapper.native (opt_native twrapper) key 0)
    if r.1.st ≠ 0 then (error_result H r.1.st, r.2) else (.term g_atom_ok, r.2)
  | _ => (.badarg, w)

def ups_nifs_db_find (H : Host) (w : World) (argv : List Term) : NifResult × World :=
  match argv with
  | [a0, a1, a2] =>
    match get_open_resource w a0 g_ups_db_resource with
    | none => (.badarg, w)
    | some (_, dwrapper) =>
    let twrapper := enif_get_resource w a1 g_ups_txn_resource
    if opt_is_closed twrapper then (.badarg, w) else
    match enif_inspect_binary a2 with
    | none => (.badarg, w)
    | some binkey =>
    let key : ups_key_t := ⟨binkey.size, binkey.data, binkey.bytes⟩
    let r := w.call H (.ups_db_find dwrapper.native (opt_native twrapper) key 0)
    if r.1.st ≠ 0 then (error_result H r.1.st, r.2)
    else return_binary H r.2 r.1.record.size r.1.record.bytes
  | _ => (.badarg, w)

def ups_nifs_db_find_flags (H : Host) (w : World) (argv : List Term) : NifResult × World :=
  match argv with
  | [a0, a1, a2, a3] =>
    match get_open_resource w a0 g_ups_db_resource with
    | none => (.badarg, w)
    | some (_, dwrapper) =>
    let twrapper := enif_get_resource w a1 g_ups_txn_resource
    if opt_is_closed twrapper then (.badarg, w) else
    match enif_inspect_binary a2 with
    | none => (.badarg, w)
    | some binkey =>
    match enif_get_uint a3 with
    | none => (.badarg, w)
    | some flags =>
    let key : ups_key_t := ⟨binkey.size, binkey.data, binkey.bytes⟩
    let r := w.call H (.ups_db_find dwrapper.native (opt_native twrapper) key flags)
    if r.1.st ≠ 0 then (error_result H r.1.st, r.2) else
    let ar := enif_alloc_binary H r.2 r.1.record.size
    match ar.1 with
    | none => (error_result H H.K.UPS_OUT_OF_MEMORY, ar.2)
    | some binrec =>
    let binrec1 : ErlNifBinary :=
      { binrec with bytes := memcpy r.1.record.bytes r.1.record.size, size := r.1.record.size }
    if flags ≠ 0 then
      let ak := enif_alloc_binary H ar.2 r.1.key.size
      match ak.1 with
      | none => (error_result H H.K.UPS_OUT_OF_MEMORY, ak.2)
      | some binkey1 =>
        (.term (.tuple [g_atom_ok,
            enif_make_binary { binkey1 with bytes := memcpy r.1.key.bytes r.1.key.size },
            enif_make_binary binrec1]), ak.2)
    else
      (.term (.tuple [g_atom_ok, enif_make_binary binkey, enif_make_binary binrec1]), ar.2)
  | _ => (.badarg, w)

def ups_nifs_txn_begin (H : Host) (w : World) (argv : List Term) : NifResult × World :=
  match argv with
  | [a0, a1] =>
    match get_open_resource w a0 g_ups_env_resource with
    | none => (.badarg, w)
    | some (_, ewrapper) =>
    match enif_get_uint a1 with
    | none => (.badarg, w)
    | some flags =>
    let r := w.call H (.ups_txn_begin ewrapper.native flags)
    if r.1.st ≠ 0 then (error_result H r.1.st, r.2)
    else make_handle r.2 g_ups_txn_resource r.1.handle
  | _ => (.badarg, w)

def ups_nifs_txn_abort (H : Host) (w : World) (argv : List Term) : NifResult × World :=
  match argv with
  | [a0] =>
    match get_open_resource w a0 g_ups_txn_resource with
    | none => (.badarg, w)
    | some (id, twrapper) =>
    let r := w.call H (.ups_txn_abort twrapper.native 0)
    if r.1.st ≠ 0 then (error_result H r.1.st, r.2)
    else (.term g_atom_ok, r.2.set_closed id)
  | _ => (.badarg, w)

def ups_nifs_txn_commit (H : Host) (w : World) (argv : List Term) : NifResult × World :=
  match argv with
  | [a0] =>
    match get_open_resource w a0 g_ups_txn_resource with
    | none => (.badarg, w)
    | some (id, twrapper) =>
    let r := w.call H (.ups_txn_commit twrapper.native 0)
    if r.1.st ≠ 0 then (error_result H r.1.st, r.2)
    else (.term g_atom_ok, r.2.set_closed id)
  | _ => (.badarg, w)

def ups_nifs_db_close (H : Host) (w : World) (argv : List Term) : NifResult × World :=
  match argv with
  | [a0] =>
    match get_open_resource w a0 g_ups_db_resource with
    | none => (.badarg, w)
    | some (id, dwrapper) =>
    let r := w.call H (.ups_db_close dwrapper.native 0)
    if r.1.st ≠ 0 then (error_result H r.1.st, r.2)
    else (.term g_atom_ok, r.2.set_closed id)
  | _ => (.badarg, w)

def ups_nifs_env_close (H : Host) (w : World) (argv : List Term) : NifResult × World :=
  match argv with
  | [a0] =>
    match get_open_resource w a0 g_ups_env_resource with
    | none => (.badarg, w)
    | some (id, ewrapper) =>
    let r := w.call H (.ups_env_close ewrapper.native 0)
    if r.1.st ≠ 0 then (error_result H r.1.st, r.2)
    else (.term g_atom_ok, r.2.set_closed id)
  | _ => (.badarg, w)

def ups_nifs_cursor_create (H : Host) (w : World) (argv : List Term) : NifResult × World :=
  match argv with
  | [a0, a1] =>
    match get_open_resource w a0 g_ups_db_resource with
    | none => (.badarg, w)
    | some (_, dwrapper) =>
    let twrapper := enif_get_resource w a1 g_ups_txn_resource
    if opt_is_closed twrapper then (.badarg, w) else
    let r := w.call H (.ups_cursor_create dwrapper.native (opt_native twrapper) 0)
    if r.1.st ≠ 0 then (error_result H r.1.st, r.2)
    else make_handle r.2 g_ups_cursor_resource r.1.handle
  | _ => (.badarg, w)

def ups_nifs_cursor_clone (H : Host) (w : World) (argv : List Term) : NifResult × World :=
  match argv with
  | [a0] =>
    match get_open_resource w a0 g_ups_cursor_resource with
    | none => (.badarg, w)
    | some (_, cwrapper) =>
    let r := w.call H (.ups_cursor_clone cwrapper.native)
    if r.1.st ≠ 0 then (error_result H r.1.st, r.2)
    else make_handle r.2 g_ups_cursor_resource r.1.handle
  | _ => (.badarg, w)

def ups_nifs_cursor_move (H : Host) (w : World) (argv : List Term) : NifResult × World :=
  match argv with
  | [a0, a1] =>
    match get_open_resource w a0 g_ups_cursor_resource with
    | none => (.badarg, w)
    | some (_, cwrapper) =>
    match enif_get_uint a1 with
    | none => (.badarg, w)
    | some flags =>
    let r := w.call H (.ups_cursor_move cwrapper.native flags)
    if r.1.st ≠ 0 then (error_result H r.1.st, r.2) else
    let ak := enif_alloc_binary H r.2 r.1.key.size
    match ak.1 with
    | none => (error_result H H.K.UPS_OUT_OF_MEMORY, ak.2)
    | some binkey =>
    let ar := enif_alloc_binary H ak.2 r.1.record.size
    match ar.1 with
    | none => (error_result H H.K.UPS_OUT_OF_MEMORY, ar.2)
    | some binrec =>
      (.term (.tuple [g_atom_ok,
          enif_make_binary
            { binkey with bytes := memcpy r.1.key.bytes r.1.key.size, size := r.1.key.size },
          enif_make_binary
            { binrec with bytes := memcpy r.1.record.bytes r.1.record.size,
                          size := r.1.record.size }]), ar.2)
  | _ => (.badarg, w)

def ups_nifs_cursor_overwrite (H : Host) (w : World) (argv : List Term) : NifResult × World :=
  match argv with
  | [a0, a1] =>
    match get_open_resource w a0 g_ups_cursor_resource with
    | none => (.badarg, w)
    | some (_, cwrapper) =>
    match enif_inspect_binary a1 with
    | none => (.badarg, w)
    | some binrec =>
    let record : ups_record_t := ⟨binrec.size, binrec.data, binrec.bytes⟩
    let r := w.call H (.ups_cursor_overwrite cwrapper.native record 0)
    if r.1.st ≠ 0 then (error_result H r.1.st, r.2) else (.term g_atom_ok, r.2)
  | _ => (.badarg, w)

def ups_nifs_cursor_find (H : Host) (w : World) (argv : List Term) : NifResult × World :=
  match argv with
  | [a0, a1] =>
    match get_open_resource w a0 g_ups_cursor_resource with
    | none => (.badarg, w)
    | some (_, cwrapper) =>
    match enif_inspect_binary a1 with
    | none => (.badarg, w)
    | some binkey =>
    let key : ups_key_t := ⟨binkey.size, binkey.data, binkey.bytes⟩
    let r := w.call H (.ups_cursor_find cwrapper.native key 0)
    if r.1.st ≠ 0 then (error_result H r.1.st, r.2)
    else return_binary H r.2 r.1.record.size r.1.record.bytes
  | _ => (.badarg, w)

def ups_nifs_cursor_insert (H : Host) (w : World) (argv : List Term) : NifResult × World :=
  match argv with
  | [a0, a1, a2, a3] =>
    match get_open_resource w a0 g_ups_cursor_resource with
    | none => (.badarg, w)
    | some (_, cwrapper) =>
    match enif_inspect_binary a1 with
    | none => (.badarg, w)
    | some binkey =>
    match enif_inspect_binary a2 with
    | none => (.badarg, w)
    | some binrec =>
    match enif_get_uint a3 with
    | none => (.badarg, w)
    | some flags =>
    let key : ups_key_t := ⟨binkey.size, binkey.data, binkey.bytes⟩
    let record : ups_record_t := ⟨binrec.size, binrec.data, binrec.bytes⟩
    let r := w.call H (.ups_cursor_insert cwrapper.native key record flags)
    if r.1.st ≠ 0 then (error_result H r.1.st, r.2) else (.term g_atom_ok, r.2)
  | _ => (.badarg, w)

def ups_nifs_cursor_erase (H : Host) (w : World) (argv : List Term) : NifResult × World :=
  match argv with
  | [a0] =>
    match get_open_resource w a0 g_ups_cursor_resource with
    | none => (.badarg, w)
    | some (_, cwrapper) =>
    let r := w.call H (.ups_cursor_erase cwrapper.native 0)
    if r.1.st ≠ 0 then (error_result H r.1.st, r.2) else (.term g_atom_ok, r.2)
  | _ => (.badarg, w)

def ups_nifs_cursor_get_duplicate_count (H : Host) (w : World) (argv : List Term) :
    NifResult × World :=
  match argv with
  | [a0] =>
    match get_open_resource w a0 g_ups_cursor_resource with
    | none => (.badarg, w)
    | some (_, cwrapper) =>
    let r := w.call H (.ups_cursor_get_duplicate_count cwrapper.native 0)
    if r.1.st ≠ 0 then (error_result H r.1.st, r.2)
    else (ok_result (enif_make_int (to_int r.1.value)), r.2)
  | _ => (.badarg, w)

def ups_nifs_cursor_get_record_size (H : Host) (w : World) (argv : List Term) :
    NifResult × World :=
  match argv with
  | [a0] =>
    match get_open_resource w a0 g_ups_cursor_resource with
    | none => (.badarg, w)
    | some (_, cwrapper) =>
    let r := w.call H (.ups_cursor_get_record_size cwrapper.native)
    if r.1.st ≠ 0 then (error_result H r.1.st, r.2)
    else (ok_result (enif_make_int (to_int r.1.value)), r.2)
  | _ => (.badarg, w)

def ups_nifs_cursor_close (H : Host) (w : World) (argv : List Term) : NifResult × World :=
  match argv with
  | [a0] =>
    match get_open_resource w a0 g_ups_cursor_resource with
    | none => (.badarg, w)
    | some (id, cwrapper) =>
    let r := w.call H (.ups_cursor_close cwrapper.native)
    if r.1.st ≠ 0 then (error_result H r.1.st, r.2)
    else (.term g_atom_ok, r.2.set_closed id)
  | _ => (.badarg, w)

/-! ## Resource cleanup callbacks -/

/-- The body shared by the five cleanup callbacks on the wrapper object
`arg`: `if (!wrapper->is_closed) (void)release(wrapper->native);` followed by
`wrapper->is_closed = true;`. -/
def resource_cleanup (release : Nat → NativeCall) (H : Host) (w : World) (arg : Nat) : World :=
  match w.heap[arg]? with
  | some wrapper =>
    (if !wrapper.is_closed then (w.call H (release wrapper.native)).2 else w).set_closed arg
  | none => w

def env_resource_cleanup (H : Host) (w : World) (arg : Nat) : World :=
  resource_cleanup (fun env => .ups_env_close env 0) H w arg

def db_resource_cleanup (H : Host) (w : World) (arg : Nat) : World :=
  resource_cleanup (fun db => .ups_db_close db 0) H w arg

def txn_resource_cleanup (H : Host) (w : World) (arg : Nat) : World :=
  resource_cleanup (fun txn => .ups_txn_abort txn 0) H w arg

def cursor_resource_cleanup (H : Host) (w : World) (arg : Nat) : World :=
  resource_cleanup (fun cursor => .ups_cursor_close cursor) H w arg

def result_resource_cleanup (H : Host) (w : World) (arg : Nat) : World :=
  resource_cleanup (fun result => .uqi_result_close result) H w arg

/-- The destructor registered for each resource type by `on_load`. -/
def destructor : ResourceType → Host → World → Nat → World
  | .env => env_resource_cleanup
  | .db => db_resource_cleanup
  | .txn => txn_resource_cleanup
  | .cursor => cursor_resource_cleanup
  | .result => result_resource_cleanup

/-- The native release call the destructor of each resource type makes. -/
def release_call : ResourceType → Nat → NativeCall
  | .env => fun p => .ups_env_close p 0
  | .db => fun p => .ups_db_close p 0
  | .txn => fun p => .ups_txn_abort p 0
  | .cursor => fun p => .ups_cursor_close p
  | .result => fun p => .uqi_result_close p

/-! ## The function table and runs of the layer -/

/-- The entries of `ups_nif_funcs`. -/
inductive Nif where
  | strerror
  | env_create
  | env_open
  | env_create_db
  | env_open_db
  | env_rename_db
  | env_erase_db
  | db_insert
  | db_erase
  | db_find
  | db_find_flags
  | db_close
  | txn_begin
  | txn_abort
  | txn_commit
  | env_close
  | cursor_create
  | cursor_clone
  | cursor_move
  | cursor_overwrite
  | cursor_find
  | cursor_insert
  | cursor_erase
  | cursor_get_duplicate_count
  | cursor_get_record_size
  | cursor_close
  | uqi_select_range
  | uqi_result_get_row_count
  | uqi_result_get_key_type
  | uqi_result_get_record_type
  | uqi_result_get_key
  | uqi_result_get_record
  | uqi_result_close
deriving DecidableEq, Repr

/-- The table `ups_nif_funcs`: the C function behind each exported name. -/
def ups_nif_funcs : Nif → Host → World → List Term → NifResult × World
  | .strerror => ups_nifs_strerror
  | .env_create => ups_nifs_env_create
  | .env_open => ups_nifs_env_open
  | .env_create_db => ups_nifs_env_create_db
  | .env_open_db => ups_nifs_env_open_db
  | .env_rename_db => ups_nifs_env_rename_db
  | .env_erase_db => ups_nifs_env_erase_db
  | .db_insert => ups_nifs_db_insert
  | .db_erase => ups_nifs_db_erase
  | .db_find => ups_nifs_db_find
  | .db_find_flags => ups_nifs_db_find_flags
  | .db_close => ups_nifs_db_close
  | .txn_begin => ups_nifs_txn_begin
  | .txn_abort => ups_nifs_txn_abort
  | .txn_commit => ups_nifs_txn_commit
  | .env_close => ups_nifs_env_close
  | .cursor_create => ups_nifs_cursor_create
  | .cursor_clone => ups_nifs_cursor_clone
  | .cursor_move => ups_nifs_cursor_move
  | .cursor_overwrite => ups_nifs_cursor_overwrite
  | .cursor_find => ups_nifs_cursor_find
  | .cursor_insert => ups_nifs_cursor_insert
  | .cursor_erase => ups_nifs_cursor_erase
  | .cursor_get_duplicate_count => ups_nifs_cursor_get_duplicate_count
  | .cursor_get_record_size => ups_nifs_cursor_get_record_size
  | .cursor_close => ups_nifs_cursor_close
  | .uqi_select_range => ups_nifs_uqi_select_range
  | .uqi_result_get_row_count => ups_nifs_uqi_result_get_row_count
  | .uqi_result_get_key_type => ups_nifs_uqi_result_get_key_type
  | .uqi_result_get_record_type => ups_nifs_uqi_result_get_record_type
  | .uqi_result_get_key => ups_nifs_uqi_result_get_key
  | .uqi_result_get_record => ups_nifs_uqi_result_get_record
  | .uqi_result_close => ups_nifs_uqi_result_close

/-- The resource type each NIF requires of its first argument (`none` for the
NIFs that take no handle there). -/
def required_handle : Nif → Option ResourceType
  | .strerror => none
  | .env_create => none
  | .env_open => none
  | .env_create_db => some .env
  | .env_open_db => some .env
  | .env_rename_db => some .env
  | .env_erase_db => some .env
  | .db_insert => some .db
  | .db_erase => some .db
  | .db_find => some .db
  | .db_find_flags => some .db
  | .db_close => some .db
  | .txn_begin => some .env
  | .txn_abort => some .txn
  | .txn_commit => some .txn
  | .env_close => some .env
  | .cursor_create => some .db
  | .cursor_clone => some .cursor
  | .cursor_move => some .cursor
  | .cursor_overwrite => some .cursor
  | .cursor_find => some .cursor
  | .cursor_insert => some .cursor
  | .cursor_erase => some .cursor
  | .cursor_get_duplicate_count => some .cursor
  | .cursor_get_record_size => some .cursor
  | .cursor_close => some .cursor
  | .uqi_select_range => some .env
  | .uqi_result_get_row_count => some .result
  | .uqi_result_get_key_type => some .result
  | .uqi_result_get_record_type => some .result
  | .uqi_result_get_key => some .result
  | .uqi_result_get_record => some .result
  | .uqi_result_close => some .result

/-- The explicit close NIF of each resource type; a transaction has none, it
ends through `txn_commit` or `txn_abort`. -/
def close_nif : ResourceType → Option Nif
  | .env => some .env_close
  | .db => some .db_close
  | .txn => none
  | .cursor => some .cursor_close
  | .result => some .uqi_result_close

/-- What can happen to the layer: the VM calls a NIF, or the garbage collector
runs the destructor of a wrapper object. -/
inductive Event where
  | call (f : Nif) (argv : List Term)
  | gc (id : Nat)

/-- The world after one event. -/
def step (H : Host) (w : World) : Event → World
  | .call f argv => (ups_nif_funcs f H w argv).2
  | .gc id =>
    match w.heap[id]? with
    | some x => destructor x.rtype H w id
    | none => w

/-- The world after a sequence of events. -/
def run (H : Host) (w : World) (es : List Event) : World := es.foldl (step H) w

/-! ## Predicates and sample inputs used by the statements -/

/-- The wrapper object `id` exists, has resource type `T` and its `is_closed`
flag is set. -/
def is_closed_handle (w : World) (id : Nat) (T : ResourceType) : Bool :=
  match w.heap[id]? with
  | some x => x.rtype = T && x.is_closed
  | none => false

/-- Every use of `id` as a transaction is rejected with `badarg` in the world
`w`, without any effect: `txn_commit`, `txn_abort`, and the NIFs that take the
transaction as their second argument, whatever their other arguments. -/
def txn_uses_rejected (H : Host) (w : World) (id : Nat) : Prop :=
  ups_nifs_txn_commit H w [.resource id] = (.badarg, w) ∧
  ups_nifs_txn_abort H w [.resource id] = (.badarg, w) ∧
  ∀ (a0 : Term) (rest : List Term),
    ups_nifs_db_insert H w (a0 :: .resource id :: rest) = (.badarg, w) ∧
    ups_nifs_db_erase H w (a0 :: .resource id :: rest) = (.badarg, w) ∧
    ups_nifs_db_find H w (a0 :: .resource id :: rest) = (.badarg, w) ∧
    ups_nifs_db_find_flags H w (a0 :: .resource id :: rest) = (.badarg, w) ∧
    ups_nifs_cursor_create H w (a0 :: .resource id :: rest) = (.badarg, w)

/-- A host whose engine answers every call with the status `st` and the native
object `7`. -/
def const_host (st : Int) : Host where
  K := upscaledb_h
  engine := fun _ _ => ⟨st, 7, ⟨0, 0, []⟩, ⟨0, 0, []⟩, 0⟩
  ups_strerror := fun _ => []
  alloc_binary := fun _ _ => some 4096
  garbage := fun _ => 170

/-- A world with one open handle of type `T` on the native object `100`. -/
def one_handle (T : ResourceType) : World := ⟨[⟨T, 100, false⟩], [], 0⟩

/-- The names of the numeric tags. -/
def numeric_names : List String :=
  ["journal_compression", "record_compression", "key_compression", "cache_size", "page_size",
   "file_size_limit", "key_size", "record_size", "max_databases", "key_type", "record_type",
   "network_timeout_sec"]

/-- The names of the two string-valued tags. -/
def string_names : List String := ["log_directory", "encryption_key"]

/-- The names of the read-only metadata tags. -/
def readonly_names : List String :=
  ["flags", "filemode", "filename", "database_name", "max_keys_per_page"]

/-- The recognized configuration names. -/
def recognized_names : List String := numeric_names ++ string_names ++ readonly_names

/-- The term is an unsigned 64-bit integer. -/
def is_uint64 (v : Term) : Prop := ∃ n : Nat, n < 2 ^ 64 ∧ v = .int n

/-- A list entry the marshaller refuses: it is not a 2-tuple with an atom tag,
or its tag, read up to its first NUL, is not a recognized name, or its tag,
read up to its first NUL, is numeric and its value is not an unsigned 64-bit
integer. -/
def offending (cell : Term) : Prop :=
  (∀ name v, cell ≠ .tuple [.atom name, v])
  ∨ (∃ name v, cell = .tuple [.atom name, v] ∧ c_str name ∉ recognized_names)
  ∨ (∃ name v, cell = .tuple [.atom name, v] ∧ c_str name ∈ numeric_names ∧ ¬ is_uint64 v)

/-- The characters NUL and `x`. -/
def nul_x : String := String.mk [Char.ofNat 0, 'x']

/-- The entry whose tag is the atom of the twelve characters `cache_size`,
NUL, `x`, with the value 1. -/
def nul_entry : Term := .tuple [.atom ("cache_size" ++ nul_x), .int 1]

/-- Two entries whose tags are `page_size` and `filename`, each followed by
NUL and `x`. -/
def nul_entries : List Term :=
  [.tuple [.atom ("page_size" ++ nul_x), .int 4096],
   .tuple [.atom ("filename" ++ nul_x), .int 9]]

/-- The entry `{cache_size, 1}`. -/
def cache_entry : Term := .tuple [.atom "cache_size", .int 1]

/-- The proper parameter list of `n` entries `{cache_size, 1}`. -/
def cache_entries (n : Nat) : Term := mkList (List.replicate n cache_entry) .nil

/-- The one-entry parameter list `[{Tag, String}]`. -/
def string_entry (tag : String) (bytes : List Nat) : Term :=
  mkList [.tuple [.atom tag, mkString bytes]] .nil

/-- The world without any handle. -/
def empty_world : World := ⟨[], [], 0⟩

/-- A host whose engine answers every call with the reply `r` and whose
allocator hands out the address 4096. -/
def reply_host (r : Reply) : Host where
  K := upscaledb_h
  engine := fun _ _ => r
  ups_strerror := fun _ => []
  alloc_binary := fun _ _ => some 4096
  garbage := fun _ => 170

/-- A host whose engine answers every call with the reply `r` and whose
allocator always fails. -/
def oom_host (r : Reply) : Host where
  K := upscaledb_h
  engine := fun _ _ => r
  ups_strerror := fun _ => []
  alloc_binary := fun _ _ => none
  garbage := fun _ => 170

/-- A successful reply that reports the key `<<7, 8>>`, the record
`<<1, 2, 3>>` and the number `v`. -/
def sample_reply (v : Nat) : Reply := ⟨0, 7, ⟨2, 500, [7, 8]⟩, ⟨3, 600, [1, 2, 3]⟩, v⟩

/-- A world with one closed handle of type `T`. -/
def closed_handle (T : ResourceType) : World := ⟨[⟨T, 100, true⟩], [], 0⟩

/-- The payload of a binary term. -/
def Term.bytes : Term → Option (List Nat)
  | .binary _ bytes => some bytes
  | _ => none

/-- The name of an atom term. -/
def Term.atom_name : Term → Option String
  | .atom name => some name
  | _ => none

/-- The elements of the tuple a NIF answered (empty for `badarg` and for a
term that is not a tuple). -/
def NifResult.elems : NifResult → List Term
  | .term (.tuple elems) => elems
  | _ => []

/-- The listed statuses: each `case` label of `status_to_atom` with the name of
the atom its branch returns, in the order of the source. -/
def status_table (K : Header) : List (Int × String) :=
  [(K.UPS_SUCCESS, "ok"),
   (K.UPS_INV_RECORD_SIZE, "inv_record_size"),
   (K.UPS_INV_KEY_SIZE, "inv_key_size"),
   (K.UPS_INV_PAGE_SIZE, "inv_page_size"),
   (K.UPS_OUT_OF_MEMORY, "out_of_memory"),
   (K.UPS_INV_PARAMETER, "inv_parameter"),
   (K.UPS_INV_FILE_HEADER, "inv_file_header"),
   (K.UPS_INV_FILE_VERSION, "inv_file_version"),
   (K.UPS_KEY_NOT_FOUND, "key_not_found"),
   (K.UPS_DUPLICATE_KEY, "duplicate_key"),
   (K.UPS_INTEGRITY_VIOLATED, "integrity_violated"),
   (K.UPS_INTERNAL_ERROR, "internal_error"),
   (K.UPS_WRITE_PROTECTED, "write_protected"),
   (K.UPS_BLOB_NOT_FOUND, "blob_not_found"),
   (K.UPS_IO_ERROR, "io_error"),
   (K.UPS_NOT_IMPLEMENTED, "not_implemented"),
   (K.UPS_FILE_NOT_FOUND, "file_not_found"),
   (K.UPS_WOULD_BLOCK, "would_block"),
   (K.UPS_NOT_READY, "not_ready"),
   (K.UPS_LIMITS_REACHED, "limits_reached"),
   (K.UPS_ALREADY_INITIALIZED, "already_initialized"),
   (K.UPS_NEED_RECOVERY, "need_recovery"),
   (K.UPS_CURSOR_STILL_OPEN, "cursor_still_open"),
   (K.UPS_FILTER_NOT_FOUND, "filter_not_found"),
   (K.UPS_TXN_CONFLICT, "txn_conflict"),
   (K.UPS_KEY_ERASED_IN_TXN, "key_erased_in_txn"),
   (K.UPS_TXN_STILL_OPEN, "txn_still_open"),
   (K.UPS_CURSOR_IS_NIL, "cursor_is_nil"),
   (K.UPS_DATABASE_NOT_FOUND, "database_not_found"),
   (K.UPS_DATABASE_ALREADY_EXISTS, "database_already_exists"),
   (K.UPS_DATABASE_ALREADY_OPEN, "database_already_open"),
   (K.UPS_ENVIRONMENT_ALREADY_OPEN, "environment_already_open"),
   (K.UPS_LOG_INV_FILE_HEADER, "log_inv_file_header"),
   (K.UPS_NETWORK_ERROR, "network_error")]

/-- The listed status codes of a header. -/
def listed_codes (K : Header) : List Int := (status_table K).map Prod.fst

/-- A chain of `if st = code then atom else ...` over a table, ending in `d`. -/
def status_chain (d : Term) : List (Int × String) → Int → Term
  | [], _ => d
  | (k, name) :: l, st => if st = k then .atom name else status_chain d l st

/-- A world with two open handles, of types `T1` (native object 100) and `T2`
(native object 200). -/
def two_handles (T1 T2 : ResourceType) : World :=
  ⟨[⟨T1, 100, false⟩, ⟨T2, 200, false⟩], [], 0⟩

/-- The answer that hands a descriptor of `size` bytes with memory content
`bytes` to the host as one byte buffer: a fresh buffer of exactly `size` bytes
holding the descriptor's bytes in order, as `{ok, Buffer}`; when the
allocation fails, the out-of-memory error and no payload. -/
def buffer_answer (H : Host) (w : World) (size : Nat) (bytes : List Nat) : NifResult × World :=
  match H.alloc_binary w.allocs size with
  | some addr =>
    (.term (.tuple [g_atom_ok, .binary addr ((List.range size).map (fun k => bytes.getD k 0))]),
     { w with allocs := w.allocs + 1 })
  | none =>
    (.term (.tuple [g_atom_error, status_to_atom H.K H.K.UPS_OUT_OF_MEMORY]),
     { w with allocs := w.allocs + 1 })

/-- The answer that hands a key descriptor and a record descriptor to the host
as two byte buffers, `{ok, Key, Record}`, the key allocated first; when either
allocation fails, the out-of-memory error and no payload. -/
def two_buffer_answer (H : Host) (w : World) (key : ups_key_t) (record : ups_record_t) :
    NifResult × World :=
  match H.alloc_binary w.allocs key.size with
  | none =>
    (.term (.tuple [g_atom_error, status_to_atom H.K H.K.UPS_OUT_OF_MEMORY]),
     { w with allocs := w.allocs + 1 })
  | some ak =>
    match H.alloc_binary (w.allocs + 1) record.size with
    | none =>
      (.term (.tuple [g_atom_error, status_to_atom H.K H.K.UPS_OUT_OF_MEMORY]),
       { w with allocs := w.allocs + 2 })
    | some ar =>
      (.term (.tuple [g_atom_ok,
          .binary ak ((List.range key.size).map (fun k => key.bytes.getD k 0)),
          .binary ar ((List.range record.size).map (fun k => record.bytes.getD k 0))]),
       { w with allocs := w.allocs + 2 })

/-- The recognized names with the engine tag each one is marshalled to, in the
order of the comparisons in `get_parameters`. -/
def param_table (K : Header) : List (String × Nat) :=
  [("journal_compression", K.UPS_PARAM_JOURNAL_COMPRESSION),
   ("record_compression", K.UPS_PARAM_RECORD_COMPRESSION),
   ("key_compression", K.UPS_PARAM_KEY_COMPRESSION),
   ("cache_size", K.UPS_PARAM_CACHE_SIZE),
   ("page_size", K.UPS_PARAM_PAGE_SIZE),
   ("file_size_limit", K.UPS_PARAM_FILE_SIZE_LIMIT),
   ("key_size", K.UPS_PARAM_KEY_SIZE),
   ("record_size", K.UPS_PARAM_RECORD_SIZE),
   ("max_databases", K.UPS_PARAM_MAX_DATABASES),
   ("key_type", K.UPS_PARAM_KEY_TYPE),
   ("record_type", K.UPS_PARAM_RECORD_TYPE),
   ("log_directory", K.UPS_PARAM_LOG_DIRECTORY),
   ("encryption_key", K.UPS_PARAM_ENCRYPTION_KEY),
   ("network_timeout_sec", K.UPS_PARAM_NETWORK_TIMEOUT_SEC),
   ("flags", K.UPS_PARAM_FLAGS),
   ("filemode", K.UPS_PARAM_FILEMODE),
   ("filename", K.UPS_PARAM_FILENAME),
   ("database_name", K.UPS_PARAM_DATABASE_NAME),
   ("max_keys_per_page", K.UPS_PARAM_MAX_KEYS_PER_PAGE)]

/-- The engine tag corresponding to a configuration name. -/
def param_tag (K : Header) (name : String) : Option Nat := (param_table K).lookup name

/-- The output entry `out` is what the input entry `cell` asks for: the entry
is `{Name, Value}`, `Name` read up to its first NUL is a recognized name and
`out` carries the engine tag of that name; if that name is numeric, `Value` is
an unsigned 64-bit integer and `out` carries it; if it is read-only, `out`
carries the value 0. -/
def marshalled (K : Header) (cell : Term) (out : ups_parameter_t) : Prop :=
  ∃ (name : String) (v : Term), cell = .tuple [.atom name, v]
    ∧ param_tag K (c_str name) = some out.name
    ∧ (c_str name ∈ numeric_names → ∃ m : Nat, m < 2 ^ 64 ∧ v = .int m ∧ out.value = m)
    ∧ (c_str name ∈ readonly_names → out.value = 0)

/-- The integer carried by an integer term. -/
def Term.int_value : Term → Option Int
  | .int n => some n
  | _ => none

/-- A parameter list with numeric and read-only entries: the largest unsigned
64-bit value, a read-only tag with an integer, a read-only tag with a value
that is not an integer, a numeric tag, and a numeric tag followed by NUL and
`x`. -/
def mixed_entries : List Term :=
  [.tuple [.atom "cache_size", .int 18446744073709551615],
   .tuple [.atom "flags", .int 9],
   .tuple [.atom "filename", .atom "x"],
   .tuple [.atom "page_size", .int 4096],
   .tuple [.atom ("key_size" ++ nul_x), .int 32]]

/-- The memory `get_parameters` leaves behind for `mixed_entries` with the
constants of `upscaledb_h` and empty string buffers. -/
def mixed_output : ParamState :=
  ⟨⟨[⟨0x100, 18446744073709551615⟩, ⟨0x200, 0⟩, ⟨0x202, 0⟩, ⟨0x101, 4096⟩, ⟨0x102, 32⟩]
      ++ List.replicate 59 ⟨0, 0⟩, []⟩, [], []⟩

/-! ## Lemmas on the handle table -/

theorem is_closed_handle_iff (w : World) (id : Nat) (T : ResourceType) :
    is_closed_handle w id T = true ↔
      ∃ x, w.heap[id]? = some x ∧ x.rtype = T ∧ x.is_closed = true := by
  unfold is_closed_handle
  cases h : w.heap[id]? <;> simp

theorem closed_set_closed (w : World) (j id : Nat) (T : ResourceType)
    (h : is_closed_handle w id T = true) : is_closed_handle (w.set_closed j) id T = true := by
  rw [is_closed_handle_iff] at *
  obtain ⟨x, hx, hT, hc⟩ := h
  unfold World.set_closed
  cases hj : w.heap[j]? with
  | none => exact ⟨x, by simpa using hx, hT, hc⟩
  | some y =>
    by_cases hji : j = id
    · subst hji
      have : y = x := by simpa [hj] using hx
      subst this
      refine ⟨{ y with is_closed := true }, ?_, hT, rfl⟩
      simp [List.getElem?_set]
      exact (List.getElem?_eq_some_iff.mp hj).1
    · refine ⟨x, ?_, hT, hc⟩
      simp [List.getElem?_set, hji, hx]

theorem closed_make_handle (w : World) (T1 : ResourceType) (p id : Nat) (T : ResourceType)
    (h : is_closed_handle w id T = true) :
    is_closed_handle (make_handle w T1 p).2 id T = true := by
  rw [is_closed_handle_iff] at *
  obtain ⟨x, hx, hT, hc⟩ := h
  refine ⟨x, ?_, hT, hc⟩
  simp only [make_handle, World.alloc_resource]
  rw [List.getElem?_append_left]
  · exact hx
  · exact (List.getElem?_eq_some_iff.mp hx).1

theorem closed_return_binary (H : Host) (w : World) (n : Nat) (bs : List Nat) (id : Nat)
    (T : ResourceType) (h : is_closed_handle w id T = true) :
    is_closed_handle (return_binary H w n bs).2 id T = true := by
  unfold return_binary
  split <;> exact h

set_option maxHeartbeats 2000000 in
/-- A set `is_closed` flag survives every NIF call. -/
theorem closed_nif (f : Nif) (H : Host) (w : World) (argv : List Term) (id : Nat)
    (T : ResourceType) (h : is_closed_handle w id T = true) :
    is_closed_handle (ups_nif_funcs f H w argv).2 id T = true := by
  cases f <;> simp only [ups_nif_funcs]
  all_goals
    first
    | unfold ups_nifs_strerror | unfold ups_nifs_env_create | unfold ups_nifs_env_open
    | unfold ups_nifs_env_create_db | unfold ups_nifs_env_open_db | unfold ups_nifs_env_rename_db
    | unfold ups_nifs_env_erase_db | unfold ups_nifs_db_insert | unfold ups_nifs_db_erase
    | unfold ups_nifs_db_find | unfold ups_nifs_db_find_flags | unfold ups_nifs_db_close
    | unfold ups_nifs_txn_begin | unfold ups_nifs_txn_abort | unfold ups_nifs_txn_commit
    | unfold ups_nifs_env_close | unfold ups_nifs_cursor_create | unfold ups_nifs_cursor_clone
    | unfold ups_nifs_cursor_move | unfold ups_nifs_cursor_overwrite | unfold ups_nifs_cursor_find
    | unfold ups_nifs_cursor_insert | unfold ups_nifs_cursor_erase
    | unfold ups_nifs_cursor_get_duplicate_count | unfold ups_nifs_cursor_get_record_size
    | unfold ups_nifs_cursor_close | unfold ups_nifs_uqi_select_range
    | unfold ups_nifs_uqi_result_get_row_count | unfold ups_nifs_uqi_result_get_key_type
    | unfold ups_nifs_uqi_result_get_record_type | unfold ups_nifs_uqi_result_get_key
    | unfold ups_nifs_uqi_result_get_record | unfold ups_nifs_uqi_result_close
  all_goals
    repeat' (first | split | dsimp only)
  all_goals
    first
    | exact h
    | exact closed_return_binary _ _ _ _ _ _ h
    | exact closed_set_closed _ _ _ _ h
    | exact closed_make_handle _ _ _ _ _ h

theorem closed_resource_cleanup (release : Nat → NativeCall) (H : Host) (w : World)
    (arg id : Nat) (T : ResourceType) (h : is_closed_handle w id T = true) :
    is_closed_handle (resource_cleanup release H w arg) id T = true := by
  unfold resource_cleanup
  split
  · split
    · exact closed_set_closed _ _ _ _ h
    · exact closed_set_closed _ _ _ _ h
  · exact h

/-- A set `is_closed` flag survives every event. -/
theorem closed_step (H : Host) (w : World) (e : Event) (id : Nat) (T : ResourceType)
    (h : is_closed_handle w id T = true) : is_closed_handle (step H w e) id T = true := by
  cases e with
  | call f argv => exact closed_nif f H w argv id T h
  | gc j =>
    simp only [step]
    split
    · rename_i x _
      cases x.rtype <;> exact closed_resource_cleanup _ H w j id T h
    · exact h

/-- A set `is_closed` flag survives every sequence of events. -/
theorem closed_run (H : Host) (es : List Event) (w : World) (id : Nat) (T : ResourceType)
    (h : is_closed_handle w id T = true) : is_closed_handle (run H w es) id T = true := by
  induction es generalizing w with
  | nil => exact h
  | cons e es ih => exact ih (step H w e) (closed_step H w e id T h)

theorem get_open_closed (w : World) (id : Nat) (T T1 : ResourceType)
    (h : is_closed_handle w id T = true) :
    get_open_resource w (.resource id) T1 = none := by
  rw [is_closed_handle_iff] at h
  obtain ⟨x, hx, _, hc⟩ := h
  simp only [get_open_resource, enif_get_resource, hx]
  split
  · rename_i i y heq
    split at heq
    · simp only [Option.some.injEq, Prod.mk.injEq] at heq
      obtain ⟨_, rfl⟩ := heq
      simp [hc]
    · simp at heq
  · rfl

theorem get_open_some (w : World) (t : Term) (T : ResourceType) (j : Nat) (x : Wrapper)
    (h : get_open_resource w t T = some (j, x)) :
    t = .resource j ∧ w.heap[j]? = some x ∧ x.rtype = T ∧ x.is_closed = false := by
  unfold get_open_resource enif_get_resource at h
  cases t with
  | resource id =>
    simp only at h
    cases hx : w.heap[id]? with
    | none => simp [hx] at h
    | some y =>
      simp only [hx] at h
      by_cases hT : y.rtype = T
      · by_cases hc : y.is_closed = true
        · simp [hT, hc] at h
        · simp [hT, hc] at h
          obtain ⟨rfl, rfl⟩ := h
          exact ⟨rfl, hx, hT, by simpa using hc⟩
      · simp [hT] at h
  | _ => simp at h

theorem get_open_of_open (w : World) (id : Nat) (x : Wrapper) (T : ResourceType)
    (hx : w.heap[id]? = some x) (hT : x.rtype = T) (ho : x.is_closed = false) :
    get_open_resource w (.resource id) T = some (id, x) := by
  simp [get_open_resource, enif_get_resource, hx, hT, ho]

theorem set_closed_closes (w : World) (id : Nat) (x : Wrapper) (T : ResourceType)
    (hx : w.heap[id]? = some x) (hT : x.rtype = T) :
    is_closed_handle (w.set_closed id) id T = true := by
  rw [is_closed_handle_iff]
  refine ⟨{ x with is_closed := true }, ?_, hT, rfl⟩
  simp only [World.set_closed, hx]
  simp [List.getElem?_set]
  exact (List.getElem?_eq_some_iff.mp hx).1

theorem set_closed_of_closed (w : World) (id : Nat) (x : Wrapper)
    (hx : w.heap[id]? = some x) (hc : x.is_closed = true) : w.set_closed id = w := by
  have hx1 : { x with is_closed := true } = x := by
    cases x; simp at hc; simp [hc]
  simp only [World.set_closed, hx, hx1]
  have : w.heap.set id x = w.heap := by
    apply List.ext_getElem?
    intro k
    by_cases hk : id = k
    · subst hk; simp [List.getElem?_set, hx]
      exact (List.getElem?_eq_some_iff.mp hx).1
    · simp [List.getElem?_set, hk]
  rw [this]

set_option maxHeartbeats 2000000 in
/-- A NIF given, as its required handle, a handle whose `is_closed` flag is set
answers `badarg` and changes nothing. -/
theorem closed_rejected (f : Nif) (H : Host) (w : World) (id : Nat) (T : ResourceType)
    (rest : List Term) (hf : required_handle f = some T)
    (h : is_closed_handle w id T = true) :
    ups_nif_funcs f H w (.resource id :: rest) = (.badarg, w) := by
  cases f <;> simp [required_handle] at hf <;> simp only [ups_nif_funcs]
  all_goals
    first
    | unfold ups_nifs_strerror | unfold ups_nifs_env_create | unfold ups_nifs_env_open
    | unfold ups_nifs_env_create_db | unfold ups_nifs_env_open_db | unfold ups_nifs_env_rename_db
    | unfold ups_nifs_env_erase_db | unfold ups_nifs_db_insert | unfold ups_nifs_db_erase
    | unfold ups_nifs_db_find | unfold ups_nifs_db_find_flags | unfold ups_nifs_db_close
    | unfold ups_nifs_txn_begin | unfold ups_nifs_txn_abort | unfold ups_nifs_txn_commit
    | unfold ups_nifs_env_close | unfold ups_nifs_cursor_create | unfold ups_nifs_cursor_clone
    | unfold ups_nifs_cursor_move | unfold ups_nifs_cursor_overwrite | unfold ups_nifs_cursor_find
    | unfold ups_nifs_cursor_insert | unfold ups_nifs_cursor_erase
    | unfold ups_nifs_cursor_get_duplicate_count | unfold ups_nifs_cursor_get_record_size
    | unfold ups_nifs_cursor_close | unfold ups_nifs_uqi_select_range
    | unfold ups_nifs_uqi_result_get_row_count | unfold ups_nifs_uqi_result_get_key_type
    | unfold ups_nifs_uqi_result_get_record_type | unfold ups_nifs_uqi_result_get_key
    | unfold ups_nifs_uqi_result_get_record | unfold ups_nifs_uqi_result_close
  all_goals
    split
    · rename_i heq
      injection heq with h0 _
      subst h0
      rw [get_open_closed w id T _ h]
    · rfl

/-! ## Handle lifecycle -/

theorem error_result_ne_ok (H : Host) (st : Int) : error_result H st ≠ .term g_atom_ok := by
  simp [error_result, g_atom_ok]

/-- What an end-of-life NIF (`db_close`, `env_close`, `cursor_close`,
`txn_commit`, `txn_abort`) does on an open handle: one engine call; on a zero
status `ok` and the flag set, otherwise the translated status and the handle
untouched. -/
theorem close_shape (H : Host) (w : World) (id : Nat) (x : Wrapper) (T : ResourceType)
    (c : Nat → NativeCall) (nif : Host → World → List Term → NifResult × World)
    (hnif : ∀ argv, nif H w argv =
      match argv with
      | [a0] =>
        match get_open_resource w a0 T with
        | none => (.badarg, w)
        | some (id, wrapper) =>
          if (w.call H (c wrapper.native)).1.st ≠ 0
          then (error_result H (w.call H (c wrapper.native)).1.st, (w.call H (c wrapper.native)).2)
          else (.term g_atom_ok, (w.call H (c wrapper.native)).2.set_closed id)
      | _ => (.badarg, w))
    (hx : w.heap[id]? = some x) (hT : x.rtype = T) (ho : x.is_closed = false) :
    nif H w [.resource id] =
      if (H.engine w.trace (c x.native)).st ≠ 0
      then (error_result H (H.engine w.trace (c x.native)).st,
            { w with trace := w.trace ++ [c x.native] })
      else (.term g_atom_ok,
            World.set_closed { w with trace := w.trace ++ [c x.native] } id) := by
  rw [hnif]
  simp only [get_open_of_open w id x T hx hT ho, World.call]

theorem txn_commit_open (H : Host) (w : World) (id : Nat) (x : Wrapper)
    (hx : w.heap[id]? = some x) (hT : x.rtype = .txn) (ho : x.is_closed = false) :
    ups_nifs_txn_commit H w [.resource id] =
      if (H.engine w.trace (.ups_txn_commit x.native 0)).st ≠ 0
      then (error_result H (H.engine w.trace (.ups_txn_commit x.native 0)).st,
            { w with trace := w.trace ++ [.ups_txn_commit x.native 0] })
      else (.term g_atom_ok,
            World.set_closed { w with trace := w.trace ++ [.ups_txn_commit x.native 0] } id) :=
  close_shape H w id x .txn (fun p => .ups_txn_commit p 0) ups_nifs_txn_commit
    (fun _ => rfl) hx hT ho


theorem txn_abort_open (H : Host) (w : World) (id : Nat) (x : Wrapper)
    (hx : w.heap[id]? = some x) (hT : x.rtype = .txn) (ho : x.is_closed = false) :
    ups_nifs_txn_abort H w [.resource id] =
      if (H.engine w.trace (.ups_txn_abort x.native 0)).st ≠ 0
      then (error_result H (H.engine w.trace (.ups_txn_abort x.native 0)).st,
            { w with trace := w.trace ++ [.ups_txn_abort x.native 0] })
      else (.term g_atom_ok,
            World.set_closed { w with trace := w.trace ++ [.ups_txn_abort x.native 0] } id) :=
  close_shape H w id x .txn (fun p => .ups_txn_abort p 0) ups_nifs_txn_abort
    (fun _ => rfl) hx hT ho

/-- An explicit close that answered `ok` has set the `is_closed` flag. -/
theorem close_ok_closes (T : ResourceType) (c : Nif) (H : Host) (w : World) (id : Nat)
    (hc : close_nif T = some c)
    (hok : (ups_nif_funcs c H w [.resource id]).1 = .term g_atom_ok) :
    is_closed_handle (ups_nif_funcs c H w [.resource id]).2 id T = true := by
  cases T <;> simp [close_nif] at hc <;> subst hc <;> simp only [ups_nif_funcs] at hok ⊢
  all_goals
    first
    | unfold ups_nifs_env_close at hok ⊢
    | unfold ups_nifs_db_close at hok ⊢
    | unfold ups_nifs_cursor_close at hok ⊢
    | unfold ups_nifs_uqi_result_close at hok ⊢
  all_goals
    simp only at hok ⊢
    cases hg : get_open_resource w (.resource id) _ with
    | none => simp [hg] at hok
    | some p =>
      obtain ⟨j, x⟩ := p
      obtain ⟨hj, hx, hT, _⟩ := get_open_some _ _ _ _ _ hg
      injection hj with hj
      subst hj
      simp only [hg] at hok ⊢
      first
      | exact set_closed_closes _ _ _ _ hx hT
      | (split
         · rename_i hst
           rw [if_pos hst] at hok
           exact absurd hok (error_result_ne_ok _ _)
         · exact set_closed_closes _ _ _ _ hx hT)

theorem close_nif_required (T : ResourceType) (c : Nif) (hc : close_nif T = some c) :
    required_handle c = some T := by
  cases T <;> simp [close_nif] at hc <;> subst hc <;> rfl

/-- C1. For the handle kinds with an explicit close (Environment, Database,
Cursor, ResultSet): once the close NIF answered `ok` on a handle, then after
any further sequence of NIF calls and destructor runs every NIF that takes the
handle as its required (first) argument answers the closed-handle rejection
`badarg` and leaves the world as it was, so no engine call is logged; the
close NIF itself is among them, so a repeated close does not release the native
object again. -/
theorem C1_closed_handle_rejected (H : Host) (w : World) (T : ResourceType) (c : Nif)
    (id : Nat) (hc : close_nif T = some c)
    (hok : (ups_nif_funcs c H w [.resource id]).1 = .term g_atom_ok)
    (es : List Event) (f : Nif) (rest : List Term) (hf : required_handle f = some T) :
    ups_nif_funcs f H (run H (ups_nif_funcs c H w [.resource id]).2 es) (.resource id :: rest)
        = (.badarg, run H (ups_nif_funcs c H w [.resource id]).2 es)
      ∧ ups_nif_funcs c H (run H (ups_nif_funcs c H w [.resource id]).2 es) [.resource id]
        = (.badarg, run H (ups_nif_funcs c H w [.resource id]).2 es) := by
  have h1 := closed_run H es _ id T (close_ok_closes T c H w id hc hok)
  exact ⟨closed_rejected f H _ id T rest hf h1,
    closed_rejected c H _ id T [] (close_nif_required T c hc) h1⟩

/-- Witness of C1: a database handle closed with `db_close`, then a destructor run and
a second `db_close`, then `db_insert` and `db_close` on it. -/
theorem C1_closed_handle_rejected_witness :
    ups_nif_funcs .db_insert (const_host 0)
        (run (const_host 0) (ups_nif_funcs .db_close (const_host 0) (one_handle .db)
          [.resource 0]).2 [.gc 0, .call .db_close [.resource 0]])
        (.resource 0 :: [.resource 1, .binary 8 [1], .binary 16 [2], .int 0])
        = (.badarg, run (const_host 0) (ups_nif_funcs .db_close (const_host 0)
            (one_handle .db) [.resource 0]).2 [.gc 0, .call .db_close [.resource 0]])
      ∧ ups_nif_funcs .db_close (const_host 0)
          (run (const_host 0) (ups_nif_funcs .db_close (const_host 0) (one_handle .db)
            [.resource 0]).2 [.gc 0, .call .db_close [.resource 0]]) [.resource 0]
        = (.badarg, run (const_host 0) (ups_nif_funcs .db_close (const_host 0)
            (one_handle .db) [.resource 0]).2 [.gc 0, .call .db_close [.resource 0]]) :=
  C1_closed_handle_rejected (const_host 0) (one_handle .db) .db .db_close 0 rfl rfl
    [.gc 0, .call .db_close [.resource 0]] .db_insert
    [.resource 1, .binary 8 [1], .binary 16 [2], .int 0] rfl


theorem opt_is_closed_closed (w : World) (id : Nat) (T : ResourceType)
    (h : is_closed_handle w id T = true) :
    opt_is_closed (enif_get_resource w (.resource id) T) = true := by
  rw [is_closed_handle_iff] at h
  obtain ⟨x, hx, hT, hc⟩ := h
  simp [enif_get_resource, hx, hT, opt_is_closed, hc]

/-- A transaction handle whose flag is set is rejected wherever it is used. -/
theorem closed_txn_rejected (H : Host) (w : World) (id : Nat)
    (h : is_closed_handle w id .txn = true) : txn_uses_rejected H w id := by
  refine ⟨closed_rejected .txn_commit H w id .txn [] rfl h,
    closed_rejected .txn_abort H w id .txn [] rfl h, ?_⟩
  intro a0 rest
  have hc := opt_is_closed_closed w id .txn h
  refine ⟨?_, ?_, ?_, ?_, ?_⟩
  · unfold ups_nifs_db_insert
    split
    · rename_i heq
      injection heq with h0 h1
      injection h1 with h1 _
      subst h0 h1
      split
      · rfl
      · simp only [g_ups_txn_resource, hc, if_true]
    · rfl
  · unfold ups_nifs_db_erase
    split
    · rename_i heq
      injection heq with h0 h1
      injection h1 with h1 _
      subst h0 h1
      split
      · rfl
      · simp only [g_ups_txn_resource, hc, if_true]
    · rfl
  · unfold ups_nifs_db_find
    split
    · rename_i heq
      injection heq with h0 h1
      injection h1 with h1 _
      subst h0 h1
      split
      · rfl
      · simp only [g_ups_txn_resource, hc, if_true]
    · rfl
  · unfold ups_nifs_db_find_flags
    split
    · rename_i heq
      injection heq with h0 h1
      injection h1 with h1 _
      subst h0 h1
      split
      · rfl
      · simp only [g_ups_txn_resource, hc, if_true]
    · rfl
  · unfold ups_nifs_cursor_create
    split
    · rename_i heq
      injection heq with h0 h1
      injection h1 with h1 _
      subst h0 h1
      split
      · rfl
      · simp only [g_ups_txn_resource, hc, if_true]
    · rfl

theorem set_closed_trace_closes (w : World) (tr : List NativeCall) (id : Nat) (x : Wrapper)
    (T : ResourceType) (hx : w.heap[id]? = some x) (hT : x.rtype = T) :
    is_closed_handle (World.set_closed { w with trace := tr } id) id T = true :=
  set_closed_closes { w with trace := tr } id x T hx hT

theorem open_not_closed (w : World) (tr : List NativeCall) (id : Nat) (x : Wrapper)
    (T : ResourceType) (hx : w.heap[id]? = some x) (ho : x.is_closed = false) :
    is_closed_handle { w with trace := tr } id T = false := by
  simp [is_closed_handle, hx, ho]

/-- C2 (as the code has it). On an open Transaction handle `txn_commit` (resp.
`txn_abort`) makes one engine call.  When the engine reports success the NIF
answers `ok` and sets the flag, and from then on, after any further events,
every commit, abort, insert, erase, find, find_flags and cursor_create given
that handle answers `badarg` without effect.  When the engine reports a
failing status the NIF answers `{error, status_to_atom(st)}` and the handle
stays open. -/
theorem C2_txn_end_closes_on_native_success (H : Host) (w : World) (id : Nat) (x : Wrapper)
    (hx : w.heap[id]? = some x) (hT : x.rtype = .txn) (ho : x.is_closed = false) :
    (ups_nifs_txn_commit H w [.resource id] =
      if (H.engine w.trace (.ups_txn_commit x.native 0)).st ≠ 0
      then (error_result H (H.engine w.trace (.ups_txn_commit x.native 0)).st,
            { w with trace := w.trace ++ [.ups_txn_commit x.native 0] })
      else (.term g_atom_ok,
            World.set_closed { w with trace := w.trace ++ [.ups_txn_commit x.native 0] } id))
    ∧ ((H.engine w.trace (.ups_txn_commit x.native 0)).st = 0 →
        ∀ es, txn_uses_rejected H (run H (ups_nifs_txn_commit H w [.resource id]).2 es) id)
    ∧ ((H.engine w.trace (.ups_txn_commit x.native 0)).st ≠ 0 →
        is_closed_handle (ups_nifs_txn_commit H w [.resource id]).2 id .txn = false)
    ∧ (ups_nifs_txn_abort H w [.resource id] =
      if (H.engine w.trace (.ups_txn_abort x.native 0)).st ≠ 0
      then (error_result H (H.engine w.trace (.ups_txn_abort x.native 0)).st,
            { w with trace := w.trace ++ [.ups_txn_abort x.native 0] })
      else (.term g_atom_ok,
            World.set_closed { w with trace := w.trace ++ [.ups_txn_abort x.native 0] } id))
    ∧ ((H.engine w.trace (.ups_txn_abort x.native 0)).st = 0 →
        ∀ es, txn_uses_rejected H (run H (ups_nifs_txn_abort H w [.resource id]).2 es) id)
    ∧ ((H.engine w.trace (.ups_txn_abort x.native 0)).st ≠ 0 →
        is_closed_handle (ups_nifs_txn_abort H w [.resource id]).2 id .txn = false) := by
  refine ⟨txn_commit_open H w id x hx hT ho, ?_, ?_, txn_abort_open H w id x hx hT ho, ?_, ?_⟩
  · intro hst es
    apply closed_txn_rejected
    apply closed_run
    rw [txn_commit_open H w id x hx hT ho, if_neg (by simpa using hst)]
    exact set_closed_trace_closes w _ id x .txn hx hT
  · intro hst
    rw [txn_commit_open H w id x hx hT ho, if_pos hst]
    exact open_not_closed w _ id x .txn hx ho
  · intro hst es
    apply closed_txn_rejected
    apply closed_run
    rw [txn_abort_open H w id x hx hT ho, if_neg (by simpa using hst)]
    exact set_closed_trace_closes w _ id x .txn hx hT
  · intro hst
    rw [txn_abort_open H w id x hx hT ho, if_pos hst]
    exact open_not_closed w _ id x .txn hx ho

/-- Witness of C2 (as the code has it) with an engine that reports success. -/
theorem C2_txn_end_closes_on_native_success_witness :
    (ups_nifs_txn_commit (const_host 0) (one_handle .txn) [.resource 0]).1.isBadarg = false
    ∧ txn_uses_rejected (const_host 0)
        (run (const_host 0) (ups_nifs_txn_commit (const_host 0) (one_handle .txn)
          [.resource 0]).2 [.gc 0]) 0
    ∧ txn_uses_rejected (const_host 0)
        (run (const_host 0) (ups_nifs_txn_abort (const_host 0) (one_handle .txn)
          [.resource 0]).2 []) 0 :=
  ⟨rfl,
   (C2_txn_end_closes_on_native_success (const_host 0) (one_handle .txn) 0 ⟨.txn, 100, false⟩
      rfl rfl rfl).2.1 rfl [.gc 0],
   (C2_txn_end_closes_on_native_success (const_host 0) (one_handle .txn) 0 ⟨.txn, 100, false⟩
      rfl rfl rfl).2.2.2.2.1 rfl []⟩

/-- C2 fails as stated: with an engine that answers `UPS_TXN_CONFLICT` (-31),
`txn_commit` on an open handle leaves the flag clear, and the following
`txn_abort` (resp. `txn_commit`) on the same handle is not rejected but
reaches the engine; the same holds after a failed `txn_abort`. -/
theorem C2_failed_commit_leaves_handle_open :
    is_closed_handle
        (ups_nifs_txn_commit (const_host (-31)) (one_handle .txn) [.resource 0]).2 0 .txn = false
    ∧ (ups_nifs_txn_abort (const_host (-31))
        (ups_nifs_txn_commit (const_host (-31)) (one_handle .txn) [.resource 0]).2
        [.resource 0]).1.isBadarg = false
    ∧ (ups_nifs_txn_abort (const_host (-31))
        (ups_nifs_txn_commit (const_host (-31)) (one_handle .txn) [.resource 0]).2
        [.resource 0]).2.trace = [.ups_txn_commit 100 0, .ups_txn_abort 100 0]
    ∧ (ups_nifs_txn_commit (const_host (-31))
        (ups_nifs_txn_commit (const_host (-31)) (one_handle .txn) [.resource 0]).2
        [.resource 0]).2.trace = [.ups_txn_commit 100 0, .ups_txn_commit 100 0]
    ∧ is_closed_handle
        (ups_nifs_txn_abort (const_host (-31)) (one_handle .txn) [.resource 0]).2 0 .txn = false
    ∧ (ups_nifs_txn_commit (const_host (-31))
        (ups_nifs_txn_abort (const_host (-31)) (one_handle .txn) [.resource 0]).2
        [.resource 0]).2.trace = [.ups_txn_abort 100 0, .ups_txn_commit 100 0] := by
  decide

theorem txn_commit_ok_closes (H : Host) (w : World) (id : Nat)
    (hok : (ups_nifs_txn_commit H w [.resource id]).1 = .term g_atom_ok) :
    is_closed_handle (ups_nifs_txn_commit H w [.resource id]).2 id .txn = true := by
  unfold ups_nifs_txn_commit at hok ⊢
  simp only at hok ⊢
  cases hg : get_open_resource w (.resource id) g_ups_txn_resource with
  | none => simp [hg] at hok
  | some p =>
    obtain ⟨j, x⟩ := p
    obtain ⟨hj, hx, hT, _⟩ := get_open_some _ _ _ _ _ hg
    injection hj with hj
    subst hj
    simp only [hg] at hok ⊢
    split
    · rename_i hst
      rw [if_pos hst] at hok
      exact absurd hok (error_result_ne_ok _ _)
    · exact set_closed_closes _ _ _ _ hx hT

theorem resource_cleanup_closed (release : Nat → NativeCall) (H : Host) (w : World) (id : Nat)
    (x : Wrapper) (hx : w.heap[id]? = some x) (hc : x.is_closed = true) :
    resource_cleanup release H w id = w := by
  simp only [resource_cleanup, hx, hc]
  exact set_closed_of_closed w id x hx hc

theorem resource_cleanup_open (release : Nat → NativeCall) (H : Host) (w : World) (id : Nat)
    (x : Wrapper) (hx : w.heap[id]? = some x) (ho : x.is_closed = false) :
    resource_cleanup release H w id =
      ⟨w.heap.set id { x with is_closed := true }, w.trace ++ [release x.native], w.allocs⟩ := by
  simp [resource_cleanup, hx, ho, World.call, World.set_closed]

/-- C3 (as the code has it). Once `txn_commit` has answered `ok` on a
Transaction handle, then after any further events `txn_abort` on that handle
answers `badarg`, the one rejection of the layer, and changes nothing, and the
destructor `txn_resource_cleanup` of the handle changes nothing either:
neither logs an engine call, so the native transaction is not committed or
aborted a second time. -/
theorem C3_commit_then_abort_rejected (H : Host) (w : World) (id : Nat)
    (hok : (ups_nifs_txn_commit H w [.resource id]).1 = .term g_atom_ok) (es : List Event) :
    ups_nifs_txn_abort H (run H (ups_nifs_txn_commit H w [.resource id]).2 es) [.resource id]
        = (.badarg, run H (ups_nifs_txn_commit H w [.resource id]).2 es)
    ∧ txn_resource_cleanup H (run H (ups_nifs_txn_commit H w [.resource id]).2 es) id
        = run H (ups_nifs_txn_commit H w [.resource id]).2 es
    ∧ step H (run H (ups_nifs_txn_commit H w [.resource id]).2 es) (.gc id)
        = run H (ups_nifs_txn_commit H w [.resource id]).2 es := by
  have h1 := closed_run H es _ id .txn (txn_commit_ok_closes H w id hok)
  have h2 := h1
  rw [is_closed_handle_iff] at h2
  obtain ⟨x, hx, hT, hc⟩ := h2
  refine ⟨closed_rejected .txn_abort H _ id .txn [] rfl h1,
    resource_cleanup_closed _ H _ id x hx hc, ?_⟩
  simp only [step, hx, hT, destructor]
  exact resource_cleanup_closed _ H _ id x hx hc

/-- Witness of C3 with an engine that reports success. -/
theorem C3_commit_then_abort_rejected_witness :
    ups_nifs_txn_abort (const_host 0)
        (run (const_host 0) (ups_nifs_txn_commit (const_host 0) (one_handle .txn)
          [.resource 0]).2 []) [.resource 0]
        = (.badarg, run (const_host 0) (ups_nifs_txn_commit (const_host 0) (one_handle .txn)
            [.resource 0]).2 [])
    ∧ txn_resource_cleanup (const_host 0)
        (run (const_host 0) (ups_nifs_txn_commit (const_host 0) (one_handle .txn)
          [.resource 0]).2 []) 0
        = run (const_host 0) (ups_nifs_txn_commit (const_host 0) (one_handle .txn)
            [.resource 0]).2 []
    ∧ step (const_host 0)
        (run (const_host 0) (ups_nifs_txn_commit (const_host 0) (one_handle .txn)
          [.resource 0]).2 []) (.gc 0)
        = run (const_host 0) (ups_nifs_txn_commit (const_host 0) (one_handle .txn)
            [.resource 0]).2 [] :=
  C3_commit_then_abort_rejected (const_host 0) (one_handle .txn) 0 rfl []

set_option maxRecDepth 100000 in
/-- C3 fails as stated: with an engine that answers `UPS_TXN_CONFLICT` (-31),
`txn_commit` on an open handle answers `{error, txn_conflict}`; after this
commit `txn_abort` on the same handle is not rejected but makes a native
`ups_txn_abort` call on the transaction, and a finalization of the handle
after this commit makes a native `ups_txn_abort` call as well; with the abort
refused too, commit, abort and finalization make three native calls on the
transaction. -/
theorem C3_abort_after_failed_commit_reaches_engine :
    (ups_nifs_txn_commit (const_host (-31)) (one_handle .txn)
        [.resource 0]).1.elems.map Term.atom_name = [some "error", some "txn_conflict"]
    ∧ (ups_nifs_txn_abort (const_host (-31))
        (ups_nifs_txn_commit (const_host (-31)) (one_handle .txn) [.resource 0]).2
        [.resource 0]).1.isBadarg = false
    ∧ (ups_nifs_txn_abort (const_host (-31))
        (ups_nifs_txn_commit (const_host (-31)) (one_handle .txn) [.resource 0]).2
        [.resource 0]).2.trace = [.ups_txn_commit 100 0, .ups_txn_abort 100 0]
    ∧ (step (const_host (-31))
        (ups_nifs_txn_commit (const_host (-31)) (one_handle .txn) [.resource 0]).2
        (.gc 0)).trace = [.ups_txn_commit 100 0, .ups_txn_abort 100 0]
    ∧ (run (const_host (-31)) (one_handle .txn)
        [.call .txn_commit [.resource 0], .call .txn_abort [.resource 0], .gc 0]).trace
        = [.ups_txn_commit 100 0, .ups_txn_abort 100 0, .ups_txn_abort 100 0] := by
  decide

theorem destructor_eq (T : ResourceType) :
    destructor T = resource_cleanup (release_call T) := by
  cases T <;> rfl

/-- C4. The destructor of each resource type, run on a wrapper object of that
type: with the flag already set it changes nothing (no engine call); with the
flag clear it logs exactly one engine call, the release call of the type
(`ups_txn_abort` for a transaction), and sets the flag, the resulting world
being the same whatever the engine answers; in both cases the flag is set
afterwards, and running the destructor a second time changes nothing more. -/
theorem C4_finalize_idempotent (T : ResourceType) (H : Host) (w : World) (id : Nat)
    (x : Wrapper) (hx : w.heap[id]? = some x) (hT : x.rtype = T) :
    (x.is_closed = true → destructor T H w id = w)
    ∧ (x.is_closed = false → destructor T H w id =
        ⟨w.heap.set id { x with is_closed := true },
         w.trace ++ [release_call T x.native], w.allocs⟩)
    ∧ (∀ H2 : Host, destructor T H2 w id = destructor T H w id)
    ∧ is_closed_handle (destructor T H w id) id T = true
    ∧ destructor T H (destructor T H w id) id = destructor T H w id := by
  rw [destructor_eq]
  have hclosed : is_closed_handle (resource_cleanup (release_call T) H w id) id T = true := by
    cases hc : x.is_closed
    · rw [resource_cleanup_open _ H w id x hx hc, is_closed_handle_iff]
      refine ⟨{ x with is_closed := true }, ?_, hT, rfl⟩
      simp [List.getElem?_set]
      exact (List.getElem?_eq_some_iff.mp hx).1
    · rw [resource_cleanup_closed _ H w id x hx hc, is_closed_handle_iff]
      exact ⟨x, hx, hT, hc⟩
  refine ⟨fun hc => resource_cleanup_closed _ H w id x hx hc,
    fun ho => resource_cleanup_open _ H w id x hx ho, ?_, hclosed, ?_⟩
  · intro H2
    cases hc : x.is_closed
    · rw [resource_cleanup_open _ H w id x hx hc, resource_cleanup_open _ H2 w id x hx hc]
    · rw [resource_cleanup_closed _ H w id x hx hc, resource_cleanup_closed _ H2 w id x hx hc]
  · rw [is_closed_handle_iff] at hclosed
    obtain ⟨y, hy, _, hyc⟩ := hclosed
    exact resource_cleanup_closed _ H _ id y hy hyc

/-- Witness of C4 on an open transaction handle, with an engine whose abort fails. -/
theorem C4_finalize_idempotent_witness :
    (false = true → destructor .txn (const_host (-31)) (one_handle .txn) 0 = one_handle .txn)
    ∧ (false = false → destructor .txn (const_host (-31)) (one_handle .txn) 0 =
        ⟨(one_handle .txn).heap.set 0 ⟨.txn, 100, true⟩,
         (one_handle .txn).trace ++ [release_call .txn 100], (one_handle .txn).allocs⟩)
    ∧ (∀ H2 : Host, destructor .txn H2 (one_handle .txn) 0
        = destructor .txn (const_host (-31)) (one_handle .txn) 0)
    ∧ is_closed_handle (destructor .txn (const_host (-31)) (one_handle .txn) 0) 0 .txn = true
    ∧ destructor .txn (const_host (-31))
        (destructor .txn (const_host (-31)) (one_handle .txn) 0) 0
        = destructor .txn (const_host (-31)) (one_handle .txn) 0 :=
  C4_finalize_idempotent .txn (const_host (-31)) (one_handle .txn) 0 ⟨.txn, 100, false⟩ rfl rfl


/-! ## Parameter marshaller -/

set_option maxRecDepth 100000 in
/-- C5 (failing input). A list of 65 well-formed entries `{cache_size, 1}`:
`get_parameters` returns 1, having stored the 65th entry at index 64, past the
end of the 64-entry array; `env_create` does not answer `badarg` but hands the
array to `ups_env_create`. -/
theorem C5_sixty_five_entries_accepted :
    (get_parameters upscaledb_h (cache_entries 65) (const_host 0).param_state).1 = 1
    ∧ (get_parameters upscaledb_h (cache_entries 65) (const_host 0).param_state).2.parameters.oob
        = [(64, ParamField.name, 256), (64, ParamField.value, 1)]
    ∧ (ups_nifs_env_create (const_host 0) empty_world
        [mkString [116], .int 0, .int 0, cache_entries 65]).1.isBadarg = false
    ∧ (ups_nifs_env_create (const_host 0) empty_world
        [mkString [116], .int 0, .int 0, cache_entries 65]).2.trace
        = [.ups_env_create [116] 0 0
            ⟨List.replicate 64 ⟨256, 1⟩,
             [(64, ParamField.name, 256), (64, ParamField.value, 1)]⟩] := by
  decide


theorem enif_get_uint64_none (v : Term) (h : ¬ is_uint64 v) : enif_get_uint64 v = none := by
  cases v with
  | int n =>
    simp only [enif_get_uint64]
    split
    · rename_i hn
      exfalso
      apply h
      refine ⟨n.toNat, ?_, ?_⟩
      · have := hn.2
        omega
      · congr
        omega
    · rfl
  | _ => rfl

theorem numeric_parameter_none (name : Nat) (v : Term) (i : Nat) (s : ParamState)
    (h : enif_get_uint64 v = none) : (numeric_parameter name v i s).1 = false := by
  simp [numeric_parameter, h]

theorem enif_get_atom_recognized :
    ∀ name ∈ recognized_names, enif_get_atom (.atom name) 128 = some name := by
  decide

theorem enif_get_uint64_some (v : Term) (m : Nat) (h : enif_get_uint64 v = some m) :
    m < 2 ^ 64 ∧ v = .int m := by
  cases v with
  | int n =>
    simp only [enif_get_uint64] at h
    split at h
    · rename_i hn
      injection h with h
      subst h
      have h1 := hn.1
      have h2 := hn.2
      refine ⟨by omega, ?_⟩
      congr
      omega
    · simp at h
  | _ => simp [enif_get_uint64] at h

theorem numeric_parameter_true (tag : Nat) (v : Term) (i : Nat) (s s1 : ParamState)
    (h : numeric_parameter tag v i s = (true, s1)) :
    ∃ val, enif_get_uint64 v = some val
      ∧ s1.parameters = (s.parameters.set_name i tag).set_value i val := by
  unfold numeric_parameter at h
  dsimp only at h
  split at h
  · simp at h
  · rename_i x hx
    injection h with _ h
    subst h
    exact ⟨x, hx, rfl⟩

theorem readonly_parameter_true (tag : Nat) (i : Nat) (s s1 : ParamState)
    (h : readonly_parameter tag i s = (true, s1)) :
    s1.parameters = s.parameters.set_name i tag := by
  unfold readonly_parameter at h
  injection h with _ h
  subst h
  rfl

theorem enif_get_atom_some (t : Term) (size : Nat) (name : String)
    (h : enif_get_atom t size = some name) : t = .atom name := by
  unfold enif_get_atom at h
  split at h
  · split at h
    · injection h with h
      subst h
      rfl
    · simp at h
  · simp at h

theorem enif_get_tuple_some (t : Term) (elems : List Term)
    (h : enif_get_tuple t = some elems) : t = .tuple elems := by
  unfold enif_get_tuple at h
  split at h
  · injection h with h
    subst h
    rfl
  · simp at h

theorem set_name_in_bounds (p : ParamArray) (i v : Nat) (c : ups_parameter_t)
    (h : p.cells[i]? = some c) :
    p.set_name i v = ⟨p.cells.set i ⟨v, c.value⟩, p.oob⟩ := by
  unfold ParamArray.set_name
  rw [h]

theorem set_value_in_bounds (p : ParamArray) (i v : Nat) (c : ups_parameter_t)
    (h : p.cells[i]? = some c) :
    p.set_value i v = ⟨p.cells.set i ⟨c.name, v⟩, p.oob⟩ := by
  unfold ParamArray.set_value
  rw [h]

theorem getElem?_set_self_of_some {α : Type} (l : List α) (i : Nat) (c x : α)
    (h : l[i]? = some c) : (l.set i x)[i]? = some x := by
  have hi : i < l.length := (List.getElem?_eq_some_iff.mp h).1
  simp [hi]

theorem strcmp_loop_eq_zero (a b : List Char) : strcmp_loop a b = 0 ↔ a = b := by
  induction a generalizing b with
  | nil =>
    cases b with
    | nil => simp [strcmp_loop]
    | cons y ys => simp [strcmp_loop]
  | cons x xs ih =>
    cases b with
    | nil => simp [strcmp_loop]
    | cons y ys =>
      simp only [strcmp_loop, List.cons.injEq]
      by_cases hxy : x = y
      · rw [if_pos hxy, ih ys]
        exact ⟨fun h => ⟨hxy, h⟩, fun h => h.2⟩
      · rw [if_neg hxy]
        constructor
        · intro h
          split at h <;> simp at h
        · intro h
          exact absurd h.1 hxy

theorem strcmp_eq_zero (a b : String) : strcmp a b = 0 ↔ c_str a = c_str b := by
  unfold strcmp
  rw [strcmp_loop_eq_zero]
  constructor
  · intro h
    exact String.ext h
  · intro h
    rw [h]

/-- A recognized name holds no NUL: it is its own C string. -/
theorem c_str_recognized : ∀ name ∈ recognized_names, c_str name = name := by
  decide

theorem strcmp_recognized (a b : String) (hb : b ∈ recognized_names) :
    strcmp a b = 0 ↔ c_str a = b := by
  rw [strcmp_eq_zero, c_str_recognized b hb]

theorem strcmp_of_c_str (a b : String) (hb : b ∈ recognized_names) (h : c_str a = b) :
    strcmp a b = 0 :=
  (strcmp_recognized a b hb).mpr h

/-- The chain of `strcmp` tests of `get_parameters` on an entry `{Atom, Value}`
whose atom `enif_get_atom` has written to the buffer: which branch is taken is
decided by the name read up to its first NUL. -/
theorem get_parameters_cell_cases (K : Header) (atom : String) (a1 : Term) (i : Nat)
    (s : ParamState) (r : Bool × ParamState)
    (ha : enif_get_atom (.atom atom) 128 = some atom)
    (h : get_parameters_cell K (.tuple [.atom atom, a1]) i s = r) :
    (c_str atom ∉ recognized_names ∧ r = (false, s))
    ∨ (∃ tag, c_str atom ∈ numeric_names ∧ param_tag K (c_str atom) = some tag
        ∧ r = numeric_parameter tag a1 i s)
    ∨ (∃ tag buf, c_str atom ∈ string_names ∧ param_tag K (c_str atom) = some tag
        ∧ (((enif_get_string a1 buf MAX_STRING).1 ≤ 0 ∧ r.1 = false
            ∧ r.2.parameters = s.parameters.set_name i tag)
          ∨ (¬ (enif_get_string a1 buf MAX_STRING).1 ≤ 0 ∧ r.1 = true
            ∧ r.2.parameters = (s.parameters.set_name i tag).set_value i
                (load_uint64 (enif_get_string a1 buf MAX_STRING).2))))
    ∨ (∃ tag, c_str atom ∈ readonly_names ∧ param_tag K (c_str atom) = some tag
        ∧ r = readonly_parameter tag i s) := by
  simp only [get_parameters_cell, enif_get_tuple, ha] at h
  by_cases hn1 : strcmp atom "journal_compression" = 0
  · rw [if_pos hn1] at h
    rw [(strcmp_recognized atom "journal_compression" (by decide)).mp hn1]
    exact Or.inr (Or.inl ⟨_, by decide, rfl, h.symm⟩)
  rw [if_neg hn1] at h
  by_cases hn2 : strcmp atom "record_compression" = 0
  · rw [if_pos hn2] at h
    rw [(strcmp_recognized atom "record_compression" (by decide)).mp hn2]
    exact Or.inr (Or.inl ⟨_, by decide, rfl, h.symm⟩)
  rw [if_neg hn2] at h
  by_cases hn3 : strcmp atom "key_compression" = 0
  · rw [if_pos hn3] at h
    rw [(strcmp_recognized atom "key_compression" (by decide)).mp hn3]
    exact Or.inr (Or.inl ⟨_, by decide, rfl, h.symm⟩)
  rw [if_neg hn3] at h
  by_cases hn4 : strcmp atom "cache_size" = 0
  · rw [if_pos hn4] at h
    rw [(strcmp_recognized atom "cache_size" (by decide)).mp hn4]
    exact Or.inr (Or.inl ⟨_, by decide, rfl, h.symm⟩)
  rw [if_neg hn4] at h
  by_cases hn5 : strcmp atom "page_size" = 0
  · rw [if_pos hn5] at h
    rw [(strcmp_recognized atom "page_size" (by decide)).mp hn5]
    exact Or.inr (Or.inl ⟨_, by decide, rfl, h.symm⟩)
  rw [if_neg hn5] at h
  by_cases hn6 : strcmp atom "file_size_limit" = 0
  · rw [if_pos hn6] at h
    rw [(strcmp_recognized atom "file_size_limit" (by decide)).mp hn6]
    exact Or.inr (Or.inl ⟨_, by decide, rfl, h.symm⟩)
  rw [if_neg hn6] at h
  by_cases hn7 : strcmp atom "key_size" = 0
  · rw [if_pos hn7] at h
    rw [(strcmp_recognized atom "key_size" (by decide)).mp hn7]
    exact Or.inr (Or.inl ⟨_, by decide, rfl, h.symm⟩)
  rw [if_neg hn7] at h
  by_cases hn8 : strcmp atom "record_size" = 0
  · rw [if_pos hn8] at h
    rw [(strcmp_recognized atom "record_size" (by decide)).mp hn8]
    exact Or.inr (Or.inl ⟨_, by decide, rfl, h.symm⟩)
  rw [if_neg hn8] at h
  by_cases hn9 : strcmp atom "max_databases" = 0
  · rw [if_pos hn9] at h
    rw [(strcmp_recognized atom "max_databases" (by decide)).mp hn9]
    exact Or.inr (Or.inl ⟨_, by decide, rfl, h.symm⟩)
  rw [if_neg hn9] at h
  by_cases hn10 : strcmp atom "key_type" = 0
  · rw [if_pos hn10] at h
    rw [(strcmp_recognized atom "key_type" (by decide)).mp hn10]
    exact Or.inr (Or.inl ⟨_, by decide, rfl, h.symm⟩)
  rw [if_neg hn10] at h
  by_cases hn11 : strcmp atom "record_type" = 0
  · rw [if_pos hn11] at h
    rw [(strcmp_recognized atom "record_type" (by decide)).mp hn11]
    exact Or.inr (Or.inl ⟨_, by decide, rfl, h.symm⟩)
  rw [if_neg hn11] at h
  by_cases hn12 : strcmp atom "log_directory" = 0
  · rw [if_pos hn12] at h
    rw [(strcmp_recognized atom "log_directory" (by decide)).mp hn12]
    subst h
    refine Or.inr (Or.inr (Or.inl ⟨_, s.logdir_buf, by decide, rfl, ?_⟩))
    by_cases hr : (enif_get_string a1 s.logdir_buf MAX_STRING).1 ≤ 0
    · rw [if_pos hr]
      exact Or.inl ⟨hr, rfl, rfl⟩
    · rw [if_neg hr]
      exact Or.inr ⟨hr, rfl, rfl⟩
  rw [if_neg hn12] at h
  by_cases hn13 : strcmp atom "encryption_key" = 0
  · rw [if_pos hn13] at h
    rw [(strcmp_recognized atom "encryption_key" (by decide)).mp hn13]
    subst h
    refine Or.inr (Or.inr (Or.inl ⟨_, s.aeskey_buf, by decide, rfl, ?_⟩))
    by_cases hr : (enif_get_string a1 s.aeskey_buf MAX_STRING).1 ≤ 0
    · rw [if_pos hr]
      exact Or.inl ⟨hr, rfl, rfl⟩
    · rw [if_neg hr]
      exact Or.inr ⟨hr, rfl, rfl⟩
  rw [if_neg hn13] at h
  by_cases hn14 : strcmp atom "network_timeout_sec" = 0
  · rw [if_pos hn14] at h
    rw [(strcmp_recognized atom "network_timeout_sec" (by decide)).mp hn14]
    exact Or.inr (Or.inl ⟨_, by decide, rfl, h.symm⟩)
  rw [if_neg hn14] at h
  by_cases hn15 : strcmp atom "flags" = 0
  · rw [if_pos hn15] at h
    rw [(strcmp_recognized atom "flags" (by decide)).mp hn15]
    exact Or.inr (Or.inr (Or.inr ⟨_, by decide, rfl, h.symm⟩))
  rw [if_neg hn15] at h
  by_cases hn16 : strcmp atom "filemode" = 0
  · rw [if_pos hn16] at h
    rw [(strcmp_recognized atom "filemode" (by decide)).mp hn16]
    exact Or.inr (Or.inr (Or.inr ⟨_, by decide, rfl, h.symm⟩))
  rw [if_neg hn16] at h
  by_cases hn17 : strcmp atom "filename" = 0
  · rw [if_pos hn17] at h
    rw [(strcmp_recognized atom "filename" (by decide)).mp hn17]
    exact Or.inr (Or.inr (Or.inr ⟨_, by decide, rfl, h.symm⟩))
  rw [if_neg hn17] at h
  by_cases hn18 : strcmp atom "database_name" = 0
  · rw [if_pos hn18] at h
    rw [(strcmp_recognized atom "database_name" (by decide)).mp hn18]
    exact Or.inr (Or.inr (Or.inr ⟨_, by decide, rfl, h.symm⟩))
  rw [if_neg hn18] at h
  by_cases hn19 : strcmp atom "max_keys_per_page" = 0
  · rw [if_pos hn19] at h
    rw [(strcmp_recognized atom "max_keys_per_page" (by decide)).mp hn19]
    exact Or.inr (Or.inr (Or.inr ⟨_, by decide, rfl, h.symm⟩))
  rw [if_neg hn19] at h
  refine Or.inl ⟨?_, h.symm⟩
  intro hmem
  simp only [recognized_names, numeric_names, string_names, readonly_names, List.cons_append,
    List.nil_append, List.mem_cons, List.mem_singleton, List.mem_nil_iff, or_false] at hmem
  rcases hmem with hm | hm | hm | hm | hm | hm | hm | hm | hm | hm | hm | hm | hm | hm | hm | hm | hm | hm | hm
  · exact hn1 (strcmp_of_c_str atom "journal_compression" (by decide) hm)
  · exact hn2 (strcmp_of_c_str atom "record_compression" (by decide) hm)
  · exact hn3 (strcmp_of_c_str atom "key_compression" (by decide) hm)
  · exact hn4 (strcmp_of_c_str atom "cache_size" (by decide) hm)
  · exact hn5 (strcmp_of_c_str atom "page_size" (by decide) hm)
  · exact hn6 (strcmp_of_c_str atom "file_size_limit" (by decide) hm)
  · exact hn7 (strcmp_of_c_str atom "key_size" (by decide) hm)
  · exact hn8 (strcmp_of_c_str atom "record_size" (by decide) hm)
  · exact hn9 (strcmp_of_c_str atom "max_databases" (by decide) hm)
  · exact hn10 (strcmp_of_c_str atom "key_type" (by decide) hm)
  · exact hn11 (strcmp_of_c_str atom "record_type" (by decide) hm)
  · exact hn14 (strcmp_of_c_str atom "network_timeout_sec" (by decide) hm)
  · exact hn12 (strcmp_of_c_str atom "log_directory" (by decide) hm)
  · exact hn13 (strcmp_of_c_str atom "encryption_key" (by decide) hm)
  · exact hn15 (strcmp_of_c_str atom "flags" (by decide) hm)
  · exact hn16 (strcmp_of_c_str atom "filemode" (by decide) hm)
  · exact hn17 (strcmp_of_c_str atom "filename" (by decide) hm)
  · exact hn18 (strcmp_of_c_str atom "database_name" (by decide) hm)
  · exact hn19 (strcmp_of_c_str atom "max_keys_per_page" (by decide) hm)

theorem numeric_in_recognized : ∀ name ∈ numeric_names, name ∈ recognized_names := by
  decide

theorem string_in_recognized : ∀ name ∈ string_names, name ∈ recognized_names := by
  decide

theorem readonly_in_recognized : ∀ name ∈ readonly_names, name ∈ recognized_names := by
  decide

theorem numeric_not_other :
    ∀ name ∈ numeric_names, name ∉ string_names ∧ name ∉ readonly_names := by
  decide

theorem string_not_other :
    ∀ name ∈ string_names, name ∉ numeric_names ∧ name ∉ readonly_names := by
  decide

theorem readonly_not_numeric : ∀ name ∈ readonly_names, name ∉ numeric_names := by
  decide

/-- A round of the loop either refuses the entry without a store, or the
entry is `{Atom, Value}` and `enif_get_atom` has written the atom to the
buffer. -/
theorem get_parameters_cell_shape (K : Header) (cell : Term) (i : Nat) (s : ParamState) :
    get_parameters_cell K cell i s = (false, s)
    ∨ ∃ atom a1, cell = .tuple [.atom atom, a1]
        ∧ enif_get_atom (.atom atom) 128 = some atom := by
  unfold get_parameters_cell
  split
  · rename_i a0 a1 ht
    have hcell := enif_get_tuple_some _ _ ht
    cases ha : enif_get_atom a0 128 with
    | none => exact Or.inl rfl
    | some atom =>
      have ha0 := enif_get_atom_some _ _ _ ha
      subst ha0
      subst hcell
      exact Or.inr ⟨atom, a1, rfl, ha⟩
  · exact Or.inl rfl

/-- One round of the loop refuses an offending entry. -/
theorem offending_cell (K : Header) (bad : Term) (i : Nat) (s : ParamState)
    (h : offending bad) : (get_parameters_cell K bad i s).1 = false := by
  rcases get_parameters_cell_shape K bad i s with hs | ⟨atom, a1, rfl, ha⟩
  · rw [hs]
  · rcases get_parameters_cell_cases K atom a1 i s _ ha rfl with
      ⟨_, hr⟩ | ⟨tag, hnum, _, hr⟩ | ⟨tag, buf, hstr, _, _⟩ | ⟨tag, hro, _, hr⟩
    · rw [hr]
    · rcases h with h | ⟨name, v, heq, h⟩ | ⟨name, v, heq, hmem, hv⟩
      · exact absurd rfl (h atom a1)
      · simp only [Term.tuple.injEq, List.cons.injEq, Term.atom.injEq, and_true] at heq
        obtain ⟨rfl, rfl⟩ := heq
        exact absurd (numeric_in_recognized _ hnum) h
      · simp only [Term.tuple.injEq, List.cons.injEq, Term.atom.injEq, and_true] at heq
        obtain ⟨rfl, rfl⟩ := heq
        rw [hr]
        exact numeric_parameter_none tag _ i s (enif_get_uint64_none _ hv)
    · rcases h with h | ⟨name, v, heq, h⟩ | ⟨name, v, heq, hmem, hv⟩
      · exact absurd rfl (h atom a1)
      · simp only [Term.tuple.injEq, List.cons.injEq, Term.atom.injEq, and_true] at heq
        obtain ⟨rfl, rfl⟩ := heq
        exact absurd (string_in_recognized _ hstr) h
      · simp only [Term.tuple.injEq, List.cons.injEq, Term.atom.injEq, and_true] at heq
        obtain ⟨rfl, rfl⟩ := heq
        exact absurd hmem (string_not_other _ hstr).1
    · rcases h with h | ⟨name, v, heq, h⟩ | ⟨name, v, heq, hmem, hv⟩
      · exact absurd rfl (h atom a1)
      · simp only [Term.tuple.injEq, List.cons.injEq, Term.atom.injEq, and_true] at heq
        obtain ⟨rfl, rfl⟩ := heq
        exact absurd (readonly_in_recognized _ hro) h
      · simp only [Term.tuple.injEq, List.cons.injEq, Term.atom.injEq, and_true] at heq
        obtain ⟨rfl, rfl⟩ := heq
        exact absurd hmem (readonly_not_numeric _ hro)

theorem set_name_bounds (p : ParamArray) (i v : Nat) (hi : i < p.cells.length) :
    (p.set_name i v).oob = p.oob ∧ (p.set_name i v).cells.length = p.cells.length := by
  rw [set_name_in_bounds p i v _ (List.getElem?_eq_getElem hi)]
  exact ⟨rfl, List.length_set _ _ _⟩

theorem set_value_bounds (p : ParamArray) (i v : Nat) (hi : i < p.cells.length) :
    (p.set_value i v).oob = p.oob ∧ (p.set_value i v).cells.length = p.cells.length := by
  rw [set_value_in_bounds p i v _ (List.getElem?_eq_getElem hi)]
  exact ⟨rfl, List.length_set _ _ _⟩

theorem set_name_value_bounds (p : ParamArray) (i v x : Nat) (hi : i < p.cells.length) :
    ((p.set_name i v).set_value i x).oob = p.oob
    ∧ ((p.set_name i v).set_value i x).cells.length = p.cells.length := by
  obtain ⟨h1, h2⟩ := set_name_bounds p i v hi
  obtain ⟨h3, h4⟩ := set_value_bounds (p.set_name i v) i x (by omega)
  exact ⟨h3.trans h1, h4.trans h2⟩

/-- A round of the loop at an index inside the array stores nothing outside
the array, whether it accepts the entry or not. -/
theorem get_parameters_cell_in_bounds (K : Header) (cell : Term) (i : Nat) (s : ParamState)
    (hi : i < s.parameters.cells.length) :
    (get_parameters_cell K cell i s).2.parameters.oob = s.parameters.oob
    ∧ (get_parameters_cell K cell i s).2.parameters.cells.length
        = s.parameters.cells.length := by
  rcases get_parameters_cell_shape K cell i s with hs | ⟨atom, a1, rfl, ha⟩
  · rw [hs]
    exact ⟨rfl, rfl⟩
  · rcases get_parameters_cell_cases K atom a1 i s _ ha rfl with
      ⟨_, hr⟩ | ⟨tag, _, _, hr⟩ | ⟨tag, buf, _, _, ⟨_, _, hr⟩ | ⟨_, _, hr⟩⟩ | ⟨tag, _, _, hr⟩
    · rw [hr]
      exact ⟨rfl, rfl⟩
    · rw [hr]
      unfold numeric_parameter
      dsimp only
      split
      · exact set_name_bounds _ _ _ hi
      · exact set_name_value_bounds _ _ _ _ hi
    · rw [hr]
      exact set_name_bounds _ _ _ hi
    · rw [hr]
      exact set_name_value_bounds _ _ _ _ hi
    · rw [hr]
      exact set_name_bounds _ _ _ hi

/-- The loop refuses a list that holds an offending entry. -/
theorem offending_loop (K : Header) (before : List Term) (bad tl : Term) (h : offending bad) :
    ∀ (i : Nat) (s : ParamState),
      (get_parameters_loop K (mkList before (.cons bad tl)) i s).1 = 0 := by
  induction before with
  | nil =>
    intro i s
    have hc := offending_cell K bad i s h
    simp only [mkList, List.foldr, get_parameters_loop]
    split
    · rfl
    · rename_i heq
      rw [heq] at hc
      simp at hc
  | cons c before ih =>
    intro i s
    simp only [mkList, List.foldr, get_parameters_loop]
    split
    · rfl
    · exact ih _ _

/-- The loop on a list whose offending entry sits at an index inside the
array stores nothing outside the array. -/
theorem offending_loop_in_bounds (K : Header) (before : List Term) (bad tl : Term)
    (h : offending bad) :
    ∀ (i : Nat) (s : ParamState), i + before.length < s.parameters.cells.length →
      (get_parameters_loop K (mkList before (.cons bad tl)) i s).2.parameters.oob
        = s.parameters.oob := by
  induction before with
  | nil =>
    intro i s hi
    have hc := offending_cell K bad i s h
    have hb := get_parameters_cell_in_bounds K bad i s (by simpa using hi)
    simp only [mkList, List.foldr, get_parameters_loop]
    split
    · rename_i s1 heq
      rw [heq] at hb
      exact hb.1
    · rename_i s1 heq
      rw [heq] at hc
      simp at hc
  | cons c before ih =>
    intro i s hi
    simp only [List.length_cons] at hi
    have hb := get_parameters_cell_in_bounds K c i s (by omega)
    simp only [mkList, List.foldr, get_parameters_loop]
    split
    · rename_i s1 heq
      rw [heq] at hb
      exact hb.1
    · rename_i s1 heq
      rw [heq] at hb
      have := ih (i + 1) s1 (by rw [hb.2]; omega)
      exact this.trans hb.1

theorem offending_get_parameters (K : Header) (before : List Term) (bad tl : Term)
    (h : offending bad) (s : ParamState) :
    (get_parameters K (mkList before (.cons bad tl)) s).1 = 0 := by
  unfold get_parameters
  split
  · rfl
  · exact offending_loop K before bad tl h 0 s

theorem offending_get_parameters_in_bounds (K : Header) (before : List Term) (bad tl : Term)
    (h : offending bad) (s : ParamState) (hpos : before.length < s.parameters.cells.length) :
    (get_parameters K (mkList before (.cons bad tl)) s).2.parameters.oob = s.parameters.oob := by
  unfold get_parameters
  split
  · rfl
  · exact offending_loop_in_bounds K before bad tl h 0 s (by omega)

/-- C6 (as the code has it). A parameter list that holds, at one of its first 64
positions and after any entries, an entry that is not a 2-tuple with an atom
tag, or whose tag read up to its first NUL is not a recognized name, or whose
tag so read is numeric with a value that is not an unsigned 64-bit integer:
`get_parameters` returns 0 on the zero-initialised array and has stored
nothing outside it, and `env_create`, `env_open`, `env_create_db` and
`env_open_db` answer `badarg` and leave the world as it was, so no engine call
is made, whatever their other arguments are. -/
theorem C6_offending_entry_rejected (H : Host) (w : World) (before : List Term)
    (bad tl : Term) (hpos : before.length < MAX_PARAMETERS) (h : offending bad) :
    (∀ b1 b2,
        (get_parameters H.K (mkList before (.cons bad tl)) ⟨params_init, b1, b2⟩).1 = 0
        ∧ (get_parameters H.K (mkList before (.cons bad tl))
            ⟨params_init, b1, b2⟩).2.parameters.oob = [])
    ∧ (∀ a0 a1 a2, ups_nifs_env_create H w [a0, a1, a2, mkList before (.cons bad tl)]
        = (.badarg, w))
    ∧ (∀ a0 a1, ups_nifs_env_open H w [a0, a1, mkList before (.cons bad tl)] = (.badarg, w))
    ∧ (∀ a0 a1 a2, ups_nifs_env_create_db H w [a0, a1, a2, mkList before (.cons bad tl)]
        = (.badarg, w))
    ∧ (∀ a0 a1 a2, ups_nifs_env_open_db H w [a0, a1, a2, mkList before (.cons bad tl)]
        = (.badarg, w)) := by
  have hp := offending_get_parameters H.K before bad tl h H.param_state
  have hlen : before.length < (params_init).cells.length := by
    rw [show params_init.cells.length = MAX_PARAMETERS from List.length_replicate _ _]
    exact hpos
  refine ⟨fun b1 b2 => ⟨offending_get_parameters H.K before bad tl h _,
    offending_get_parameters_in_bounds H.K before bad tl h ⟨params_init, b1, b2⟩ hlen⟩,
    ?_, ?_, ?_, ?_⟩
  · intro a0 a1 a2
    simp only [ups_nifs_env_create, hp, if_true]
    repeat' split
    all_goals rfl
  · intro a0 a1
    simp only [ups_nifs_env_open, hp, if_true]
    repeat' split
    all_goals rfl
  · intro a0 a1 a2
    simp only [ups_nifs_env_create_db, hp, if_true]
    repeat' split
    all_goals rfl
  · intro a0 a1 a2
    simp only [ups_nifs_env_open_db, hp, if_true]
    repeat' split
    all_goals rfl

/-- Witness of C6: the entry `{cache_size, -1}` after a well-formed entry. -/
theorem C6_offending_entry_rejected_witness :
    (∀ b1 b2,
        (get_parameters (const_host 0).K
          (mkList [cache_entry] (.cons (.tuple [.atom "cache_size", .int (-1)]) .nil))
          ⟨params_init, b1, b2⟩).1 = 0
        ∧ (get_parameters (const_host 0).K
          (mkList [cache_entry] (.cons (.tuple [.atom "cache_size", .int (-1)]) .nil))
          ⟨params_init, b1, b2⟩).2.parameters.oob = [])
    ∧ (∀ a0 a1 a2, ups_nifs_env_create (const_host 0) empty_world
        [a0, a1, a2, mkList [cache_entry] (.cons (.tuple [.atom "cache_size", .int (-1)]) .nil)]
        = (.badarg, empty_world))
    ∧ (∀ a0 a1, ups_nifs_env_open (const_host 0) empty_world
        [a0, a1, mkList [cache_entry] (.cons (.tuple [.atom "cache_size", .int (-1)]) .nil)]
        = (.badarg, empty_world))
    ∧ (∀ a0 a1 a2, ups_nifs_env_create_db (const_host 0) empty_world
        [a0, a1, a2, mkList [cache_entry] (.cons (.tuple [.atom "cache_size", .int (-1)]) .nil)]
        = (.badarg, empty_world))
    ∧ (∀ a0 a1 a2, ups_nifs_env_open_db (const_host 0) empty_world
        [a0, a1, a2, mkList [cache_entry] (.cons (.tuple [.atom "cache_size", .int (-1)]) .nil)]
        = (.badarg, empty_world)) :=
  C6_offending_entry_rejected (const_host 0) empty_world [cache_entry]
    (.tuple [.atom "cache_size", .int (-1)]) .nil (by decide)
    (Or.inr (Or.inr ⟨"cache_size", .int (-1), rfl, by decide, by
      rintro ⟨n, _, hn⟩
      injection hn with hn
      omega⟩))

set_option maxRecDepth 100000 in
/-- C6 fails as stated: the tag of `nul_entry`, the atom of the characters
`cache_size`, NUL, `x`, is not one of the recognized configuration names, yet
`strcmp` takes it for `cache_size`: `get_parameters` returns 1 with the entry
marshalled as `UPS_PARAM_CACHE_SIZE`, and `env_create` does not answer
`badarg` but calls `ups_env_create`. -/
theorem C6_nul_suffixed_tag_accepted :
    ("cache_size" ++ nul_x) ∉ recognized_names
    ∧ enif_get_atom (.atom ("cache_size" ++ nul_x)) 128 = some ("cache_size" ++ nul_x)
    ∧ strcmp ("cache_size" ++ nul_x) "cache_size" = 0
    ∧ (get_parameters upscaledb_h (mkList [nul_entry] .nil) (const_host 0).param_state).1 = 1
    ∧ (get_parameters upscaledb_h (mkList [nul_entry] .nil)
        (const_host 0).param_state).2.parameters.cells.head? = some ⟨0x100, 1⟩
    ∧ (ups_nifs_env_create (const_host 0) empty_world
        [mkString [116], .int 0, .int 0, mkList [nul_entry] .nil]).1.isBadarg = false
    ∧ (ups_nifs_env_create (const_host 0) empty_world
        [mkString [116], .int 0, .int 0, mkList [nul_entry] .nil]).2.trace
        = [.ups_env_create [116] 0 0 ⟨⟨0x100, 1⟩ :: List.replicate 63 ⟨0, 0⟩, []⟩] := by
  decide

set_option maxRecDepth 100000 in
/-- C7 (failing input). A list of 64 entries `{cache_size, 1}` is accepted and
fills all 64 cells of the array; the array has no cell at index 64, so no
sentinel follows the last entry inside it, and `env_create` hands this array to
`ups_env_create`. -/
theorem C7_sixty_four_entries_no_sentinel :
    (get_parameters upscaledb_h (cache_entries 64) (const_host 0).param_state).1 = 1
    ∧ (get_parameters upscaledb_h (cache_entries 64) (const_host 0).param_state).2.parameters
        = ⟨List.replicate 64 ⟨256, 1⟩, []⟩
    ∧ (get_parameters upscaledb_h (cache_entries 64)
        (const_host 0).param_state).2.parameters.cells[64]? = none
    ∧ (ups_nifs_env_create (const_host 0) empty_world
        [mkString [116], .int 0, .int 0, cache_entries 64]).2.trace
        = [.ups_env_create [116] 0 0 ⟨List.replicate 64 ⟨256, 1⟩, []⟩] := by
  decide

theorem get_string_loop_pos (len : Nat) (t : Term) (n : Nat) (buf : List Nat) :
    n < len → 0 < (enif_get_string_loop len t n buf).1 →
    ∃ bytes : List Nat, (∀ b ∈ bytes, b < 256) ∧ t = mkString bytes ∧ n + bytes.length < len := by
  induction t, n, buf using enif_get_string_loop.induct len with
  | case1 n buf =>
    intro hn _
    exact ⟨[], by simp, rfl, by simpa using hn⟩
  | case2 c tl n buf hc hlen =>
    intro _ h
    simp [enif_get_string_loop, hc, hlen] at h
    omega
  | case3 c tl n buf hc hlen ih =>
    intro _ h
    simp only [enif_get_string_loop, hc, hlen, if_true, if_false, and_self] at h
    obtain ⟨bytes, hb, ht, hl⟩ := ih (by omega) h
    refine ⟨c.toNat :: bytes, ?_, ?_, ?_⟩
    · intro b hb1
      rcases List.mem_cons.mp hb1 with rfl | hb1
      · omega
      · exact hb b hb1
    · simp only [mkString, mkList, List.map, List.foldr] at ht ⊢
      rw [← ht]
      congr
      simp only [Int.ofNat_eq_coe]
      omega
    · simp only [List.length_cons]
      omega
  | case4 c tl n buf hc =>
    intro _ h
    simp [enif_get_string_loop, hc] at h
  | case5 t n buf h1 h2 =>
    intro _ h
    unfold enif_get_string_loop at h
    split at h
    · exact (h1 rfl).elim
    · exact (h2 _ _ rfl).elim
    · simp at h


theorem get_string_loop_fits (len : Nat) (bytes : List Nat) (hb : ∀ b ∈ bytes, b < 256) :
    ∀ (n : Nat) (buf : List Nat), n + bytes.length < len →
      (enif_get_string_loop len (mkString bytes) n buf).1 = (n : Int) + bytes.length + 1 := by
  induction bytes with
  | nil =>
    intro n buf _
    simp [mkString, mkList, enif_get_string_loop]
  | cons b bytes ih =>
    intro n buf hl
    have hb0 : b < 256 := hb b (List.mem_cons_self _ _)
    have ih1 := ih (fun c hc => hb c (List.mem_cons_of_mem _ hc)) (n + 1) (buf.set n b)
      (by simp only [List.length_cons] at hl; omega)
    simp only [mkString, mkList, List.map, List.foldr, Int.ofNat_eq_coe] at ih1 ⊢
    simp only [enif_get_string_loop]
    have h1 : (0 : Int) ≤ (b : Int) ∧ (b : Int) < 256 := ⟨by omega, by omega⟩
    have h2 : ¬ (n + 1 ≥ len) := by simp only [List.length_cons] at hl; omega
    simp only [h1, h2, and_self, if_true, if_false, Int.toNat_ofNat]
    rw [ih1]
    simp only [List.length_cons]
    push_cast
    omega

theorem get_string_loop_truncated (len : Nat) (bytes : List Nat) (hb : ∀ b ∈ bytes, b < 256) :
    ∀ (n : Nat) (buf : List Nat), n < len → len ≤ n + bytes.length →
      (enif_get_string_loop len (mkString bytes) n buf).1 = -(len : Int) := by
  induction bytes with
  | nil =>
    intro n buf h1 h2
    simp only [List.length_nil] at h2
    omega
  | cons b bytes ih =>
    intro n buf h1 h2
    have hb0 : b < 256 := hb b (List.mem_cons_self _ _)
    simp only [mkString, mkList, List.map, List.foldr, enif_get_string_loop, Int.ofNat_eq_coe]
    have h3 : (0 : Int) ≤ (b : Int) ∧ (b : Int) < 256 := ⟨by omega, by omega⟩
    simp only [h3, and_self, if_true]
    by_cases h4 : n + 1 ≥ len
    · simp only [h4, if_true]
    · simp only [h4, if_false, Int.toNat_ofNat]
      exact ih (fun c hc => hb c (List.mem_cons_of_mem _ hc)) (n + 1) (buf.set n b)
        (by omega) (by simp only [List.length_cons] at h2; omega)

/-- `enif_get_string` into a buffer of `MAX_STRING` bytes succeeds exactly on the
strings of at most `MAX_STRING - 1` bytes. -/
theorem get_string_ok_iff (v : Term) (buf : List Nat) :
    ¬ ((enif_get_string v buf MAX_STRING).1 ≤ 0) ↔
      ∃ bytes : List Nat, (∀ b ∈ bytes, b < 256) ∧ v = mkString bytes ∧ bytes.length ≤ 2047 := by
  have hlen : ¬ (MAX_STRING < 1) := by decide
  simp only [enif_get_string, hlen, if_false]
  constructor
  · intro h
    obtain ⟨bytes, hb, hv, hl⟩ :=
      get_string_loop_pos MAX_STRING v 0 buf (by decide) (by omega)
    refine ⟨bytes, hb, hv, ?_⟩
    simp only [MAX_STRING] at hl
    omega
  · rintro ⟨bytes, hb, rfl, hl⟩
    rw [get_string_loop_fits MAX_STRING bytes hb 0 buf (by simp only [MAX_STRING]; omega)]
    omega

theorem get_string_long (bytes : List Nat) (hb : ∀ b ∈ bytes, b < 256) (buf : List Nat)
    (hl : 2048 ≤ bytes.length) : (enif_get_string (mkString bytes) buf MAX_STRING).1 ≤ 0 := by
  have hlen : ¬ (MAX_STRING < 1) := by decide
  simp only [enif_get_string, hlen, if_false]
  rw [get_string_loop_truncated MAX_STRING bytes hb 0 buf (by decide)
    (by simp only [MAX_STRING]; omega)]
  simp [MAX_STRING]

theorem get_parameters_single (K : Header) (cell : Term) (s : ParamState) :
    (get_parameters K (mkList [cell] .nil) s).1
      = if (get_parameters_cell K cell 0 s).1 = true then 1 else 0 := by
  simp only [get_parameters, mkList, List.foldr, enif_is_list, get_parameters_loop,
    Bool.not_true, Bool.false_eq_true, if_false]
  split
  · rename_i heq
    rw [heq]
    rfl
  · rename_i heq
    rw [heq]
    rfl

/-- What `get_parameters` answers on a one-entry list with a string-valued
tag: 1 when `enif_get_string` succeeds on the value, 0 otherwise. -/
theorem get_parameters_string_entry (K : Header) (tag : String) (htag : tag ∈ string_names)
    (v : Term) (s : ParamState) :
    ∃ buf : List Nat,
      (get_parameters K (mkList [.tuple [.atom tag, v]] .nil) s).1
        = if (enif_get_string v buf MAX_STRING).1 ≤ 0 then 0 else 1 := by
  have hrec := string_in_recognized tag htag
  have ha := enif_get_atom_recognized tag hrec
  have hc := c_str_recognized tag hrec
  rw [get_parameters_single]
  rcases get_parameters_cell_cases K tag v 0 s _ ha rfl with
    ⟨hn, _⟩ | ⟨_, hnum, _, _⟩ | ⟨_, buf, _, _, ⟨h1, hr, _⟩ | ⟨h1, hr, _⟩⟩ | ⟨_, hro, _, _⟩
  · rw [hc] at hn
    exact absurd hrec hn
  · rw [hc] at hnum
    exact absurd hnum (string_not_other _ htag).1
  · exact ⟨buf, by rw [hr, if_pos h1]; rfl⟩
  · exact ⟨buf, by rw [hr, if_neg h1]; rfl⟩
  · rw [hc] at hro
    exact absurd hro (string_not_other _ htag).2


/-- When `get_parameters` returns 0 on the list, the four create/open NIFs
answer `badarg` and change nothing. -/
theorem get_parameters_zero_badarg (H : Host) (w : World) (l : Term)
    (hp : (get_parameters H.K l H.param_state).1 = 0) :
    (∀ a0 a1 a2, ups_nifs_env_create H w [a0, a1, a2, l] = (.badarg, w))
    ∧ (∀ a0 a1, ups_nifs_env_open H w [a0, a1, l] = (.badarg, w))
    ∧ (∀ a0 a1 a2, ups_nifs_env_create_db H w [a0, a1, a2, l] = (.badarg, w))
    ∧ (∀ a0 a1 a2, ups_nifs_env_open_db H w [a0, a1, a2, l] = (.badarg, w)) := by
  refine ⟨?_, ?_, ?_, ?_⟩
  · intro a0 a1 a2
    simp only [ups_nifs_env_create, hp, if_true]
    repeat' split
    all_goals rfl
  · intro a0 a1
    simp only [ups_nifs_env_open, hp, if_true]
    repeat' split
    all_goals rfl
  · intro a0 a1 a2
    simp only [ups_nifs_env_create_db, hp, if_true]
    repeat' split
    all_goals rfl
  · intro a0 a1 a2
    simp only [ups_nifs_env_open_db, hp, if_true]
    repeat' split
    all_goals rfl

/-- C8 (as the code has it). For the two string-valued tags the marshaller
accepts a one-entry list `[{Tag, Value}]` if and only if the value is a string
(a proper list of character codes below 256) of at most 2047 bytes, the
2048-byte buffer also holding the terminating NUL: a string of 2047 bytes is
accepted, a string of 2048 bytes or more is refused and the create/open NIFs
answer `badarg` without an engine call. -/
theorem C8_string_tag_accepts_up_to_2047 (H : Host) (tag : String)
    (htag : tag ∈ string_names) :
    (∀ (v : Term) (s : ParamState),
      (get_parameters H.K (mkList [.tuple [.atom tag, v]] .nil) s).1 = 1 ↔
        ∃ bytes : List Nat, (∀ b ∈ bytes, b < 256) ∧ v = mkString bytes ∧ bytes.length ≤ 2047)
    ∧ (∀ (v : Term) (s : ParamState),
      (get_parameters H.K (mkList [.tuple [.atom tag, v]] .nil) s).1 = 0 ↔
        ¬ ∃ bytes : List Nat, (∀ b ∈ bytes, b < 256) ∧ v = mkString bytes ∧ bytes.length ≤ 2047)
    ∧ (∀ (bytes : List Nat) (s : ParamState), (∀ b ∈ bytes, b < 256) → bytes.length = 2047 →
        (get_parameters H.K (string_entry tag bytes) s).1 = 1)
    ∧ (∀ (bytes : List Nat) (s : ParamState), (∀ b ∈ bytes, b < 256) → 2048 ≤ bytes.length →
        (get_parameters H.K (string_entry tag bytes) s).1 = 0)
    ∧ (∀ (bytes : List Nat) (w : World) (a0 a1 a2 : Term), (∀ b ∈ bytes, b < 256) →
        2048 ≤ bytes.length →
        ups_nifs_env_create H w [a0, a1, a2, string_entry tag bytes] = (.badarg, w)
        ∧ ups_nifs_env_open H w [a0, a1, string_entry tag bytes] = (.badarg, w)
        ∧ ups_nifs_env_create_db H w [a0, a1, a2, string_entry tag bytes] = (.badarg, w)
        ∧ ups_nifs_env_open_db H w [a0, a1, a2, string_entry tag bytes] = (.badarg, w)) := by
  have hiff : ∀ (v : Term) (s : ParamState),
      (get_parameters H.K (mkList [.tuple [.atom tag, v]] .nil) s).1 = 1 ↔
        ∃ bytes : List Nat, (∀ b ∈ bytes, b < 256) ∧ v = mkString bytes ∧ bytes.length ≤ 2047 := by
    intro v s
    obtain ⟨buf, hbuf⟩ := get_parameters_string_entry H.K tag htag v s
    rw [hbuf, ← get_string_ok_iff v buf]
    by_cases h : (enif_get_string v buf MAX_STRING).1 ≤ 0 <;> simp [h]
  have hzero : ∀ (v : Term) (s : ParamState),
      (get_parameters H.K (mkList [.tuple [.atom tag, v]] .nil) s).1 = 0 ↔
        ¬ ∃ bytes : List Nat, (∀ b ∈ bytes, b < 256) ∧ v = mkString bytes ∧ bytes.length ≤ 2047 := by
    intro v s
    rw [← hiff v s]
    obtain ⟨buf, hbuf⟩ := get_parameters_string_entry H.K tag htag v s
    rw [hbuf]
    by_cases h : (enif_get_string v buf MAX_STRING).1 ≤ 0 <;> simp [h]
  have hlong : ∀ (bytes : List Nat) (s : ParamState), (∀ b ∈ bytes, b < 256) →
      2048 ≤ bytes.length → (get_parameters H.K (string_entry tag bytes) s).1 = 0 := by
    intro bytes s hb hl
    obtain ⟨buf, hbuf⟩ := get_parameters_string_entry H.K tag htag (mkString bytes) s
    simp only [string_entry]
    rw [hbuf, if_pos (get_string_long bytes hb buf hl)]
  refine ⟨hiff, hzero, ?_, hlong, ?_⟩
  · intro bytes s hb hl
    exact (hiff (mkString bytes) s).mpr ⟨bytes, hb, rfl, by omega⟩
  · intro bytes w a0 a1 a2 hb hl
    have h := get_parameters_zero_badarg H w (string_entry tag bytes)
      (hlong bytes H.param_state hb hl)
    exact ⟨h.1 a0 a1 a2, h.2.1 a0 a1, h.2.2.1 a0 a1 a2, h.2.2.2 a0 a1 a2⟩

/-- Witness of C8 (as the code has it): `log_directory` strings of 2047 and of 2048 bytes. -/
theorem C8_string_tag_accepts_up_to_2047_witness :
    (get_parameters (const_host 0).K (string_entry "log_directory" (List.replicate 2047 97))
        (const_host 0).param_state).1 = 1
    ∧ (get_parameters (const_host 0).K (string_entry "log_directory" (List.replicate 2048 97))
        (const_host 0).param_state).1 = 0 :=
  ⟨(C8_string_tag_accepts_up_to_2047 (const_host 0) "log_directory" (by decide)).2.2.1
      (List.replicate 2047 97) (const_host 0).param_state
      (fun b hb => by rw [List.eq_of_mem_replicate hb]; decide) (List.length_replicate _ _),
   (C8_string_tag_accepts_up_to_2047 (const_host 0) "log_directory" (by decide)).2.2.2.1
      (List.replicate 2048 97) (const_host 0).param_state
      (fun b hb => by rw [List.eq_of_mem_replicate hb]; decide)
      (Nat.le_of_eq (List.length_replicate _ _).symm)⟩

set_option maxRecDepth 100000 in
/-- C8 fails as stated: a `log_directory` or `encryption_key` string of exactly
2048 bytes is refused by `get_parameters`, and `env_create` answers `badarg`. -/
theorem C8_string_of_2048_bytes_refused :
    (get_parameters upscaledb_h (string_entry "log_directory" (List.replicate 2048 97))
        (const_host 0).param_state).1 = 0
    ∧ (get_parameters upscaledb_h (string_entry "encryption_key" (List.replicate 2048 97))
        (const_host 0).param_state).1 = 0
    ∧ (ups_nifs_env_create (const_host 0) empty_world
        [mkString [116], .int 0, .int 0,
         string_entry "log_directory" (List.replicate 2048 97)]).1.isBadarg = true := by
  decide

set_option maxRecDepth 100000 in
/-- C9 (failing input). With the same buffers, the strings `"aaaaaaaa"` and
`"bbbbbbbb"` leave different values in the output entry: the entry holds the
first eight bytes of the copied string read as a 64-bit integer, not the
address of the buffer. -/
theorem C9_stored_value_is_string_content :
    (get_parameters upscaledb_h (string_entry "log_directory" (List.replicate 8 97))
        (const_host 0).param_state).2.parameters.cells.head?
        = some ⟨0x105, 0x6161616161616161⟩
    ∧ (get_parameters upscaledb_h (string_entry "log_directory" (List.replicate 8 98))
        (const_host 0).param_state).2.parameters.cells.head?
        = some ⟨0x105, 0x6262626262626262⟩
    ∧ (get_parameters upscaledb_h (string_entry "encryption_key" (List.replicate 8 97))
        (const_host 0).param_state).2.parameters.cells.head?
        = some ⟨0x106, 0x6161616161616161⟩
    ∧ (get_parameters upscaledb_h (string_entry "encryption_key" (List.replicate 8 98))
        (const_host 0).param_state).2.parameters.cells.head?
        = some ⟨0x106, 0x6262626262626262⟩ := by
  decide

/-! ## Key and record descriptors -/

/-- C10 (failing input). Given the empty binary stored at address 4096 as key
or record, `db_erase`, `db_find`, `db_find_flags`, `cursor_find`,
`cursor_insert` and `cursor_overwrite` hand the engine a descriptor of size 0
whose data pointer is 4096, not null; `db_insert` alone hands over a null
pointer. -/
theorem C10_empty_buffer_pointer_not_null :
    (ups_nifs_db_erase (const_host 0) (one_handle .db)
        [.resource 0, .atom "undefined", .binary 4096 []]).2.trace
        = [.ups_db_erase 100 0 ⟨0, 4096, []⟩ 0]
    ∧ (ups_nifs_db_find (const_host 0) (one_handle .db)
        [.resource 0, .atom "undefined", .binary 4096 []]).2.trace
        = [.ups_db_find 100 0 ⟨0, 4096, []⟩ 0]
    ∧ (ups_nifs_db_find_flags (const_host 0) (one_handle .db)
        [.resource 0, .atom "undefined", .binary 4096 [], .int 0]).2.trace
        = [.ups_db_find 100 0 ⟨0, 4096, []⟩ 0]
    ∧ (ups_nifs_cursor_find (const_host 0) (one_handle .cursor)
        [.resource 0, .binary 4096 []]).2.trace
        = [.ups_cursor_find 100 ⟨0, 4096, []⟩ 0]
    ∧ (ups_nifs_cursor_insert (const_host 0) (one_handle .cursor)
        [.resource 0, .binary 4096 [], .binary 4096 [], .int 0]).2.trace
        = [.ups_cursor_insert 100 ⟨0, 4096, []⟩ ⟨0, 4096, []⟩ 0]
    ∧ (ups_nifs_cursor_overwrite (const_host 0) (one_handle .cursor)
        [.resource 0, .binary 4096 []]).2.trace
        = [.ups_cursor_overwrite 100 ⟨0, 4096, []⟩ 0]
    ∧ (ups_nifs_db_insert (const_host 0) (one_handle .db)
        [.resource 0, .atom "undefined", .binary 4096 [], .binary 4096 [], .int 0]).2.trace
        = [.ups_db_insert 100 0 ⟨0, 0, []⟩ ⟨0, 0, []⟩ 0] := by
  decide

/-! ## Auxiliary facts on traces -/

theorem return_binary_trace (H : Host) (w : World) (n : Nat) (bs : List Nat) :
    (return_binary H w n bs).2.trace = w.trace := by
  unfold return_binary
  split <;> rfl

theorem return_binary_not_badarg (H : Host) (w : World) (n : Nat) (bs : List Nat) :
    (return_binary H w n bs).1.isBadarg = false := by
  unfold return_binary
  split <;> rfl

/-- C11 (as the code has it). On an open ResultSet, `uqi_result_get_key` and
`uqi_result_get_record` compare the row with nothing: every row that is a
32-bit signed integer, negative or beyond the row count included, is handed
to the engine, and the NIF answers with the descriptor the engine left (or
the out-of-memory error), never `badarg`.  Only a row argument that is not a
32-bit integer is answered with `badarg`, without an engine call. -/
theorem C11_row_forwarded_unchecked (H : Host) (w : World) (id : Nat) (x : Wrapper)
    (hx : w.heap[id]? = some x) (hT : x.rtype = .result) (ho : x.is_closed = false)
    (row : Int) (hrow : -(2 ^ 31) ≤ row ∧ row < 2 ^ 31) :
    ups_nifs_uqi_result_get_key H w [.resource id, .int row]
        = return_binary H { w with trace := w.trace ++ [.uqi_result_get_key x.native row] }
            (H.engine w.trace (.uqi_result_get_key x.native row)).key.size
            (H.engine w.trace (.uqi_result_get_key x.native row)).key.bytes
    ∧ (ups_nifs_uqi_result_get_key H w [.resource id, .int row]).2.trace
        = w.trace ++ [.uqi_result_get_key x.native row]
    ∧ (ups_nifs_uqi_result_get_key H w [.resource id, .int row]).1.isBadarg = false
    ∧ ups_nifs_uqi_result_get_record H w [.resource id, .int row]
        = return_binary H { w with trace := w.trace ++ [.uqi_result_get_record x.native row] }
            (H.engine w.trace (.uqi_result_get_record x.native row)).record.size
            (H.engine w.trace (.uqi_result_get_record x.native row)).record.bytes
    ∧ (ups_nifs_uqi_result_get_record H w [.resource id, .int row]).2.trace
        = w.trace ++ [.uqi_result_get_record x.native row]
    ∧ (ups_nifs_uqi_result_get_record H w [.resource id, .int row]).1.isBadarg = false
    ∧ (∀ a1, enif_get_int a1 = none →
        ups_nifs_uqi_result_get_key H w [.resource id, a1] = (.badarg, w)
        ∧ ups_nifs_uqi_result_get_record H w [.resource id, a1] = (.badarg, w)) := by
  have hg := get_open_of_open w id x .result hx hT ho
  have hi : enif_get_int (.int row) = some row := by
    have h1 := hrow.1
    have h2 := hrow.2
    simp only [enif_get_int]
    rw [if_pos ⟨h1, h2⟩]
  have hk : ups_nifs_uqi_result_get_key H w [.resource id, .int row]
      = return_binary H { w with trace := w.trace ++ [.uqi_result_get_key x.native row] }
          (H.engine w.trace (.uqi_result_get_key x.native row)).key.size
          (H.engine w.trace (.uqi_result_get_key x.native row)).key.bytes := by
    simp only [ups_nifs_uqi_result_get_key, g_ups_result_resource, hg, hi, World.call]
  have hr : ups_nifs_uqi_result_get_record H w [.resource id, .int row]
      = return_binary H { w with trace := w.trace ++ [.uqi_result_get_record x.native row] }
          (H.engine w.trace (.uqi_result_get_record x.native row)).record.size
          (H.engine w.trace (.uqi_result_get_record x.native row)).record.bytes := by
    simp only [ups_nifs_uqi_result_get_record, g_ups_result_resource, hg, hi, World.call]
  refine ⟨hk, ?_, ?_, hr, ?_, ?_, ?_⟩
  · rw [hk]; exact return_binary_trace _ _ _ _
  · rw [hk]; exact return_binary_not_badarg _ _ _ _
  · rw [hr]; exact return_binary_trace _ _ _ _
  · rw [hr]; exact return_binary_not_badarg _ _ _ _
  · intro a1 ha
    constructor
    · simp only [ups_nifs_uqi_result_get_key, g_ups_result_resource, hg, ha]
    · simp only [ups_nifs_uqi_result_get_record, g_ups_result_resource, hg, ha]

/-- Witness of C11 (as the code has it): row `-1` on a result set of no rows. -/
theorem C11_row_forwarded_unchecked_witness :
    (ups_nifs_uqi_result_get_key (reply_host (sample_reply 0)) (one_handle .result)
        [.resource 0, .int (-1)]).2.trace = [.uqi_result_get_key 100 (-1)] :=
  (C11_row_forwarded_unchecked (reply_host (sample_reply 0)) (one_handle .result) 0
    ⟨.result, 100, false⟩ rfl rfl rfl (-1) (by decide)).2.1

/-- C11 fails as stated: on a ResultSet whose row count is 0, `getKey` and
`getRecord` with the rows `-1` and `5` do not answer `badarg`; the row reaches
`uqi_result_get_key` (resp. `uqi_result_get_record`). -/
theorem C11_out_of_range_row_reaches_engine :
    (ups_nifs_uqi_result_get_row_count (reply_host (sample_reply 0)) (one_handle .result)
        [.resource 0]).1.elems.map Term.atom_name = [some "ok", none]
    ∧ (ups_nifs_uqi_result_get_key (reply_host (sample_reply 0)) (one_handle .result)
        [.resource 0, .int (-1)]).1.isBadarg = false
    ∧ (ups_nifs_uqi_result_get_key (reply_host (sample_reply 0)) (one_handle .result)
        [.resource 0, .int (-1)]).2.trace = [.uqi_result_get_key 100 (-1)]
    ∧ (ups_nifs_uqi_result_get_record (reply_host (sample_reply 0)) (one_handle .result)
        [.resource 0, .int 5]).1.isBadarg = false
    ∧ (ups_nifs_uqi_result_get_record (reply_host (sample_reply 0)) (one_handle .result)
        [.resource 0, .int 5]).2.trace = [.uqi_result_get_record 100 5] := by
  decide

/-! ## Find with flags -/

theorem enif_make_binary_inspect (a : Term) (bin : ErlNifBinary)
    (h : enif_inspect_binary a = some bin) : enif_make_binary bin = a := by
  cases a with
  | binary d b =>
    simp only [enif_inspect_binary] at h
    split at h
    · simp at h
    · injection h with h
      subst h
      rfl
  | _ => simp [enif_inspect_binary] at h

/-- C12 (as the code has it). A `db_find_flags` call on an open database whose
engine call succeeds and whose allocations succeed always answers the 3-tuple
`{ok, Key, Record}`.  With flags 0 the key is the input key term itself, so
the input key is handed back; with nonzero flags the key is a fresh buffer
holding the bytes of the key descriptor the engine left.  The record is in
both cases a fresh buffer holding the bytes of the record descriptor. -/
theorem C12_find_flags_answers_key_and_record (H : Host) (w : World) (id : Nat) (x : Wrapper)
    (hx : w.heap[id]? = some x) (hT : x.rtype = .db) (ho : x.is_closed = false)
    (a1 a2 a3 : Term)
    (h1 : opt_is_closed (enif_get_resource w a1 g_ups_txn_resource) = false)
    (binkey : ErlNifBinary) (hb : enif_inspect_binary a2 = some binkey)
    (flags : Nat) (hu : enif_get_uint a3 = some flags)
    (r : Reply)
    (hr : H.engine w.trace (.ups_db_find x.native
        (opt_native (enif_get_resource w a1 g_ups_txn_resource))
        ⟨binkey.size, binkey.data, binkey.bytes⟩ flags) = r)
    (hst : r.st = 0)
    (addr1 : Nat) (hrec : H.alloc_binary w.allocs r.record.size = some addr1) :
    (flags = 0 →
      (ups_nifs_db_find_flags H w [.resource id, a1, a2, a3]).1
        = .term (.tuple [g_atom_ok, a2,
            .binary addr1 (memcpy r.record.bytes r.record.size)]))
    ∧ (flags ≠ 0 → ∀ addr2 : Nat,
      H.alloc_binary (w.allocs + 1) r.key.size = some addr2 →
      (ups_nifs_db_find_flags H w [.resource id, a1, a2, a3]).1
        = .term (.tuple [g_atom_ok,
            .binary addr2 (memcpy r.key.bytes r.key.size),
            .binary addr1 (memcpy r.record.bytes r.record.size)])) := by
  have hg := get_open_of_open w id x .db hx hT ho
  have hm := enif_make_binary_inspect a2 binkey hb
  constructor
  · intro h0
    unfold ups_nifs_db_find_flags
    dsimp only
    rw [show get_open_resource w (.resource id) g_ups_db_resource = some (id, x) from hg]
    dsimp only
    rw [h1, hb, hu]
    dsimp only [World.call, enif_alloc_binary]
    rw [hr, if_neg (by simp), if_neg (by rw [hst]; simp), hrec]
    dsimp only
    rw [if_neg (by simpa using h0), hm]
    rfl
  · intro h0 addr2 hkey
    unfold ups_nifs_db_find_flags
    dsimp only
    rw [show get_open_resource w (.resource id) g_ups_db_resource = some (id, x) from hg]
    dsimp only
    rw [h1, hb, hu]
    dsimp only [World.call, enif_alloc_binary]
    rw [hr, if_neg (by simp), if_neg (by rw [hst]; simp), hrec]
    dsimp only
    rw [if_pos h0, hkey]
    rfl

/-- Witness of C12 (as the code has it): the key `<<1, 2>>` with flags 0. -/
theorem C12_find_flags_answers_key_and_record_witness :
    (ups_nifs_db_find_flags (reply_host (sample_reply 0)) (one_handle .db)
        [.resource 0, .atom "undefined", .binary 800 [1, 2], .int 0]).1
      = .term (.tuple [g_atom_ok, .binary 800 [1, 2], .binary 4096 (memcpy [1, 2, 3] 3)]) :=
  (C12_find_flags_answers_key_and_record (reply_host (sample_reply 0)) (one_handle .db) 0
    ⟨.db, 100, false⟩ rfl rfl rfl (.atom "undefined") (.binary 800 [1, 2]) (.int 0) rfl
    ⟨2, 800, [1, 2]⟩ rfl 0 rfl (sample_reply 0) rfl rfl 4096 rfl).1 rfl

/-- C12 fails as stated: `findWithFlags` with flags 0 and the key `<<1, 2>>`
answers a tuple of three elements, `ok`, the input key `<<1, 2>>` and the
record `<<1, 2, 3>>`: the key is part of the result. -/
theorem C12_flags_zero_answers_the_input_key :
    (ups_nifs_db_find_flags (reply_host (sample_reply 0)) (one_handle .db)
        [.resource 0, .atom "undefined", .binary 800 [1, 2], .int 0]).1.elems.length = 3
    ∧ (ups_nifs_db_find_flags (reply_host (sample_reply 0)) (one_handle .db)
        [.resource 0, .atom "undefined", .binary 800 [1, 2], .int 0]).1.elems.map Term.atom_name
        = [some "ok", none, none]
    ∧ (ups_nifs_db_find_flags (reply_host (sample_reply 0)) (one_handle .db)
        [.resource 0, .atom "undefined", .binary 800 [1, 2], .int 0]).1.elems.map Term.bytes
        = [none, some [1, 2], some [1, 2, 3]] := by
  decide

/-! ## Status translator -/

/-- `status_to_atom` is the chain of comparisons over `status_table`. -/
theorem status_to_atom_eq_chain (K : Header) (st : Int) :
    status_to_atom K st = status_chain g_atom_error (status_table K) st := rfl

theorem status_chain_not_mem (d : Term) (l : List (Int × String)) (st : Int)
    (h : st ∉ l.map Prod.fst) : status_chain d l st = d := by
  induction l with
  | nil => rfl
  | cons p l ih =>
    obtain ⟨k, name⟩ := p
    simp only [List.map, List.mem_cons, not_or] at h
    simp only [status_chain, h.1, if_false]
    exact ih h.2

theorem status_chain_mem (d : Term) (l : List (Int × String)) (p : Int × String)
    (hnd : (l.map Prod.fst).Nodup) (hp : p ∈ l) : status_chain d l p.1 = .atom p.2 := by
  induction l with
  | nil => simp at hp
  | cons q l ih =>
    obtain ⟨k, name⟩ := q
    simp only [List.map, List.nodup_cons] at hnd
    rcases List.mem_cons.mp hp with rfl | hp
    · simp [status_chain]
    · have hne : p.1 ≠ k := by
        intro h
        apply hnd.1
        rw [← h]
        exact List.mem_map_of_mem Prod.fst hp
      simp only [status_chain, hne, if_false]
      exact ih hnd.2 hp

/-- C13 (as the code has it). Every status code that is not one of the listed
codes is translated to the bare atom `error`, which carries no code: any two
unlisted codes have the same translation, and a NIF reports both as
`{error, error}`. -/
theorem C13_unlisted_status_is_bare_error (H : Host) (st1 st2 : Int)
    (h1 : st1 ∉ listed_codes H.K) (h2 : st2 ∉ listed_codes H.K) :
    status_to_atom H.K st1 = .atom "error"
    ∧ status_to_atom H.K st1 = status_to_atom H.K st2
    ∧ error_result H st1 = error_result H st2 := by
  have e1 : status_to_atom H.K st1 = g_atom_error := by
    rw [status_to_atom_eq_chain]; exact status_chain_not_mem _ _ _ h1
  have e2 : status_to_atom H.K st2 = g_atom_error := by
    rw [status_to_atom_eq_chain]; exact status_chain_not_mem _ _ _ h2
  refine ⟨e1, by rw [e1, e2], ?_⟩
  simp only [error_result, e1, e2]

/-- Witness of C13 (as the code has it): the codes 1 and 2. -/
theorem C13_unlisted_status_is_bare_error_witness :
    status_to_atom (const_host 0).K 1 = .atom "error"
    ∧ status_to_atom (const_host 0).K 1 = status_to_atom (const_host 0).K 2
    ∧ error_result (const_host 0) 1 = error_result (const_host 0) 2 :=
  C13_unlisted_status_is_bare_error (const_host 0) 1 2 (by decide) (by decide)

/-- C13 fails as stated: the distinct unlisted status codes 1 and 2 have the
same translation, the atom `error`, and `db_close` reports an engine failure
with either code as the same 2-tuple of atoms `{error, error}`. -/
theorem C13_two_unlisted_codes_same_result :
    (1 : Int) ∉ listed_codes upscaledb_h ∧ (2 : Int) ∉ listed_codes upscaledb_h
    ∧ (status_to_atom upscaledb_h 1).atom_name = some "error"
    ∧ (status_to_atom upscaledb_h 2).atom_name = some "error"
    ∧ (ups_nifs_db_close (const_host 1) (one_handle .db) [.resource 0]).1.elems.map
        Term.atom_name = [some "error", some "error"]
    ∧ (ups_nifs_db_close (const_host 2) (one_handle .db) [.resource 0]).1.elems.map
        Term.atom_name = [some "error", some "error"] := by
  decide

/-- C14. For a header whose listed status codes are pairwise distinct (as the
case labels of a C `switch` are): `UPS_SUCCESS` is translated to `ok`, every
listed code to the atom of its own name, no two distinct listed codes to the
same atom, and no listed code to the catch-all atom `error`. -/
theorem C14_translator_injective_on_listed (K : Header) (hnd : (listed_codes K).Nodup) :
    status_to_atom K K.UPS_SUCCESS = g_atom_ok
    ∧ (∀ p ∈ status_table K, status_to_atom K p.1 = .atom p.2)
    ∧ (∀ c1 ∈ listed_codes K, ∀ c2 ∈ listed_codes K,
        status_to_atom K c1 = status_to_atom K c2 → c1 = c2)
    ∧ (∀ c ∈ listed_codes K, status_to_atom K c ≠ g_atom_error) := by
  have hall : ∀ p ∈ status_table K, status_to_atom K p.1 = .atom p.2 := by
    intro p hp
    rw [status_to_atom_eq_chain]
    exact status_chain_mem _ _ p hnd hp
  have hnames : ((status_table K).map Prod.snd).Nodup := by
    simp only [status_table, List.map]
    decide
  have hnoerr : "error" ∉ (status_table K).map Prod.snd := by
    simp only [status_table, List.map]
    decide
  refine ⟨?_, hall, ?_, ?_⟩
  · exact hall (K.UPS_SUCCESS, "ok") (by simp [status_table])
  · intro c1 h1 c2 h2 heq
    obtain ⟨p, hp, rfl⟩ := List.mem_map.mp h1
    obtain ⟨q, hq, rfl⟩ := List.mem_map.mp h2
    rw [hall p hp, hall q hq] at heq
    injection heq with heq
    have hpq : p = q := List.inj_on_of_nodup_map hnames hp hq heq
    rw [hpq]
  · intro c hc heq
    obtain ⟨p, hp, rfl⟩ := List.mem_map.mp hc
    rw [hall p hp] at heq
    simp only [g_atom_error] at heq
    injection heq with heq
    apply hnoerr
    rw [← heq]
    exact List.mem_map_of_mem Prod.snd hp

/-- Witness of C14 on the header instance. -/
theorem C14_translator_injective_on_listed_witness :
    status_to_atom upscaledb_h upscaledb_h.UPS_SUCCESS = g_atom_ok
    ∧ (∀ p ∈ status_table upscaledb_h, status_to_atom upscaledb_h p.1 = .atom p.2)
    ∧ (∀ c1 ∈ listed_codes upscaledb_h, ∀ c2 ∈ listed_codes upscaledb_h,
        status_to_atom upscaledb_h c1 = status_to_atom upscaledb_h c2 → c1 = c2)
    ∧ (∀ c ∈ listed_codes upscaledb_h, status_to_atom upscaledb_h c ≠ g_atom_error) :=
  C14_translator_injective_on_listed upscaledb_h (by decide)

/-! ## Argument validation -/

set_option maxHeartbeats 2000000 in
/-- A NIF whose required handle argument fails the opening guard answers
`badarg` and changes nothing. -/
theorem guard_rejected (f : Nif) (H : Host) (w : World) (a : Term) (T : ResourceType)
    (rest : List Term) (hf : required_handle f = some T)
    (h : get_open_resource w a T = none) :
    ups_nif_funcs f H w (a :: rest) = (.badarg, w) := by
  cases f <;> simp [required_handle] at hf <;> simp only [ups_nif_funcs]
  all_goals
    first
    | unfold ups_nifs_strerror | unfold ups_nifs_env_create | unfold ups_nifs_env_open
    | unfold ups_nifs_env_create_db | unfold ups_nifs_env_open_db | unfold ups_nifs_env_rename_db
    | unfold ups_nifs_env_erase_db | unfold ups_nifs_db_insert | unfold ups_nifs_db_erase
    | unfold ups_nifs_db_find | unfold ups_nifs_db_find_flags | unfold ups_nifs_db_close
    | unfold ups_nifs_txn_begin | unfold ups_nifs_txn_abort | unfold ups_nifs_txn_commit
    | unfold ups_nifs_env_close | unfold ups_nifs_cursor_create | unfold ups_nifs_cursor_clone
    | unfold ups_nifs_cursor_move | unfold ups_nifs_cursor_overwrite | unfold ups_nifs_cursor_find
    | unfold ups_nifs_cursor_insert | unfold ups_nifs_cursor_erase
    | unfold ups_nifs_cursor_get_duplicate_count | unfold ups_nifs_cursor_get_record_size
    | unfold ups_nifs_cursor_close | unfold ups_nifs_uqi_select_range
    | unfold ups_nifs_uqi_result_get_row_count | unfold ups_nifs_uqi_result_get_key_type
    | unfold ups_nifs_uqi_result_get_record_type | unfold ups_nifs_uqi_result_get_key
    | unfold ups_nifs_uqi_result_get_record | unfold ups_nifs_uqi_result_close
  all_goals
    subst hf
    split
    · rename_i heq
      injection heq with h0 _
      subst h0
      simp only [g_ups_env_resource, g_ups_db_resource, g_ups_txn_resource,
        g_ups_cursor_resource, g_ups_result_resource, h]
    · rfl

theorem get_open_not_resource (w : World) (a : Term) (T : ResourceType)
    (h : enif_get_resource w a T = none) : get_open_resource w a T = none := by
  simp [get_open_resource, h]

theorem get_resource_wrong_kind (w : World) (id : Nat) (x : Wrapper) (T : ResourceType)
    (hx : w.heap[id]? = some x) (hT : x.rtype ≠ T) :
    enif_get_resource w (.resource id) T = none := by
  simp [enif_get_resource, hx, hT]

/-- C15 (as the code has it). The layer has one rejection only: a NIF given a
closed handle of the right kind as its required handle answers the same
`badarg`, with the same (unchanged) world, as when it is given in that place
any term that is not a handle of the right kind (a handle of another kind, or
no handle at all). -/
theorem C15_closed_and_wrong_kind_same_error (f : Nif) (H : Host) (w : World) (id : Nat)
    (T : ResourceType) (a : Term) (rest : List Term) (hf : required_handle f = some T)
    (hc : is_closed_handle w id T = true) (ha : enif_get_resource w a T = none) :
    ups_nif_funcs f H w (.resource id :: rest) = (.badarg, w)
    ∧ ups_nif_funcs f H w (a :: rest) = (.badarg, w)
    ∧ ups_nif_funcs f H w (.resource id :: rest) = ups_nif_funcs f H w (a :: rest) := by
  have e1 := guard_rejected f H w (.resource id) T rest hf (get_open_closed w id T T hc)
  have e2 := guard_rejected f H w a T rest hf (get_open_not_resource w a T ha)
  exact ⟨e1, e2, by rw [e1, e2]⟩

/-- Witness of C15 (as the code has it): `cursor_move` on a closed cursor and
on the atom `foo`. -/
theorem C15_closed_and_wrong_kind_same_error_witness :
    ups_nif_funcs .cursor_move (const_host 0) (closed_handle .cursor)
        (.resource 0 :: [.int 0]) = (.badarg, closed_handle .cursor)
    ∧ ups_nif_funcs .cursor_move (const_host 0) (closed_handle .cursor)
        (.atom "foo" :: [.int 0]) = (.badarg, closed_handle .cursor)
    ∧ ups_nif_funcs .cursor_move (const_host 0) (closed_handle .cursor)
        (.resource 0 :: [.int 0])
      = ups_nif_funcs .cursor_move (const_host 0) (closed_handle .cursor)
        (.atom "foo" :: [.int 0]) :=
  C15_closed_and_wrong_kind_same_error .cursor_move (const_host 0) (closed_handle .cursor) 0
    .cursor (.atom "foo") [.int 0] rfl rfl rfl

/-- C15 fails as stated: `cursor_move` on a closed cursor handle and
`cursor_move` on the atom `foo` have the same result, `badarg` with the world
unchanged; so have `env_create_db` on a closed environment and on an atom. -/
theorem C15_closed_handle_indistinguishable :
    ups_nifs_cursor_move (const_host 0) (closed_handle .cursor) [.resource 0, .int 0]
      = ups_nifs_cursor_move (const_host 0) (closed_handle .cursor) [.atom "foo", .int 0]
    ∧ (ups_nifs_cursor_move (const_host 0) (closed_handle .cursor)
        [.resource 0, .int 0]).1.isBadarg = true
    ∧ ups_nifs_env_create_db (const_host 0) (closed_handle .env)
        [.resource 0, .int 1, .int 0, .nil]
      = ups_nifs_env_create_db (const_host 0) (closed_handle .env)
        [.atom "foo", .int 1, .int 0, .nil]
    ∧ (ups_nifs_env_create_db (const_host 0) (closed_handle .env)
        [.resource 0, .int 1, .int 0, .nil]).1.isBadarg = true :=
  ⟨rfl, rfl, rfl, rfl⟩

/-! ## Explicit close with a failing engine -/

/-- What `cursor_move` does on an open cursor: it is not rejected and makes
exactly the engine call `ups_cursor_move` on the cursor's native object. -/
theorem cursor_move_open (H : Host) (w : World) (id : Nat) (x : Wrapper) (a1 : Term)
    (flags : Nat) (hx : w.heap[id]? = some x) (hT : x.rtype = .cursor)
    (ho : x.is_closed = false) (hu : enif_get_uint a1 = some flags) :
    (ups_nifs_cursor_move H w [.resource id, a1]).1.isBadarg = false
    ∧ (ups_nifs_cursor_move H w [.resource id, a1]).2.trace
        = w.trace ++ [.ups_cursor_move x.native flags] := by
  have hg := get_open_of_open w id x .cursor hx hT ho
  unfold ups_nifs_cursor_move
  dsimp only
  rw [show get_open_resource w (.resource id) g_ups_cursor_resource = some (id, x) from hg]
  dsimp only
  rw [hu]
  dsimp only
  constructor
  · repeat' split
    all_goals rfl
  · repeat' split
    all_goals rfl

/-- C18. On an open cursor `c` (wrapper object `id`): when the engine clones
it successfully, `cursor_clone` answers `{ok, Clone}` with `Clone` a new
wrapper object, distinct from `c`, open and holding the native clone.  After
`cursor_close` on the clone, whatever the engine answers to that close, the
wrapper object of `c` is exactly as before (flag clear), and a following
`cursor_move` on `c` is not rejected and makes the engine call
`ups_cursor_move` on `c`'s own native cursor. -/
theorem C18_closing_clone_leaves_original (H : Host) (w : World) (id : Nat) (x : Wrapper)
    (hx : w.heap[id]? = some x) (hT : x.rtype = .cursor) (ho : x.is_closed = false)
    (hst : (H.engine w.trace (.ups_cursor_clone x.native)).st = 0)
    (a1 : Term) (flags : Nat) (hu : enif_get_uint a1 = some flags) :
    (ups_nifs_cursor_clone H w [.resource id]).1 = ok_result (.resource w.heap.length)
    ∧ w.heap.length ≠ id
    ∧ (ups_nifs_cursor_clone H w [.resource id]).2.heap[w.heap.length]?
        = some ⟨.cursor, (H.engine w.trace (.ups_cursor_clone x.native)).handle, false⟩
    ∧ (ups_nifs_cursor_close H (ups_nifs_cursor_clone H w [.resource id]).2
        [.resource w.heap.length]).1.isBadarg = false
    ∧ (ups_nifs_cursor_close H (ups_nifs_cursor_clone H w [.resource id]).2
        [.resource w.heap.length]).2.heap[id]? = some x
    ∧ (ups_nifs_cursor_move H
        (ups_nifs_cursor_close H (ups_nifs_cursor_clone H w [.resource id]).2
          [.resource w.heap.length]).2 [.resource id, a1]).1.isBadarg = false
    ∧ (ups_nifs_cursor_move H
        (ups_nifs_cursor_close H (ups_nifs_cursor_clone H w [.resource id]).2
          [.resource w.heap.length]).2 [.resource id, a1]).2.trace
        = (ups_nifs_cursor_close H (ups_nifs_cursor_clone H w [.resource id]).2
            [.resource w.heap.length]).2.trace ++ [.ups_cursor_move x.native flags] := by
  have hg := get_open_of_open w id x .cursor hx hT ho
  have hlt : id < w.heap.length := (List.getElem?_eq_some_iff.mp hx).1
  have hclone : ups_nifs_cursor_clone H w [.resource id]
      = (ok_result (.resource w.heap.length),
         ⟨w.heap ++ [⟨.cursor, (H.engine w.trace (.ups_cursor_clone x.native)).handle, false⟩],
          w.trace ++ [.ups_cursor_clone x.native], w.allocs⟩) := by
    unfold ups_nifs_cursor_clone
    dsimp only
    rw [show get_open_resource w (.resource id) g_ups_cursor_resource = some (id, x) from hg]
    dsimp only [World.call]
    rw [if_neg (by rw [hst]; simp)]
    rfl
  have hnew : (w.heap ++ [⟨.cursor, (H.engine w.trace (.ups_cursor_clone x.native)).handle,
      false⟩] : List Wrapper)[w.heap.length]?
      = some ⟨.cursor, (H.engine w.trace (.ups_cursor_clone x.native)).handle, false⟩ := by
    simp
  have hold : (w.heap ++ [⟨.cursor, (H.engine w.trace (.ups_cursor_clone x.native)).handle,
      false⟩] : List Wrapper)[id]? = some x := by
    rw [List.getElem?_append_left hlt]
    exact hx
  have hclose := close_shape H
    ⟨w.heap ++ [⟨.cursor, (H.engine w.trace (.ups_cursor_clone x.native)).handle, false⟩],
     w.trace ++ [.ups_cursor_clone x.native], w.allocs⟩
    w.heap.length ⟨.cursor, (H.engine w.trace (.ups_cursor_clone x.native)).handle, false⟩
    .cursor (fun p => .ups_cursor_close p) ups_nifs_cursor_close (fun _ => rfl) hnew rfl rfl
  have hkeep : (ups_nifs_cursor_close H (ups_nifs_cursor_clone H w [.resource id]).2
      [.resource w.heap.length]).2.heap[id]? = some x := by
    rw [hclone]
    dsimp only
    rw [hclose]
    split
    · exact hold
    · simp only [World.set_closed, hnew]
      rw [List.getElem?_set_ne (by omega)]
      exact hold
  have hmove := cursor_move_open H
    (ups_nifs_cursor_close H (ups_nifs_cursor_clone H w [.resource id]).2
      [.resource w.heap.length]).2 id x a1 flags hkeep hT ho hu
  refine ⟨by rw [hclone], by omega, by rw [hclone]; exact hnew, ?_, hkeep, hmove.1, hmove.2⟩
  rw [hclone]
  dsimp only
  rw [hclose]
  split <;> rfl

/-- Witness of C18 with an engine that reports success. -/
theorem C18_closing_clone_leaves_original_witness :
    (ups_nifs_cursor_close (const_host 0)
        (ups_nifs_cursor_clone (const_host 0) (one_handle .cursor) [.resource 0]).2
        [.resource 1]).2.heap[0]? = some ⟨.cursor, 100, false⟩
    ∧ (ups_nifs_cursor_move (const_host 0)
        (ups_nifs_cursor_close (const_host 0)
          (ups_nifs_cursor_clone (const_host 0) (one_handle .cursor) [.resource 0]).2
          [.resource 1]).2 [.resource 0, .int 4]).1.isBadarg = false :=
  ⟨(C18_closing_clone_leaves_original (const_host 0) (one_handle .cursor) 0
      ⟨.cursor, 100, false⟩ rfl rfl rfl rfl (.int 4) 4 rfl).2.2.2.2.1,
   (C18_closing_clone_leaves_original (const_host 0) (one_handle .cursor) 0
      ⟨.cursor, 100, false⟩ rfl rfl rfl rfl (.int 4) 4 rfl).2.2.2.2.2.1⟩

/-! ## Handles of the wrong kind -/

/-- C19 (as the code has it). A handle of another kind than expected, given as
the required (first) handle argument of any NIF, is answered with `badarg`
and nothing changes.  Given as the optional Transaction argument of
`db_insert`, `db_erase`, `db_find`, `db_find_flags` or `cursor_create`, or as
an optional Cursor argument of `uqi_select_range`, it is taken as an absent
argument: the NIF behaves exactly as when it is given an atom there. -/
theorem C19_wrong_kind_handle (H : Host) (w : World) (id : Nat) (x : Wrapper)
    (hx : w.heap[id]? = some x) :
    (∀ (f : Nif) (T : ResourceType) (rest : List Term), required_handle f = some T →
        x.rtype ≠ T → ups_nif_funcs f H w (.resource id :: rest) = (.badarg, w))
    ∧ (x.rtype ≠ .txn → ∀ (a0 a2 a3 a4 : Term) (name : String),
        ups_nifs_db_insert H w [a0, .resource id, a2, a3, a4]
          = ups_nifs_db_insert H w [a0, .atom name, a2, a3, a4]
        ∧ ups_nifs_db_erase H w [a0, .resource id, a2]
          = ups_nifs_db_erase H w [a0, .atom name, a2]
        ∧ ups_nifs_db_find H w [a0, .resource id, a2]
          = ups_nifs_db_find H w [a0, .atom name, a2]
        ∧ ups_nifs_db_find_flags H w [a0, .resource id, a2, a3]
          = ups_nifs_db_find_flags H w [a0, .atom name, a2, a3]
        ∧ ups_nifs_cursor_create H w [a0, .resource id]
          = ups_nifs_cursor_create H w [a0, .atom name])
    ∧ (x.rtype ≠ .cursor → ∀ (a0 a1 a2 a3 : Term) (name : String),
        ups_nifs_uqi_select_range H w [a0, a1, .resource id, a3]
          = ups_nifs_uqi_select_range H w [a0, a1, .atom name, a3]
        ∧ ups_nifs_uqi_select_range H w [a0, a1, a2, .resource id]
          = ups_nifs_uqi_select_range H w [a0, a1, a2, .atom name]) := by
  refine ⟨?_, ?_, ?_⟩
  · intro f T rest hf hT
    exact guard_rejected f H w (.resource id) T rest hf
      (get_open_not_resource w _ T (get_resource_wrong_kind w id x T hx hT))
  · intro hT a0 a2 a3 a4 name
    have h1 : enif_get_resource w (.resource id) g_ups_txn_resource = none :=
      get_resource_wrong_kind w id x .txn hx hT
    have h2 : enif_get_resource w (.atom name) g_ups_txn_resource = none := rfl
    refine ⟨?_, ?_, ?_, ?_, ?_⟩
    · unfold ups_nifs_db_insert
      dsimp only
      rw [h1, h2]
    · unfold ups_nifs_db_erase
      dsimp only
      rw [h1, h2]
    · unfold ups_nifs_db_find
      dsimp only
      rw [h1, h2]
    · unfold ups_nifs_db_find_flags
      dsimp only
      rw [h1, h2]
    · unfold ups_nifs_cursor_create
      dsimp only
      rw [h1, h2]
  · intro hT a0 a1 a2 a3 name
    have h1 : get_open_resource w (.resource id) g_ups_cursor_resource = none :=
      get_open_not_resource w _ _ (get_resource_wrong_kind w id x .cursor hx hT)
    have h2 : get_open_resource w (.atom name) g_ups_cursor_resource = none := rfl
    constructor
    · unfold ups_nifs_uqi_select_range
      dsimp only
      rw [h1, h2]
    · unfold ups_nifs_uqi_select_range
      dsimp only
      rw [h1, h2]

/-- Witness of C19 (as the code has it): a database handle where a
transaction is expected. -/
theorem C19_wrong_kind_handle_witness :
    ups_nifs_db_erase (const_host 0) (one_handle .db) [.resource 0, .resource 0, .binary 8 [1]]
      = ups_nifs_db_erase (const_host 0) (one_handle .db)
          [.resource 0, .atom "undefined", .binary 8 [1]] :=
  ((C19_wrong_kind_handle (const_host 0) (one_handle .db) 0 ⟨.db, 100, false⟩ rfl).2.1
    (by decide) (.resource 0) (.binary 8 [1]) .nil .nil "undefined").2.1

set_option maxRecDepth 100000 in
/-- C19 fails as stated: `db_insert` given the database handle itself where the
transaction is expected does not answer `badarg`; it calls `ups_db_insert`
with a null transaction.  Likewise `uqi_select_range` given a database handle
for both cursors calls `uqi_select_range` with null cursors. -/
theorem C19_wrong_kind_optional_handle_accepted :
    (ups_nifs_db_insert (const_host 0) (one_handle .db)
        [.resource 0, .resource 0, .binary 8 [1], .binary 16 [2], .int 0]).1.isBadarg = false
    ∧ (ups_nifs_db_insert (const_host 0) (one_handle .db)
        [.resource 0, .resource 0, .binary 8 [1], .binary 16 [2], .int 0]).2.trace
        = [.ups_db_insert 100 0 ⟨1, 8, [1]⟩ ⟨1, 16, [2]⟩ 0]
    ∧ (ups_nifs_uqi_select_range (const_host 0) (two_handles .env .db)
        [.resource 0, mkString [113], .resource 1, .resource 1]).1.isBadarg = false
    ∧ (ups_nifs_uqi_select_range (const_host 0) (two_handles .env .db)
        [.resource 0, mkString [113], .resource 1, .resource 1]).2.trace
        = [.uqi_select_range 100 [113] 0 0] := by
  decide

/-! ## Buffers handed to the host -/

theorem memcpy_length (src : List Nat) (n : Nat) : (memcpy src n).length = n := by
  simp [memcpy]

theorem memcpy_getElem (src : List Nat) (n k : Nat) (hk : k < n) :
    (memcpy src n)[k]? = some (src.getD k 0) := by
  simp [memcpy, List.getElem?_range hk]

theorem return_binary_eq (H : Host) (w : World) (size : Nat) (bytes : List Nat) :
    return_binary H w size bytes = buffer_answer H w size bytes := by
  unfold return_binary buffer_answer enif_alloc_binary
  dsimp only
  cases H.alloc_binary w.allocs size <;> rfl

/-- C20. Every byte buffer the layer hands to the host has exactly the size of
the descriptor it is copied from and holds the descriptor's bytes in order
(none for size 0).  After a successful engine call, `db_find` and
`cursor_find` answer the record descriptor in this way, `uqi_result_get_key`
and `uqi_result_get_record` the key resp. record descriptor, and `cursor_move`
the key and the record descriptor; when an allocation fails the NIF answers
the out-of-memory error instead, without payload. -/
theorem C20_returned_buffers (H : Host) (w : World) (id : Nat) (x : Wrapper)
    (hx : w.heap[id]? = some x) (ho : x.is_closed = false) :
    (∀ (size : Nat) (bytes : List Nat),
        ((List.range size).map (fun k => bytes.getD k 0)).length = size
        ∧ ∀ k < size, ((List.range size).map (fun k => bytes.getD k 0))[k]?
            = some (bytes.getD k 0))
    ∧ (∀ (size : Nat) (bytes : List Nat) (addr : Nat) (w1 : World),
        H.alloc_binary w1.allocs size = some addr →
        (buffer_answer H w1 size bytes).1
          = .term (.tuple [g_atom_ok,
              .binary addr ((List.range size).map (fun k => bytes.getD k 0))]))
    ∧ (∀ (size : Nat) (bytes : List Nat) (w1 : World),
        H.alloc_binary w1.allocs size = none →
        (buffer_answer H w1 size bytes).1
          = .term (.tuple [g_atom_error, status_to_atom H.K H.K.UPS_OUT_OF_MEMORY]))
    ∧ (∀ (key : ups_key_t) (record : ups_record_t) (ak ar : Nat) (w1 : World),
        H.alloc_binary w1.allocs key.size = some ak →
        H.alloc_binary (w1.allocs + 1) record.size = some ar →
        (two_buffer_answer H w1 key record).1
          = .term (.tuple [g_atom_ok,
              .binary ak ((List.range key.size).map (fun k => key.bytes.getD k 0)),
              .binary ar ((List.range record.size).map (fun k => record.bytes.getD k 0))]))
    ∧ (∀ (key : ups_key_t) (record : ups_record_t) (w1 : World),
        (H.alloc_binary w1.allocs key.size = none
          ∨ H.alloc_binary (w1.allocs + 1) record.size = none) →
        (two_buffer_answer H w1 key record).1
          = .term (.tuple [g_atom_error, status_to_atom H.K H.K.UPS_OUT_OF_MEMORY]))
    ∧ (x.rtype = .db → ∀ (a1 a2 : Term) (binkey : ErlNifBinary) (r : Reply),
        opt_is_closed (enif_get_resource w a1 g_ups_txn_resource) = false →
        enif_inspect_binary a2 = some binkey →
        H.engine w.trace (.ups_db_find x.native
          (opt_native (enif_get_resource w a1 g_ups_txn_resource))
          ⟨binkey.size, binkey.data, binkey.bytes⟩ 0) = r →
        r.st = 0 →
        ups_nifs_db_find H w [.resource id, a1, a2]
          = buffer_answer H
              { w with trace := w.trace ++ [.ups_db_find x.native
                  (opt_native (enif_get_resource w a1 g_ups_txn_resource))
                  ⟨binkey.size, binkey.data, binkey.bytes⟩ 0] }
              r.record.size r.record.bytes)
    ∧ (x.rtype = .cursor → ∀ (a1 : Term) (binkey : ErlNifBinary) (r : Reply),
        enif_inspect_binary a1 = some binkey →
        H.engine w.trace (.ups_cursor_find x.native
          ⟨binkey.size, binkey.data, binkey.bytes⟩ 0) = r →
        r.st = 0 →
        ups_nifs_cursor_find H w [.resource id, a1]
          = buffer_answer H
              { w with trace := w.trace ++ [.ups_cursor_find x.native
                  ⟨binkey.size, binkey.data, binkey.bytes⟩ 0] }
              r.record.size r.record.bytes)
    ∧ (x.rtype = .cursor → ∀ (a1 : Term) (flags : Nat) (r : Reply),
        enif_get_uint a1 = some flags →
        H.engine w.trace (.ups_cursor_move x.native flags) = r →
        r.st = 0 →
        ups_nifs_cursor_move H w [.resource id, a1]
          = two_buffer_answer H
              { w with trace := w.trace ++ [.ups_cursor_move x.native flags] } r.key r.record)
    ∧ (x.rtype = .result → ∀ (a1 : Term) (row : Int) (r : Reply),
        enif_get_int a1 = some row →
        H.engine w.trace (.uqi_result_get_key x.native row) = r →
        ups_nifs_uqi_result_get_key H w [.resource id, a1]
          = buffer_answer H
              { w with trace := w.trace ++ [.uqi_result_get_key x.native row] }
              r.key.size r.key.bytes)
    ∧ (x.rtype = .result → ∀ (a1 : Term) (row : Int) (r : Reply),
        enif_get_int a1 = some row →
        H.engine w.trace (.uqi_result_get_record x.native row) = r →
        ups_nifs_uqi_result_get_record H w [.resource id, a1]
          = buffer_answer H
              { w with trace := w.trace ++ [.uqi_result_get_record x.native row] }
              r.record.size r.record.bytes) := by
  refine ⟨?_, ?_, ?_, ?_, ?_, ?_, ?_, ?_, ?_, ?_⟩
  · intro size bytes
    exact ⟨memcpy_length bytes size, fun k hk => memcpy_getElem bytes size k hk⟩
  · intro size bytes addr w1 ha
    simp only [buffer_answer, ha]
  · intro size bytes w1 ha
    simp only [buffer_answer, ha]
  · intro key record ak ar w1 hk hr
    simp only [two_buffer_answer, hk, hr]
  · intro key record w1 h
    unfold two_buffer_answer
    cases hk : H.alloc_binary w1.allocs key.size with
    | none => rfl
    | some ak =>
      dsimp only
      rcases h with h | h
      · rw [hk] at h
        cases h
      · rw [h]
  · intro hT a1 a2 binkey r h1 hb hr hst
    have hg := get_open_of_open w id x .db hx hT ho
    rw [← return_binary_eq]
    unfold ups_nifs_db_find
    dsimp only
    rw [show get_open_resource w (.resource id) g_ups_db_resource = some (id, x) from hg]
    dsimp only
    rw [h1, hb]
    dsimp only [World.call]
    rw [hr, if_neg (by simp), if_neg (by rw [hst]; simp)]
  · intro hT a1 binkey r hb hr hst
    have hg := get_open_of_open w id x .cursor hx hT ho
    rw [← return_binary_eq]
    unfold ups_nifs_cursor_find
    dsimp only
    rw [show get_open_resource w (.resource id) g_ups_cursor_resource = some (id, x) from hg]
    dsimp only
    rw [hb]
    dsimp only [World.call]
    rw [hr, if_neg (by rw [hst]; simp)]
  · intro hT a1 flags r hu hr hst
    have hg := get_open_of_open w id x .cursor hx hT ho
    unfold ups_nifs_cursor_move two_buffer_answer
    dsimp only
    rw [show get_open_resource w (.resource id) g_ups_cursor_resource = some (id, x) from hg]
    dsimp only
    rw [hu]
    dsimp only [World.call, enif_alloc_binary]
    rw [hr, if_neg (by rw [hst]; simp)]
    cases hk : H.alloc_binary w.allocs r.key.size with
    | none => rfl
    | some ak =>
      dsimp only
      cases hrec : H.alloc_binary (w.allocs + 1) r.record.size with
      | none => rfl
      | some ar => rfl
  · intro hT a1 row r hi hr
    have hg := get_open_of_open w id x .result hx hT ho
    rw [← return_binary_eq]
    unfold ups_nifs_uqi_result_get_key
    dsimp only
    rw [show get_open_resource w (.resource id) g_ups_result_resource = some (id, x) from hg]
    dsimp only
    rw [hi]
    dsimp only [World.call]
    rw [hr]
  · intro hT a1 row r hi hr
    have hg := get_open_of_open w id x .result hx hT ho
    rw [← return_binary_eq]
    unfold ups_nifs_uqi_result_get_record
    dsimp only
    rw [show get_open_resource w (.resource id) g_ups_result_resource = some (id, x) from hg]
    dsimp only
    rw [hi]
    dsimp only [World.call]
    rw [hr]

/-- Witness of C20: `db_find` with an engine that reports the record
`<<1, 2, 3>>`. -/
theorem C20_returned_buffers_witness :
    ups_nifs_db_find (reply_host (sample_reply 0)) (one_handle .db)
        [.resource 0, .atom "undefined", .binary 800 [1, 2]]
      = buffer_answer (reply_host (sample_reply 0))
          { one_handle .db with
            trace := (one_handle .db).trace ++ [.ups_db_find 100
              (opt_native (enif_get_resource (one_handle .db) (.atom "undefined")
                g_ups_txn_resource)) ⟨2, 800, [1, 2]⟩ 0] }
          (sample_reply 0).record.size (sample_reply 0).record.bytes :=
  (C20_returned_buffers (reply_host (sample_reply 0)) (one_handle .db) 0 ⟨.db, 100, false⟩
    rfl rfl).2.2.2.2.2.1 rfl (.atom "undefined") (.binary 800 [1, 2]) ⟨2, 800, [1, 2]⟩
    (sample_reply 0) rfl rfl rfl rfl

/-! ## Marshalled entries -/

/-- What a successful round of the loop has done: the entry is `{Name, Value}`
and `Name`, read up to its first NUL, is a recognized name; a read-only name
stores the tag only, any other name stores the tag and a value, which for a
numeric name is the supplied unsigned 64-bit integer. -/
theorem get_parameters_cell_true (K : Header) (cell : Term) (i : Nat) (s s1 : ParamState)
    (h : get_parameters_cell K cell i s = (true, s1)) :
    ∃ (name : String) (v : Term) (tag : Nat), cell = .tuple [.atom name, v]
      ∧ param_tag K (c_str name) = some tag
      ∧ ((c_str name ∈ readonly_names ∧ s1.parameters = s.parameters.set_name i tag)
        ∨ (c_str name ∉ readonly_names ∧ ∃ val : Nat,
            s1.parameters = (s.parameters.set_name i tag).set_value i val
            ∧ (c_str name ∈ numeric_names → val < 2 ^ 64 ∧ v = .int val))) := by
  rcases get_parameters_cell_shape K cell i s with hs | ⟨atom, a1, rfl, ha⟩
  · rw [hs] at h
    injection h with h1 _
    exact Bool.noConfusion h1
  · refine ⟨atom, a1, ?_⟩
    rcases get_parameters_cell_cases K atom a1 i s _ ha h with
      ⟨_, hr⟩ | ⟨tag, hnum, htag, hr⟩ | ⟨tag, buf, hstr, htag, ⟨_, hr, _⟩ | ⟨_, _, hr⟩⟩
        | ⟨tag, hro, htag, hr⟩
    · injection hr with h1 _
      exact Bool.noConfusion h1
    · obtain ⟨val, hv, hp⟩ := numeric_parameter_true _ _ _ _ _ hr.symm
      obtain ⟨hlt, hveq⟩ := enif_get_uint64_some _ _ hv
      exact ⟨tag, rfl, htag, Or.inr ⟨(numeric_not_other _ hnum).2, val, hp,
        fun _ => ⟨hlt, hveq⟩⟩⟩
    · exact Bool.noConfusion hr
    · exact ⟨tag, rfl, htag, Or.inr ⟨(string_not_other _ hstr).2, _, hr,
        fun hmem => absurd hmem (string_not_other _ hstr).1⟩⟩
    · exact ⟨tag, rfl, htag, Or.inl ⟨hro, readonly_parameter_true _ _ _ _ hr.symm⟩⟩

/-- The effect of a successful round on an output array whose entry `i` is
inside the array and still zero. -/
theorem get_parameters_cell_effect (K : Header) (cell : Term) (i : Nat) (s s1 : ParamState)
    (h : get_parameters_cell K cell i s = (true, s1))
    (hz : s.parameters.cells[i]? = some ⟨0, 0⟩) :
    s1.parameters.oob = s.parameters.oob
    ∧ s1.parameters.cells.length = s.parameters.cells.length
    ∧ (∀ j, j ≠ i → s1.parameters.cells[j]? = s.parameters.cells[j]?)
    ∧ ∃ out, s1.parameters.cells[i]? = some out ∧ marshalled K cell out := by
  obtain ⟨name, v, tag, hcell, htag, hro | ⟨hnro, val, hp, hnum⟩⟩ :=
    get_parameters_cell_true K cell i s s1 h
  · obtain ⟨hro, hp⟩ := hro
    rw [hp, set_name_in_bounds _ _ _ _ hz]
    refine ⟨rfl, List.length_set _ _ _, fun j hj => List.getElem?_set_ne (Ne.symm hj), ?_⟩
    refine ⟨_, getElem?_set_self_of_some _ _ _ _ hz, name, v, hcell, htag, ?_, fun _ => rfl⟩
    intro hmem
    exact absurd hmem (readonly_not_numeric _ hro)
  · have h1 := set_name_in_bounds s.parameters i tag _ hz
    have h2 : (s.parameters.set_name i tag).cells[i]? = some ⟨tag, 0⟩ := by
      rw [h1]
      exact getElem?_set_self_of_some _ _ _ _ hz
    rw [hp, set_value_in_bounds _ _ _ _ h2, h1]
    refine ⟨rfl, ?_, fun j hj => ?_, ?_⟩
    · simp only [List.length_set]
    · rw [List.getElem?_set_ne (Ne.symm hj), List.getElem?_set_ne (Ne.symm hj)]
    · refine ⟨_, getElem?_set_self_of_some _ _ (ups_parameter_t.mk tag 0) _
        (getElem?_set_self_of_some _ _ _ _ hz), name, v, hcell, htag, ?_,
        fun hmem => absurd hmem hnro⟩
      · intro hmem
        obtain ⟨hlt, hv⟩ := hnum hmem
        exact ⟨val, hlt, hv, rfl⟩

theorem get_parameters_loop_end (K : Header) (tl : Term) (i : Nat) (s : ParamState)
    (h : enif_get_list_cell tl = none) : get_parameters_loop K tl i s = (1, s) := by
  cases tl <;> first | (simp [enif_get_list_cell] at h; done) | simp [get_parameters_loop]

/-- The loop on a list of entries that all fall on zero entries inside the
output array: an accepted list leaves the out-of-bounds log and the length of
the array as they were, touches no entry outside `[i, i + n)`, and entry
`i + k` is what input entry `k` asks for. -/
theorem get_parameters_loop_marshalled (K : Header) (xs : List Term) (tl : Term)
    (htl : enif_get_list_cell tl = none) :
    ∀ (i : Nat) (s s2 : ParamState),
      (∀ j, i ≤ j → j < i + xs.length → s.parameters.cells[j]? = some ⟨0, 0⟩) →
      get_parameters_loop K (mkList xs tl) i s = (1, s2) →
      s2.parameters.oob = s.parameters.oob
      ∧ s2.parameters.cells.length = s.parameters.cells.length
      ∧ (∀ j, (j < i ∨ i + xs.length ≤ j) →
          s2.parameters.cells[j]? = s.parameters.cells[j]?)
      ∧ (∀ (k : Nat) (cell : Term), xs[k]? = some cell →
          ∃ out, s2.parameters.cells[i + k]? = some out ∧ marshalled K cell out) := by
  induction xs with
  | nil =>
    intro i s s2 _ h
    simp only [mkList, List.foldr] at h
    rw [get_parameters_loop_end K tl i s htl] at h
    injection h with _ h
    subst h
    refine ⟨rfl, rfl, fun _ _ => rfl, ?_⟩
    intro k cell hk
    simp at hk
  | cons x rest ih =>
    intro i s s2 hz h
    simp only [mkList, List.foldr, get_parameters_loop] at h
    split at h
    · injection h with h _
      exact absurd h (by decide)
    · rename_i s1 heq
      have hzi : s.parameters.cells[i]? = some ⟨0, 0⟩ :=
        hz i (Nat.le_refl _) (by simp only [List.length_cons]; omega)
      obtain ⟨hoob, hlen, hother, out, hout, hm⟩ :=
        get_parameters_cell_effect K x i s s1 heq hzi
      have hz1 : ∀ j, i + 1 ≤ j → j < i + 1 + rest.length →
          s1.parameters.cells[j]? = some ⟨0, 0⟩ := by
        intro j h1 h2
        rw [hother j (by omega)]
        exact hz j (by omega) (by simp only [List.length_cons]; omega)
      obtain ⟨hoob2, hlen2, hother2, hm2⟩ := ih (i + 1) s1 s2 hz1 h
      refine ⟨hoob2.trans hoob, hlen2.trans hlen, ?_, ?_⟩
      · intro j hj
        simp only [List.length_cons] at hj
        rw [hother2 j (by omega), hother j (by omega)]
      · intro k cell hk
        cases k with
        | zero =>
          simp only [List.getElem?_cons_zero, Option.some.injEq] at hk
          subst hk
          refine ⟨out, ?_, hm⟩
          rw [Nat.add_zero, hother2 i (Or.inl (Nat.lt_succ_self i))]
          exact hout
        | succ k =>
          simp only [List.getElem?_cons_succ] at hk
          obtain ⟨o, ho, hmo⟩ := hm2 k cell hk
          refine ⟨o, ?_, hmo⟩
          rw [show i + (k + 1) = i + 1 + k by omega]
          exact ho

theorem params_init_zero (j : Nat) (h : j < MAX_PARAMETERS) :
    params_init.cells[j]? = some ⟨0, 0⟩ := by
  unfold params_init
  simp only [List.getElem?_replicate]
  rw [if_pos h]

/-- C21 (as the code has it). A parameter list of `n < 64` entries (the elements `xs`
before the first tail `tl` that is not a list cell) accepted by
`get_parameters` on the zero-initialised array of 64 entries: nothing is stored
outside the array, and for every position `k` output entry `k` is what input
entry `k` asks for, that is the entry is `{Name, Value}`, `Name` read up to its
first NUL is a recognized name and the output carries the engine tag of that
name, for a numeric name the value is the supplied unsigned 64-bit integer and
for a read-only name the value is zero; the entries from `n` on are still
zero. -/
theorem C21_entries_marshalled_in_order (K : Header) (xs : List Term) (tl : Term)
    (b1 b2 : List Nat) (s2 : ParamState)
    (hn : xs.length < MAX_PARAMETERS) (htl : enif_get_list_cell tl = none)
    (hacc : get_parameters K (mkList xs tl) ⟨params_init, b1, b2⟩ = (1, s2)) :
    s2.parameters.oob = [] ∧ s2.parameters.cells.length = MAX_PARAMETERS
    ∧ (∀ (k : Nat) (cell : Term), xs[k]? = some cell →
        ∃ out, s2.parameters.cells[k]? = some out ∧ marshalled K cell out)
    ∧ (∀ k, xs.length ≤ k → k < MAX_PARAMETERS →
        s2.parameters.cells[k]? = some ⟨0, 0⟩) := by
  unfold get_parameters at hacc
  split at hacc
  · injection hacc with h _
    exact absurd h (by decide)
  · obtain ⟨hoob, hlen, hother, hm⟩ :=
      get_parameters_loop_marshalled K xs tl htl 0 ⟨params_init, b1, b2⟩ s2
        (fun j _ hj => params_init_zero j (by omega)) hacc
    refine ⟨hoob, ?_, ?_, ?_⟩
    · rw [hlen]
      exact List.length_replicate _ _
    · intro k cell hk
      have := hm k cell hk
      rwa [Nat.zero_add] at this
    · intro k h1 h2
      rw [hother k (Or.inr (by omega))]
      exact params_init_zero k h2

set_option maxRecDepth 100000 in
/-- Witness of C21 on `mixed_entries`. -/
theorem C21_entries_marshalled_in_order_witness :
    mixed_entries.length < MAX_PARAMETERS
    ∧ enif_get_list_cell Term.nil = none
    ∧ get_parameters upscaledb_h (mkList mixed_entries .nil) ⟨params_init, [], []⟩
        = (1, mixed_output)
    ∧ (mixed_output.parameters.oob = [] ∧ mixed_output.parameters.cells.length = MAX_PARAMETERS
      ∧ (∀ (k : Nat) (cell : Term), mixed_entries[k]? = some cell →
          ∃ out, mixed_output.parameters.cells[k]? = some out
            ∧ marshalled upscaledb_h cell out)
      ∧ (∀ k, mixed_entries.length ≤ k → k < MAX_PARAMETERS →
          mixed_output.parameters.cells[k]? = some ⟨0, 0⟩)) :=
  ⟨by decide, rfl, by decide,
   C21_entries_marshalled_in_order upscaledb_h mixed_entries .nil [] [] mixed_output
     (by decide) rfl (by decide)⟩

set_option maxRecDepth 100000 in
/-- C21 fails as stated: the names of `nul_entries`, `page_size` and `filename`
each followed by NUL and `x`, are the names of no engine tag, yet the list is
accepted and its entries carry `UPS_PARAM_PAGE_SIZE` with the value 4096 and
`UPS_PARAM_FILENAME` with the value 0. -/
theorem C21_nul_suffixed_name_marshalled :
    param_tag upscaledb_h ("page_size" ++ nul_x) = none
    ∧ param_tag upscaledb_h ("filename" ++ nul_x) = none
    ∧ get_parameters upscaledb_h (mkList nul_entries .nil) ⟨params_init, [], []⟩
        = (1, ⟨⟨[⟨0x101, 4096⟩, ⟨0x202, 0⟩] ++ List.replicate 62 ⟨0, 0⟩, []⟩, [], []⟩) := by
  decide

/-! ## Integers reported by the engine -/

set_option maxRecDepth 100000 in
/-- C22 (failing input). The engine reports the unsigned 32-bit value
`2147483648 = 2^31` (and `4294967295 = 2^32 - 1`): `uqi_result_get_row_count`,
`uqi_result_get_key_type`, `uqi_result_get_record_type`,
`cursor_get_duplicate_count` and `cursor_get_record_size` answer
`{ok, -2147483648}` (and `{ok, -1}`), a negative integer that is not the
reported value. -/
theorem C22_large_value_returned_negative :
    ((ups_nifs_uqi_result_get_row_count (reply_host (sample_reply 2147483648))
        (one_handle .result) [.resource 0]).1.elems.map Term.int_value
        = [none, some (-2147483648)])
    ∧ ((ups_nifs_uqi_result_get_key_type (reply_host (sample_reply 2147483648))
        (one_handle .result) [.resource 0]).1.elems.map Term.int_value
        = [none, some (-2147483648)])
    ∧ ((ups_nifs_uqi_result_get_record_type (reply_host (sample_reply 2147483648))
        (one_handle .result) [.resource 0]).1.elems.map Term.int_value
        = [none, some (-2147483648)])
    ∧ ((ups_nifs_cursor_get_duplicate_count (reply_host (sample_reply 2147483648))
        (one_handle .cursor) [.resource 0]).1.elems.map Term.int_value
        = [none, some (-2147483648)])
    ∧ ((ups_nifs_cursor_get_record_size (reply_host (sample_reply 2147483648))
        (one_handle .cursor) [.resource 0]).1.elems.map Term.int_value
        = [none, some (-2147483648)])
    ∧ ((ups_nifs_uqi_result_get_row_count (reply_host (sample_reply 4294967295))
        (one_handle .result) [.resource 0]).1.elems.map Term.int_value
        = [none, some (-1)])
    ∧ ((ups_nifs_cursor_get_duplicate_count (reply_host (sample_reply 4294967295))
        (one_handle .cursor) [.resource 0]).1.elems.map Term.int_value
        = [none, some (-1)])
    ∧ ((ups_nifs_cursor_get_record_size (reply_host (sample_reply 4294967295))
        (one_handle .cursor) [.resource 0]).1.elems.map Term.int_value
        = [none, some (-1)]) := by
  decide

end UpsNifs
